import Mathlib

/-!
# edgebeat: the snapshot store and the metric aggregator

A shallow embedding of `pkg/utils/utils.go`, `pkg/controller/store.go`,
`pkg/controller/controller.go`, `pkg/controller/root.go`, `pkg/mqtt/mqtt.go`,
`pkg/config/config.go` and the publisher set-up of `cmd/edgebeat/edgebeat.go`.

Conventions of the embedding.

* `float64` is a type parameter `F`.  The code only moves float values around,
  except `avgFloat64`, which uses the zero, the addition, the division and the
  conversion from a length; those are taken from the instances on `F`.
* `uint64` fields are `Nat`, `int`, `int32` and `int64` fields are `Int`; no
  arithmetic is done on them.
* A Go slice is a `List`; a nil slice and an empty slice are both `[]`, except
  in the result of `Store.Get`, where the literal `nil` is `none`.
* A Go pointer is an `Option`; `none` is the nil pointer.
* `sync.RWMutex` is left out: the embedding is the sequential behaviour.
* A run of `Run` is a function of its surroundings: what the providers return in
  each cycle, which provider call panics, what the MQTT client does, and which
  ready case each `select` takes.  It yields the list of its observable steps.
* Library functions (`json.Marshal`, `json.Unmarshal`, `os.ReadFile`,
  `yaml.Unmarshal`) are parameters.
-/

namespace Edgebeat

/-! ## pkg/utils/utils.go -/

structure CPUInfo (F : Type) where
  ModelName : String
  Cores : Int
  Mhz : F
  CacheSize : Int

structure CPUTimes (F : Type) where
  User : F
  System : F
  Idle : F
  Nice : F
  Iowait : F
  Irq : F
  SoftIrq : F
  Steal : F
  Guest : F
  GuestNice : F

structure CPUStats (F : Type) where
  Info : List (CPUInfo F)
  TotalTimes : CPUTimes F
  PerCPUTimes : List (CPUTimes F)
  TotalPercent : F
  PerCPUPercent : List F

structure LoadStats (F : Type) where
  Load1 : F
  Load5 : F
  Load15 : F

structure VirtualMemory (F : Type) where
  Total : Nat
  Available : Nat
  Used : Nat
  Free : Nat
  Buffers : Nat
  Cached : Nat
  Active : Nat
  Inactive : Nat
  UsedPercent : F

structure SwapMemory (F : Type) where
  Total : Nat
  Used : Nat
  Free : Nat
  UsedPercent : F

structure MemoryStats (F : Type) where
  Virtual : VirtualMemory F
  Swap : SwapMemory F

structure DiskPartition where
  Device : String
  Mountpoint : String
  FSType : String

structure DiskUsage (F : Type) where
  Device : String
  Mountpoint : String
  FSType : String
  Total : Nat
  Used : Nat
  Free : Nat
  UsedPercent : F

structure DiskIO where
  Device : String
  ReadBytes : Nat
  WriteBytes : Nat
  ReadCount : Nat
  WriteCount : Nat
  ReadTimeMS : Nat
  WriteTimeMS : Nat

structure DiskStats (F : Type) where
  Partitions : List DiskPartition
  Usage : List (DiskUsage F)
  /-- The field `IO` of the source. -/
  Io : List DiskIO

structure NetInterface where
  Name : String
  MTU : Int
  HardwareAddr : String
  Flags : List String
  Addrs : List String

structure NetIO where
  BytesSent : Nat
  BytesRecv : Nat
  PacketsSent : Nat
  PacketsRecv : Nat
  Errin : Nat
  Errout : Nat
  Dropin : Nat
  Dropout : Nat

structure NetworkStats where
  Interfaces : List NetInterface
  Totals : NetIO

structure HostUser where
  User : String
  Terminal : String
  Host : String
  StartedUnix : Int

structure HostStats where
  Hostname : String
  OS : String
  Platform : String
  PlatformFamily : String
  PlatformVersion : String
  KernelVersion : String
  KernelArch : String
  UptimeSeconds : Nat
  BootTime : Nat
  Procs : Nat
  VirtualizationSystem : String
  VirtualizationRole : String
  Users : List HostUser

structure Temperature (F : Type) where
  SensorKey : String
  Value : F
  High : F
  Critical : F

structure Fan (F : Type) where
  SensorKey : String
  Value : F

structure SensorsStats (F : Type) where
  Temperatures : List (Temperature F)
  Fans : List (Fan F)

structure SystemInfo (F : Type) where
  Timestamp : String
  CPU : CPUStats F
  Load : LoadStats F
  Memory : MemoryStats F
  Disk : DiskStats F
  Network : NetworkStats
  Host : HostStats
  Sensors : SensorsStats F
  Errors : List String

/-! ### Go zero values of the section types -/

def CPUTimes.zero (F : Type) [Zero F] : CPUTimes F :=
  { User := 0, System := 0, Idle := 0, Nice := 0, Iowait := 0, Irq := 0,
    SoftIrq := 0, Steal := 0, Guest := 0, GuestNice := 0 }

def CPUStats.zero (F : Type) [Zero F] : CPUStats F :=
  { Info := [], TotalTimes := CPUTimes.zero F, PerCPUTimes := [],
    TotalPercent := 0, PerCPUPercent := [] }

def LoadStats.zero (F : Type) [Zero F] : LoadStats F :=
  { Load1 := 0, Load5 := 0, Load15 := 0 }

def VirtualMemory.zero (F : Type) [Zero F] : VirtualMemory F :=
  { Total := 0, Available := 0, Used := 0, Free := 0, Buffers := 0, Cached := 0,
    Active := 0, Inactive := 0, UsedPercent := 0 }

def SwapMemory.zero (F : Type) [Zero F] : SwapMemory F :=
  { Total := 0, Used := 0, Free := 0, UsedPercent := 0 }

def MemoryStats.zero (F : Type) [Zero F] : MemoryStats F :=
  { Virtual := VirtualMemory.zero F, Swap := SwapMemory.zero F }

def DiskStats.zero (F : Type) : DiskStats F :=
  { Partitions := [], Usage := [], Io := [] }

def NetIO.zero : NetIO :=
  { BytesSent := 0, BytesRecv := 0, PacketsSent := 0, PacketsRecv := 0,
    Errin := 0, Errout := 0, Dropin := 0, Dropout := 0 }

def NetworkStats.zero : NetworkStats :=
  { Interfaces := [], Totals := NetIO.zero }

def HostStats.zero : HostStats :=
  { Hostname := "", OS := "", Platform := "", PlatformFamily := "",
    PlatformVersion := "", KernelVersion := "", KernelArch := "",
    UptimeSeconds := 0, BootTime := 0, Procs := 0,
    VirtualizationSystem := "", VirtualizationRole := "", Users := [] }

def SensorsStats.zero (F : Type) : SensorsStats F :=
  { Temperatures := [], Fans := [] }

def SystemInfo.zero (F : Type) [Zero F] : SystemInfo F :=
  { Timestamp := "", CPU := CPUStats.zero F, Load := LoadStats.zero F,
    Memory := MemoryStats.zero F, Disk := DiskStats.zero F,
    Network := NetworkStats.zero, Host := HostStats.zero,
    Sensors := SensorsStats.zero F, Errors := [] }

/-! ## pkg/controller/store.go -/

/-- A byte of a payload. -/
abbrev Byte := Nat

/-- The result of a call: it returned a value, or the goroutine panicked with
a nil pointer dereference. -/
inductive Outcome (α : Type) where
  | returned : α → Outcome α
  | nilDeref : Outcome α

/-- Sequencing of calls: a panic ends the run. -/
def Outcome.bind {α β : Type} : Outcome α → (α → Outcome β) → Outcome β
  | .returned a, f => f a
  | .nilDeref, _ => .nilDeref

/-- The struct `Store` without its mutex. -/
structure Store (F : Type) where
  payload : List Byte
  info : Option (SystemInfo F)
  hasData : Bool

/-- The call `json.Unmarshal(payload, &info)` into a fresh `utils.SystemInfo`: the
decoded value when the error is nil, `none` when it is not. -/
abbrev Decoder (F : Type) := List Byte → Option (SystemInfo F)

/-- Function `NewStore` returns `&Store{}`. -/
def NewStore (F : Type) : Option (Store F) :=
  some { payload := [], info := none, hasData := false }

/-- Method `(*Store).Set`: the store the pointer refers to after the call. -/
def Store.Set {F : Type} (decode : Decoder F) (s : Option (Store F))
    (payload : List Byte) : Outcome (Option (Store F)) :=
  match s with
  | none => .returned none
  | some st =>
    let copyPayload := payload
    match decode payload with
    | none => .returned (some st)
    | some info =>
      .returned (some { payload := copyPayload, info := some info, hasData := true })

/-- Method `(*Store).Get`. -/
def Store.Get {F : Type} (s : Option (Store F)) : Outcome (Option (List Byte) × Bool) :=
  match s with
  | none => .returned (none, false)
  | some st =>
    if !st.hasData then .returned (none, false)
    else
      let copyPayload := st.payload
      .returned (some copyPayload, true)

/-- Method `(*Store).GetCPU`: `s.mu.RLock()` comes first and dereferences `s`. -/
def Store.GetCPU {F : Type} (s : Option (Store F)) : Outcome (Option (SystemInfo F) × Bool) :=
  match s with
  | none => .nilDeref
  | some st =>
    if !st.hasData || st.info.isNone then .returned (none, false)
    else .returned (st.info, true)

/-- Method `(*Store).GetMemory`. -/
def Store.GetMemory {F : Type} (s : Option (Store F)) : Outcome (Option (SystemInfo F) × Bool) :=
  match s with
  | none => .nilDeref
  | some st =>
    if !st.hasData || st.info.isNone then .returned (none, false)
    else .returned (st.info, true)

/-- Method `(*Store).GetDisk`. -/
def Store.GetDisk {F : Type} (s : Option (Store F)) : Outcome (Option (SystemInfo F) × Bool) :=
  match s with
  | none => .nilDeref
  | some st =>
    if !st.hasData || st.info.isNone then .returned (none, false)
    else .returned (st.info, true)

/-- Method `(*Store).GetNetwork`. -/
def Store.GetNetwork {F : Type} (s : Option (Store F)) : Outcome (Option (SystemInfo F) × Bool) :=
  match s with
  | none => .nilDeref
  | some st =>
    if !st.hasData || st.info.isNone then .returned (none, false)
    else .returned (st.info, true)

/-- Method `(*Store).GetSystem`. -/
def Store.GetSystem {F : Type} (s : Option (Store F)) : Outcome (Option (SystemInfo F) × Bool) :=
  match s with
  | none => .nilDeref
  | some st =>
    if !st.hasData || st.info.isNone then .returned (none, false)
    else .returned (st.info, true)

/-- Method `(*Store).GetSensors`. -/
def Store.GetSensors {F : Type} (s : Option (Store F)) : Outcome (Option (SystemInfo F) × Bool) :=
  match s with
  | none => .nilDeref
  | some st =>
    if !st.hasData || st.info.isNone then .returned (none, false)
    else .returned (st.info, true)

/-- The six section accessors, in the order of the source file. -/
def Store.accessors {F : Type} (s : Option (Store F)) :
    List (Outcome (Option (SystemInfo F) × Bool)) :=
  [Store.GetCPU s, Store.GetMemory s, Store.GetDisk s, Store.GetNetwork s,
   Store.GetSystem s, Store.GetSensors s]

/-- A call made on a store by a client. -/
inductive StoreOp where
  | set : List Byte → StoreOp
  | get : StoreOp

/-- Runs a sequence of `Set` and `Get` calls on one store pointer and collects
what each `Get` returned, in call order. -/
def runOps {F : Type} (decode : Decoder F) :
    Option (Store F) → List StoreOp → Outcome (List (Option (List Byte) × Bool))
  | _, [] => .returned []
  | s, .set p :: rest => (Store.Set decode s p).bind fun s1 => runOps decode s1 rest
  | s, .get :: rest =>
    (Store.Get s).bind fun r => (runOps decode s rest).bind fun rs => .returned (r :: rs)

/-- Runs a sequence of `Set` calls on one store pointer. -/
def runSets {F : Type} (decode : Decoder F) :
    Option (Store F) → List (List Byte) → Outcome (Option (Store F))
  | s, [] => .returned s
  | s, p :: rest => (Store.Set decode s p).bind fun s1 => runSets decode s1 rest

/-! ### What the specification says about the store -/

/-- The payloads of the `Set` calls of a call sequence, in call order. -/
def setPayloads : List StoreOp → List (List Byte)
  | [] => []
  | .set p :: rest => p :: setPayloads rest
  | .get :: rest => setPayloads rest

/-- The payload of the most recent `Set` whose payload decodes, if any. -/
def lastAccepted {F : Type} (decode : Decoder F) (ps : List (List Byte)) :
    Option (List Byte) :=
  (ps.filter fun p => (decode p).isSome).getLast?

/-- What a `Get` is specified to return, given the most recent accepted payload. -/
def specGet : Option (List Byte) → Option (List Byte) × Bool
  | none => (none, false)
  | some p => (some p, true)

/-- What the `Get` calls of `ops` are specified to return when the calls of
`before` precede them. -/
def specGets {F : Type} (decode : Decoder F) :
    List StoreOp → List StoreOp → List (Option (List Byte) × Bool)
  | _, [] => []
  | before, .set p :: rest => specGets decode (before ++ [.set p]) rest
  | before, .get :: rest =>
    specGet (lastAccepted decode (setPayloads before)) ::
      specGets decode (before ++ [.get]) rest

/-- The store a fresh store has become once `last` is the most recent accepted
payload. -/
def storeOf {F : Type} (decode : Decoder F) : Option (List Byte) → Store F
  | none => { payload := [], info := none, hasData := false }
  | some p => { payload := p, info := decode p, hasData := true }

/-! ## The gopsutil result types: the fields that `controller.go` reads -/

structure load.AvgStat (F : Type) where
  Load1 : F
  Load5 : F
  Load15 : F

structure cpu.InfoStat (F : Type) where
  ModelName : String
  Cores : Int
  Mhz : F
  CacheSize : Int

structure cpu.TimesStat (F : Type) where
  User : F
  System : F
  Idle : F
  Nice : F
  Iowait : F
  Irq : F
  Softirq : F
  Steal : F
  Guest : F
  GuestNice : F

structure mem.VirtualMemoryStat (F : Type) where
  Total : Nat
  Available : Nat
  Used : Nat
  Free : Nat
  Buffers : Nat
  Cached : Nat
  Active : Nat
  Inactive : Nat
  UsedPercent : F

structure mem.SwapMemoryStat (F : Type) where
  Total : Nat
  Used : Nat
  Free : Nat
  UsedPercent : F

structure disk.PartitionStat where
  Device : String
  Mountpoint : String
  Fstype : String

structure disk.UsageStat (F : Type) where
  Total : Nat
  Used : Nat
  Free : Nat
  UsedPercent : F

structure disk.IOCountersStat where
  ReadBytes : Nat
  WriteBytes : Nat
  ReadCount : Nat
  WriteCount : Nat
  ReadTime : Nat
  WriteTime : Nat

structure net.InterfaceAddr where
  Addr : String

structure net.InterfaceStat where
  Name : String
  MTU : Int
  HardwareAddr : String
  Flags : List String
  Addrs : List net.InterfaceAddr

structure net.IOCountersStat where
  BytesSent : Nat
  BytesRecv : Nat
  PacketsSent : Nat
  PacketsRecv : Nat
  Errin : Nat
  Errout : Nat
  Dropin : Nat
  Dropout : Nat

structure host.InfoStat where
  Hostname : String
  OS : String
  Platform : String
  PlatformFamily : String
  PlatformVersion : String
  KernelVersion : String
  KernelArch : String
  Uptime : Nat
  BootTime : Nat
  Procs : Nat
  VirtualizationSystem : String
  VirtualizationRole : String

structure host.UserStat where
  User : String
  Terminal : String
  Host : String
  Started : Int

structure sensors.TemperatureStat (F : Type) where
  SensorKey : String
  Temperature : F
  High : F
  Critical : F

/-- What the metric providers return during one cycle.  A call returns
`.ok v` when its error is nil and `.error text` otherwise, `text` being
`err.Error()`.  `disk.Usage` is called once per partition and is a function of
the mountpoint; `disk.IOCounters` returns a map, given as its entries in the
order the `range` loop visits them.  `now` is the formatted `time.Now()`. -/
structure Providers (F : Type) where
  now : String
  loadAvg : Except String (load.AvgStat F)
  cpuInfo : Except String (List (cpu.InfoStat F))
  cpuPercentPerCPU : Except String (List F)
  cpuPercentTotal : Except String (List F)
  cpuTimesTotal : Except String (List (cpu.TimesStat F))
  cpuTimesPerCPU : Except String (List (cpu.TimesStat F))
  memVirtualMemory : Except String (mem.VirtualMemoryStat F)
  memSwapMemory : Except String (mem.SwapMemoryStat F)
  diskPartitions : Except String (List disk.PartitionStat)
  diskUsage : String → Except String (disk.UsageStat F)
  diskIOCounters : Except String (List (String × disk.IOCountersStat))
  netInterfaces : Except String (List net.InterfaceStat)
  netIOCounters : Except String (List net.IOCountersStat)
  hostInfo : Except String host.InfoStat
  hostUsers : Except String (List host.UserStat)
  sensorsTemperatures : Except String (List (sensors.TemperatureStat F))

/-! ## pkg/controller/controller.go -/

/-- Function `mapCPUInfo`. -/
def mapCPUInfo {F : Type} (inp : List (cpu.InfoStat F)) : List (CPUInfo F) :=
  inp.foldl (fun items v => items ++
    [{ ModelName := v.ModelName, Cores := v.Cores, Mhz := v.Mhz, CacheSize := v.CacheSize }]) []

/-- Function `mapTimes`. -/
def mapTimes {F : Type} (t : cpu.TimesStat F) : CPUTimes F :=
  { User := t.User, System := t.System, Idle := t.Idle, Nice := t.Nice,
    Iowait := t.Iowait, Irq := t.Irq, SoftIrq := t.Softirq, Steal := t.Steal,
    Guest := t.Guest, GuestNice := t.GuestNice }

/-- Function `mapTimesSlice`. -/
def mapTimesSlice {F : Type} (inp : List (cpu.TimesStat F)) : List (CPUTimes F) :=
  inp.foldl (fun items v => items ++ [mapTimes v]) []

/-- Function `mapPartitions`. -/
def mapPartitions (inp : List disk.PartitionStat) : List DiskPartition :=
  inp.foldl (fun items v => items ++
    [{ Device := v.Device, Mountpoint := v.Mountpoint, FSType := v.Fstype }]) []

/-- One iteration of the loop of `mapDiskUsage`, on the pair of `items` and
`*errors`. -/
def mapDiskUsageStep {F : Type} (usage : String → Except String (disk.UsageStat F))
    (acc : List (DiskUsage F) × List String) (v : disk.PartitionStat) :
    List (DiskUsage F) × List String :=
  match usage v.Mountpoint with
  | .error err => (acc.1, acc.2 ++ ["disk.Usage: " ++ err])
  | .ok u =>
    (acc.1 ++ [{ Device := v.Device, Mountpoint := v.Mountpoint, FSType := v.Fstype,
                 Total := u.Total, Used := u.Used, Free := u.Free,
                 UsedPercent := u.UsedPercent }], acc.2)

/-- Function `mapDiskUsage`: the returned items and the error list after the call. -/
def mapDiskUsage {F : Type} (usage : String → Except String (disk.UsageStat F))
    (inp : List disk.PartitionStat) (errors : List String) :
    List (DiskUsage F) × List String :=
  inp.foldl (mapDiskUsageStep usage) ([], errors)

/-- Function `mapDiskIO`. -/
def mapDiskIO (inp : List (String × disk.IOCountersStat)) : List DiskIO :=
  inp.foldl (fun items e => items ++
    [{ Device := e.1, ReadBytes := e.2.ReadBytes, WriteBytes := e.2.WriteBytes,
       ReadCount := e.2.ReadCount, WriteCount := e.2.WriteCount,
       ReadTimeMS := e.2.ReadTime, WriteTimeMS := e.2.WriteTime }]) []

/-- Function `mapInterfaces`. -/
def mapInterfaces (inp : List net.InterfaceStat) : List NetInterface :=
  inp.foldl (fun items v =>
    let addrs := v.Addrs.foldl (fun addrs a => addrs ++ [a.Addr]) []
    items ++ [{ Name := v.Name, MTU := v.MTU, HardwareAddr := v.HardwareAddr,
                Flags := v.Flags, Addrs := addrs }]) []

/-- Function `mapUsers`. -/
def mapUsers (inp : List host.UserStat) : List HostUser :=
  inp.foldl (fun items v => items ++
    [{ User := v.User, Terminal := v.Terminal, Host := v.Host, StartedUnix := v.Started }]) []

/-- Function `mapTemps`. -/
def mapTemps {F : Type} (inp : List (sensors.TemperatureStat F)) : List (Temperature F) :=
  inp.foldl (fun items v => items ++
    [{ SensorKey := v.SensorKey, Value := v.Temperature, High := v.High,
       Critical := v.Critical }]) []

/-- Function `avgFloat64`. -/
def avgFloat64 {F : Type} [Zero F] [Add F] [Div F] [NatCast F] (inp : List F) : F :=
  if inp.length = 0 then 0
  else (inp.foldl (fun sum v => sum + v) 0) / (inp.length : F)

/-- The local state of `collectSystemInfo`: `info` and `errors`. -/
abbrev Acc (F : Type) := SystemInfo F × List String

section collect
variable {F : Type}

/-- The block for `load.Avg()`. -/
def collectLoadAvg (p : Providers F) (st : Acc F) : Acc F :=
  match p.loadAvg with
  | .ok loadAvg =>
    ({ st.1 with Load := { Load1 := loadAvg.Load1, Load5 := loadAvg.Load5,
                           Load15 := loadAvg.Load15 } }, st.2)
  | .error err => (st.1, st.2 ++ ["load.Avg: " ++ err])

/-- The block for `cpu.Info()`. -/
def collectCPUInfo (p : Providers F) (st : Acc F) : Acc F :=
  match p.cpuInfo with
  | .ok cpuInfo => ({ st.1 with CPU := { st.1.CPU with Info := mapCPUInfo cpuInfo } }, st.2)
  | .error err => (st.1, st.2 ++ ["cpu.Info: " ++ err])

/-- The block for `cpu.Percent(0, true)`. -/
def collectCPUPercentPerCPU (p : Providers F) (st : Acc F) : Acc F :=
  match p.cpuPercentPerCPU with
  | .ok perCPUPercent =>
    ({ st.1 with CPU := { st.1.CPU with PerCPUPercent := perCPUPercent } }, st.2)
  | .error err => (st.1, st.2 ++ ["cpu.Percent per-cpu: " ++ err])

/-- The block for `cpu.Percent(0, false)`: the first value when there is one,
else the mean of the per-CPU values when there are any, else the error, if any,
is recorded. -/
def collectCPUPercentTotal [Zero F] [Add F] [Div F] [NatCast F]
    (p : Providers F) (st : Acc F) : Acc F :=
  match p.cpuPercentTotal with
  | .ok (x :: _) => ({ st.1 with CPU := { st.1.CPU with TotalPercent := x } }, st.2)
  | .ok [] =>
    if st.1.CPU.PerCPUPercent.length > 0 then
      ({ st.1 with CPU := { st.1.CPU with
          TotalPercent := avgFloat64 st.1.CPU.PerCPUPercent } }, st.2)
    else st
  | .error err =>
    if st.1.CPU.PerCPUPercent.length > 0 then
      ({ st.1 with CPU := { st.1.CPU with
          TotalPercent := avgFloat64 st.1.CPU.PerCPUPercent } }, st.2)
    else (st.1, st.2 ++ ["cpu.Percent total: " ++ err])

/-- The block for `cpu.Times(false)`. -/
def collectCPUTimesTotal (p : Providers F) (st : Acc F) : Acc F :=
  match p.cpuTimesTotal with
  | .ok (t :: _) => ({ st.1 with CPU := { st.1.CPU with TotalTimes := mapTimes t } }, st.2)
  | .ok [] => st
  | .error err => (st.1, st.2 ++ ["cpu.Times total: " ++ err])

/-- The block for `cpu.Times(true)`. -/
def collectCPUTimesPerCPU (p : Providers F) (st : Acc F) : Acc F :=
  match p.cpuTimesPerCPU with
  | .ok perTimes =>
    ({ st.1 with CPU := { st.1.CPU with PerCPUTimes := mapTimesSlice perTimes } }, st.2)
  | .error err => (st.1, st.2 ++ ["cpu.Times per-cpu: " ++ err])

/-- The block for `mem.VirtualMemory()`. -/
def collectVirtualMemory (p : Providers F) (st : Acc F) : Acc F :=
  match p.memVirtualMemory with
  | .ok vm =>
    ({ st.1 with Memory := { st.1.Memory with Virtual :=
        { Total := vm.Total, Available := vm.Available, Used := vm.Used, Free := vm.Free,
          Buffers := vm.Buffers, Cached := vm.Cached, Active := vm.Active,
          Inactive := vm.Inactive, UsedPercent := vm.UsedPercent } } }, st.2)
  | .error err => (st.1, st.2 ++ ["mem.VirtualMemory: " ++ err])

/-- The block for `mem.SwapMemory()`. -/
def collectSwapMemory (p : Providers F) (st : Acc F) : Acc F :=
  match p.memSwapMemory with
  | .ok sm =>
    ({ st.1 with Memory := { st.1.Memory with Swap :=
        { Total := sm.Total, Used := sm.Used, Free := sm.Free,
          UsedPercent := sm.UsedPercent } } }, st.2)
  | .error err => (st.1, st.2 ++ ["mem.SwapMemory: " ++ err])

/-- The block for `disk.Partitions(false)`, which also runs `mapDiskUsage`. -/
def collectDiskPartitions (p : Providers F) (st : Acc F) : Acc F :=
  match p.diskPartitions with
  | .ok partitions =>
    let info1 := { st.1 with Disk := { st.1.Disk with Partitions := mapPartitions partitions } }
    let r := mapDiskUsage p.diskUsage partitions st.2
    ({ info1 with Disk := { info1.Disk with Usage := r.1 } }, r.2)
  | .error err => (st.1, st.2 ++ ["disk.Partitions: " ++ err])

/-- The block for `disk.IOCounters()`. -/
def collectDiskIOCounters (p : Providers F) (st : Acc F) : Acc F :=
  match p.diskIOCounters with
  | .ok ioStats => ({ st.1 with Disk := { st.1.Disk with Io := mapDiskIO ioStats } }, st.2)
  | .error err => (st.1, st.2 ++ ["disk.IOCounters: " ++ err])

/-- The block for `net.Interfaces()`. -/
def collectNetInterfaces (p : Providers F) (st : Acc F) : Acc F :=
  match p.netInterfaces with
  | .ok ifaces =>
    ({ st.1 with Network := { st.1.Network with Interfaces := mapInterfaces ifaces } }, st.2)
  | .error err => (st.1, st.2 ++ ["net.Interfaces: " ++ err])

/-- The block for `net.IOCounters(false)`. -/
def collectNetIOCounters (p : Providers F) (st : Acc F) : Acc F :=
  match p.netIOCounters with
  | .ok (t :: _) =>
    ({ st.1 with Network := { st.1.Network with Totals :=
        { BytesSent := t.BytesSent, BytesRecv := t.BytesRecv,
          PacketsSent := t.PacketsSent, PacketsRecv := t.PacketsRecv,
          Errin := t.Errin, Errout := t.Errout, Dropin := t.Dropin,
          Dropout := t.Dropout } } }, st.2)
  | .ok [] => st
  | .error err => (st.1, st.2 ++ ["net.IOCounters: " ++ err])

/-- The block for `host.Info()`: the whole `Host` struct is assigned, so
`Users` is reset to nil. -/
def collectHostInfo (p : Providers F) (st : Acc F) : Acc F :=
  match p.hostInfo with
  | .ok hostInfo =>
    ({ st.1 with Host :=
        { Hostname := hostInfo.Hostname, OS := hostInfo.OS, Platform := hostInfo.Platform,
          PlatformFamily := hostInfo.PlatformFamily,
          PlatformVersion := hostInfo.PlatformVersion,
          KernelVersion := hostInfo.KernelVersion, KernelArch := hostInfo.KernelArch,
          UptimeSeconds := hostInfo.Uptime, BootTime := hostInfo.BootTime,
          Procs := hostInfo.Procs,
          VirtualizationSystem := hostInfo.VirtualizationSystem,
          VirtualizationRole := hostInfo.VirtualizationRole, Users := [] } }, st.2)
  | .error err => (st.1, st.2 ++ ["host.Info: " ++ err])

/-- The block for `host.Users()`. -/
def collectHostUsers (p : Providers F) (st : Acc F) : Acc F :=
  match p.hostUsers with
  | .ok users => ({ st.1 with Host := { st.1.Host with Users := mapUsers users } }, st.2)
  | .error err => (st.1, st.2 ++ ["host.Users: " ++ err])

/-- The block for `sensors.SensorsTemperatures()`. -/
def collectSensorsTemperatures (p : Providers F) (st : Acc F) : Acc F :=
  match p.sensorsTemperatures with
  | .ok temps =>
    ({ st.1 with Sensors := { st.1.Sensors with Temperatures := mapTemps temps } }, st.2)
  | .error err => (st.1, st.2 ++ ["sensors.SensorsTemperatures: " ++ err])

/-- The last block: `info.Errors` is assigned only when `errors` is not empty. -/
def collectFinish (st : Acc F) : SystemInfo F :=
  if st.2.length > 0 then { st.1 with Errors := st.2 } else st.1

/-- The state of `collectSystemInfo` before the first provider call. -/
def collectStart [Zero F] (p : Providers F) : Acc F :=
  ({ SystemInfo.zero F with Timestamp := p.now }, [])

/-- Function `collectSystemInfo`: the blocks in the order of the source. -/
def collectSystemInfo [Zero F] [Add F] [Div F] [NatCast F] (p : Providers F) : SystemInfo F :=
  let st := collectStart p
  let st := collectLoadAvg p st
  let st := collectCPUInfo p st
  let st := collectCPUPercentPerCPU p st
  let st := collectCPUPercentTotal p st
  let st := collectCPUTimesTotal p st
  let st := collectCPUTimesPerCPU p st
  let st := collectVirtualMemory p st
  let st := collectSwapMemory p st
  let st := collectDiskPartitions p st
  let st := collectDiskIOCounters p st
  let st := collectNetInterfaces p st
  let st := collectNetIOCounters p st
  let st := collectHostInfo p st
  let st := collectHostUsers p st
  let st := collectSensorsTemperatures p st
  collectFinish st

end collect

/-! ## pkg/mqtt/mqtt.go -/

/-- The case taken by the `select` of `Publish`: the context is done, or the
publish token is done, with its error if it has one. -/
inductive mqtt.Wait where
  | ctxDone : mqtt.Wait
  | tokenDone : Option String → mqtt.Wait

/-- What the paho client does during one `Publish` call: the answer of
`IsConnected()` and the case the `select` on the returned token takes. -/
structure mqtt.ClientState where
  connected : Bool
  wait : mqtt.Wait

/-- The struct `Publisher`: `client` is `none` for a nil client; the logger is
left out. -/
structure mqtt.Publisher where
  client : Option String
  topic : String
  qos : Nat

/-- The result of `Publish`: the returned error (`none` is nil) and whether
`p.client.Publish` was called. -/
structure mqtt.PublishResult where
  err : Option String
  clientPublishCalled : Bool

/-- Method `(*Publisher).Publish` of package mqtt, on a possibly nil receiver. -/
def mqtt.Publisher.Publish (p : Option mqtt.Publisher) (client : mqtt.ClientState)
    (_payload : List Byte) : mqtt.PublishResult :=
  match p with
  | none => { err := some "publisher not initialized", clientPublishCalled := false }
  | some pub =>
    match pub.client with
    | none => { err := some "publisher not initialized", clientPublishCalled := false }
    | some _ =>
      if !client.connected then
        { err := some "mqtt client not connected", clientPublishCalled := false }
      else
        match client.wait with
        | .ctxDone =>
          { err := some "context cancelled during publish", clientPublishCalled := true }
        | .tokenDone (some e) =>
          { err := some ("mqtt publish: " ++ e), clientPublishCalled := true }
        | .tokenDone none => { err := none, clientPublishCalled := true }

/-! ## pkg/controller/root.go -/

/-- A value of the interface type `Publisher`: the nil interface, or an
interface holding a `*mqtt.Publisher`, which may itself be a nil pointer. -/
inductive Publisher where
  | nilInterface : Publisher
  | mqttPublisher : Option mqtt.Publisher → Publisher

/-- An observable step of `Run`. -/
inductive Action where
  | providerCall : Nat → Action
  | set : List Byte → Action
  | publish : List Byte → Action
  | logError : String → String → Action
  | logWarn : String → Nat → Action
  | logInfo : String → Action
  | newTicker : Action
  | wait : Action
deriving DecidableEq

/-- The surroundings of one cycle: what the providers return, the block of
`collectSystemInfo` whose provider call panics, if one does, and what the MQTT
client does. -/
structure CycleEnv (F : Type) where
  providers : Providers F
  panicBlock : Option Nat
  client : mqtt.ClientState

section root
variable {F : Type}

/-- The fifteen blocks of `collectSystemInfo`, in the order of the source. -/
def collectBlocks [Zero F] [Add F] [Div F] [NatCast F] :
    List (Providers F → Acc F → Acc F) :=
  [collectLoadAvg, collectCPUInfo, collectCPUPercentPerCPU, collectCPUPercentTotal,
   collectCPUTimesTotal, collectCPUTimesPerCPU, collectVirtualMemory, collectSwapMemory,
   collectDiskPartitions, collectDiskIOCounters, collectNetInterfaces, collectNetIOCounters,
   collectHostInfo, collectHostUsers, collectSensorsTemperatures]

/-- Runs the blocks from index `i` on: a block whose provider call panics ends
the run with no state, since nothing recovers the panic.  The list holds the
indices of the blocks whose provider call was made. -/
def runBlocks (p : Providers F) (panicBlock : Option Nat) :
    List (Providers F → Acc F → Acc F) → Nat → Acc F → List Nat → List Nat × Option (Acc F)
  | [], _, st, calls => (calls, some st)
  | b :: rest, i, st, calls =>
    if panicBlock = some i then (calls ++ [i], none)
    else runBlocks p panicBlock rest (i + 1) (b p st) (calls ++ [i])

/-- Function `collectSystemInfo` when a provider call may panic: the provider
calls made and the snapshot, unless a call panicked. -/
def runCollect [Zero F] [Add F] [Div F] [NatCast F] (p : Providers F)
    (panicBlock : Option Nat) : List Nat × Option (SystemInfo F) :=
  match runBlocks p panicBlock collectBlocks 0 (collectStart p) [] with
  | (calls, some st) => (calls, some (collectFinish st))
  | (calls, none) => (calls, none)

/-- The outcome of `collectAndPublish`: the store afterwards, the steps taken
and whether a panic ended the call. -/
structure CycleResult (F : Type) where
  store : Option (Store F)
  actions : List Action
  panicked : Bool

/-- The step `if store != nil { store.Set(payload) }`. -/
def setStep (decode : Decoder F) (store : Option (Store F)) (payload : List Byte) :
    CycleResult F :=
  match store with
  | none => { store := none, actions := [], panicked := false }
  | some st =>
    match Store.Set decode (some st) payload with
    | .returned s1 => { store := s1, actions := [.set payload], panicked := false }
    | .nilDeref => { store := some st, actions := [.set payload], panicked := true }

/-- The step `if publisher != nil { ... publisher.Publish(ctx, payload) ... }`:
the comparison is with the nil interface. -/
def publishStep (publisher : Publisher) (client : mqtt.ClientState) (payload : List Byte) :
    List Action :=
  match publisher with
  | .nilInterface => []
  | .mqttPublisher p =>
    match (mqtt.Publisher.Publish p client payload).err with
    | some err => [.publish payload, .logError "mqtt publish failed" err]
    | none => [.publish payload]

/-- The last lines of `collectAndPublish`. -/
def summaryStep (info : SystemInfo F) : List Action :=
  if info.Errors.length > 0 then
    [.logWarn "system info collected with errors" info.Errors.length]
  else [.logInfo "system info collected"]

/-- Function `collectAndPublish`; `marshal` is `json.Marshal`. -/
def collectAndPublish [Zero F] [Add F] [Div F] [NatCast F]
    (marshal : SystemInfo F → Except String (List Byte)) (decode : Decoder F)
    (env : CycleEnv F) (store : Option (Store F)) (publisher : Publisher) : CycleResult F :=
  match runCollect env.providers env.panicBlock with
  | (calls, none) =>
    { store := store, actions := calls.map .providerCall, panicked := true }
  | (calls, some info) =>
    match marshal info with
    | .error err =>
      { store := store
        actions := calls.map .providerCall ++ [.logError "marshal system info" err]
        panicked := false }
    | .ok payload =>
      let r := setStep decode store payload
      if r.panicked then
        { store := r.store, actions := calls.map .providerCall ++ r.actions, panicked := true }
      else
        { store := r.store
          actions := calls.map .providerCall ++ r.actions ++
            publishStep publisher env.client payload ++ summaryStep info
          panicked := false }

/-- The state of things when the `select` of the loop proceeds: whether the
context is done, whether a tick is pending, which case is taken when both are
ready, and the surroundings of the cycle that runs if the tick is taken. -/
structure Wake (F : Type) where
  ctxDone : Bool
  tickReady : Bool
  pickTick : Bool
  cycle : CycleEnv F

/-- How a run of `Run` ends: it returned, it panicked, or it is still blocked in
the `select` at the end of the observed wake-ups. -/
inductive RunStatus where
  | returned : RunStatus
  | panicked : String → RunStatus
  | blocked : RunStatus
deriving DecidableEq

/-- The outcome of `Run`. -/
structure RunResult (F : Type) where
  store : Option (Store F)
  actions : List Action
  status : RunStatus

/-- The `for { select { ... } }` loop of `Run`.  When both cases are ready the
`select` takes either; when only one is ready it takes that one; when none is,
it blocks. -/
def runLoop [Zero F] [Add F] [Div F] [NatCast F]
    (marshal : SystemInfo F → Except String (List Byte)) (decode : Decoder F)
    (publisher : Publisher) :
    Option (Store F) → List Action → List (Wake F) → RunResult F
  | store, acts, [] => { store := store, actions := acts ++ [.wait], status := .blocked }
  | store, acts, w :: rest =>
    let takeDone : RunResult F :=
      { store := store, actions := acts ++ [.wait, .logInfo "shutting down"],
        status := .returned }
    let takeTick : RunResult F :=
      let r := collectAndPublish marshal decode w.cycle store publisher
      if r.panicked then
        { store := r.store, actions := acts ++ [.wait] ++ r.actions,
          status := .panicked "provider" }
      else runLoop marshal decode publisher r.store (acts ++ [.wait] ++ r.actions) rest
    match w.ctxDone, w.tickReady with
    | true, true => if w.pickTick then takeTick else takeDone
    | true, false => takeDone
    | false, true => takeTick
    | false, false => { store := store, actions := acts ++ [.wait], status := .blocked }

/-- Function `Run`.  `frequency` is the `time.Duration`; `time.NewTicker` panics
when it is not positive.  `first` is the surroundings of the cycle made before
the ticker is created, `wakes` those of the loop. -/
def Run [Zero F] [Add F] [Div F] [NatCast F]
    (marshal : SystemInfo F → Except String (List Byte)) (decode : Decoder F)
    (frequency : Int) (store : Option (Store F)) (publisher : Publisher)
    (first : CycleEnv F) (wakes : List (Wake F)) : RunResult F :=
  let r := collectAndPublish marshal decode first store publisher
  if r.panicked then
    { store := r.store, actions := r.actions, status := .panicked "provider" }
  else if frequency ≤ 0 then
    { store := r.store, actions := r.actions,
      status := .panicked "non-positive interval for NewTicker" }
  else runLoop marshal decode publisher r.store (r.actions ++ [.newTicker]) wakes

end root

/-! ## cmd/edgebeat/edgebeat.go -/

/-- The publisher argument `main` hands to `Run`: the variable `publisher` has
type `*mqtt.Publisher`, is nil unless MQTT is enabled, and is converted to the
interface type at the call.  `none` is the exit through `logger.Fatal` when
`mqtt.NewPublisher` fails. -/
def mainPublisher (mqttEnabled : Bool) (newPublisher : Except String mqtt.Publisher) :
    Option Publisher :=
  if mqttEnabled then
    match newPublisher with
    | .ok p => some (.mqttPublisher (some p))
    | .error _ => none
  else some (.mqttPublisher none)

/-! ## pkg/config/config.go -/

structure config.RestConfig where
  Address : String
  Path : String
deriving DecidableEq

structure config.MQTTConfig where
  Enabled : Bool
  Broker : String
  ClientID : String
  Topic : String
  Username : String
  Password : String
  QoS : Nat
deriving DecidableEq

structure config.ModbusConfig where
  Enabled : Bool
  Mode : String
  Host : String
  Port : Int
  UnitID : Int
  Notes : String
deriving DecidableEq

structure config.OPCUAConfig where
  Enabled : Bool
  Endpoint : String
  SecurityPolicy : String
  SecurityMode : String
  Username : String
  Password : String
  Notes : String
deriving DecidableEq

structure config.IntegrationConfig where
  Modbus : config.ModbusConfig
  OPCUA : config.OPCUAConfig
deriving DecidableEq

structure config.Config where
  FrequencySeconds : Int
  Rest : config.RestConfig
  MQTT : config.MQTTConfig
  Integrations : config.IntegrationConfig
deriving DecidableEq

def config.DefaultFrequencySeconds : Int := 60

def config.MinFrequencySeconds : Int := 1

def config.MaxFrequencySeconds : Int := 180

def config.DefaultRestAddress : String := ":8080"

def config.DefaultRestPath : String := "/health"

def config.DefaultMQTTQoS : Nat := 1

def config.DefaultModbusMode : String := "tcp"

def config.DefaultModbusPort : Int := 502

def config.DefaultModbusUnitID : Int := 1

def config.DefaultOpcuaEndpoint : String := "opc.tcp://localhost:4840"

def config.DefaultOpcuaPolicy : String := "None"

def config.DefaultOpcuaMode : String := "None"

/-- The zero value `Config{}`. -/
def config.Config.zero : config.Config :=
  { FrequencySeconds := 0
    Rest := { Address := "", Path := "" }
    MQTT := { Enabled := false, Broker := "", ClientID := "", Topic := "", Username := "",
              Password := "", QoS := 0 }
    Integrations :=
      { Modbus := { Enabled := false, Mode := "", Host := "", Port := 0, UnitID := 0,
                    Notes := "" }
        OPCUA := { Enabled := false, Endpoint := "", SecurityPolicy := "", SecurityMode := "",
                   Username := "", Password := "", Notes := "" } } }

/-- Function `Default` of package config. -/
def config.Default : config.Config :=
  { FrequencySeconds := config.DefaultFrequencySeconds
    Rest := { Address := config.DefaultRestAddress, Path := config.DefaultRestPath }
    MQTT := { Enabled := false, Broker := "", ClientID := "", Topic := "", Username := "",
              Password := "", QoS := config.DefaultMQTTQoS }
    Integrations :=
      { Modbus := { Enabled := false, Mode := config.DefaultModbusMode, Host := "localhost",
                    Port := config.DefaultModbusPort, UnitID := config.DefaultModbusUnitID,
                    Notes := "" }
        OPCUA := { Enabled := false, Endpoint := config.DefaultOpcuaEndpoint,
                   SecurityPolicy := config.DefaultOpcuaPolicy,
                   SecurityMode := config.DefaultOpcuaMode, Username := "", Password := "",
                   Notes := "" } } }

/-- The part of `Load` after the range check: the nine empty or zero fields
are given their defaults. -/
def config.fillDefaults (cfg : config.Config) : config.Config :=
  let cfg := if cfg.Rest.Address = "" then
    { cfg with Rest := { cfg.Rest with Address := config.DefaultRestAddress } } else cfg
  let cfg := if cfg.Rest.Path = "" then
    { cfg with Rest := { cfg.Rest with Path := config.DefaultRestPath } } else cfg
  let cfg := if cfg.Integrations.Modbus.Mode = "" then
    { cfg with Integrations := { cfg.Integrations with
        Modbus := { cfg.Integrations.Modbus with Mode := config.DefaultModbusMode } } } else cfg
  let cfg := if cfg.Integrations.Modbus.Host = "" then
    { cfg with Integrations := { cfg.Integrations with
        Modbus := { cfg.Integrations.Modbus with Host := "localhost" } } } else cfg
  let cfg := if cfg.Integrations.Modbus.Port = 0 then
    { cfg with Integrations := { cfg.Integrations with
        Modbus := { cfg.Integrations.Modbus with Port := config.DefaultModbusPort } } } else cfg
  let cfg := if cfg.Integrations.Modbus.UnitID = 0 then
    { cfg with Integrations := { cfg.Integrations with
        Modbus := { cfg.Integrations.Modbus with UnitID := config.DefaultModbusUnitID } } }
    else cfg
  let cfg := if cfg.Integrations.OPCUA.Endpoint = "" then
    { cfg with Integrations := { cfg.Integrations with
        OPCUA := { cfg.Integrations.OPCUA with Endpoint := config.DefaultOpcuaEndpoint } } }
    else cfg
  let cfg := if cfg.Integrations.OPCUA.SecurityPolicy = "" then
    { cfg with Integrations := { cfg.Integrations with
        OPCUA := { cfg.Integrations.OPCUA with SecurityPolicy := config.DefaultOpcuaPolicy } } }
    else cfg
  let cfg := if cfg.Integrations.OPCUA.SecurityMode = "" then
    { cfg with Integrations := { cfg.Integrations with
        OPCUA := { cfg.Integrations.OPCUA with SecurityMode := config.DefaultOpcuaMode } } }
    else cfg
  cfg

/-- Function `Load` of package config: the returned config and error (`none` is
nil).  `readFile` is `os.ReadFile` and `unmarshal data cfg` is
`yaml.Unmarshal(data, &cfg)`, giving the config it leaves in `cfg`. -/
def config.Load {Data : Type} (readFile : String → Except String Data)
    (unmarshal : Data → config.Config → Except String config.Config) (path : String) :
    config.Config × Option String :=
  match readFile path with
  | .error err => (config.Config.zero, some ("read config: " ++ err))
  | .ok data =>
    let cfg := config.Default
    match unmarshal data cfg with
    | .error err => (config.Config.zero, some ("parse config: " ++ err))
    | .ok cfg =>
      if cfg.FrequencySeconds < config.MinFrequencySeconds ∨
          cfg.FrequencySeconds > config.MaxFrequencySeconds then
        (config.Config.zero,
          some ("frequency_seconds out of range: " ++ toString cfg.FrequencySeconds))
      else (config.fillDefaults cfg, none)

/-! ### Sample config files -/

/-- A config file, given as what `yaml.Unmarshal` does with it: the keys it
holds overwrite the fields of the config, the other fields are left as they
are. -/
abbrev SampleFile := config.Config → config.Config

/-- Decoding of a sample file. -/
def sampleUnmarshal : SampleFile → config.Config → Except String config.Config :=
  fun file cfg => .ok (file cfg)

/-- The file of `TestLoadInvalidFrequency`: `frequency_seconds: 500`. -/
def invalidFrequencyFile : SampleFile := fun cfg => { cfg with FrequencySeconds := 500 }

/-- The file of `TestLoadDefaults`: frequency 60, empty rest address and path,
MQTT disabled. -/
def defaultsFile : SampleFile := fun cfg =>
  { cfg with FrequencySeconds := 60, Rest := { Address := "", Path := "" },
             MQTT := { cfg.MQTT with Enabled := false } }

/-- The file of `TestLoadOverrides`. -/
def overridesFile : SampleFile := fun cfg =>
  { FrequencySeconds := 10
    Rest := { Address := ":9090", Path := "/metrics" }
    MQTT :=
      { cfg.MQTT with
        Enabled := true
        Broker := "tcp://localhost:1883"
        ClientID := "edgebeat-test"
        Topic := "edgebeat/metrics"
        QoS := 2 }
    Integrations :=
      { Modbus :=
          { cfg.Integrations.Modbus with
            Enabled := true
            Mode := "rtu"
            Host := "127.0.0.1"
            Port := 1502
            UnitID := 2 }
        OPCUA :=
          { cfg.Integrations.OPCUA with
            Enabled := true
            Endpoint := "opc.tcp://example:4840"
            SecurityPolicy := "Basic256"
            SecurityMode := "Sign"
            Username := "user"
            Password := "pass" } } }

/-- A file without the key `frequency_seconds`. -/
def emptyFile : SampleFile := fun cfg => cfg

/-- A file system holding the four sample files. -/
def sampleReadFile : String → Except String SampleFile := fun path =>
  if path = "invalid.yaml" then .ok invalidFrequencyFile
  else if path = "defaults.yaml" then .ok defaultsFile
  else if path = "overrides.yaml" then .ok overridesFile
  else if path = "empty.yaml" then .ok emptyFile
  else .error "open: no such file or directory"

/-! ## pkg/handler/handler.go -/

/-- Function `opcuaRequiredFields`; `equalFold` is `strings.EqualFold`. -/
def opcuaRequiredFields (equalFold : String → String → Bool) (securityMode : String)
    (usernameSet : Bool) (passwordSet : Bool) : List String :=
  let required := ["endpoint", "security_policy", "security_mode"]
  if !equalFold securityMode "none" && (usernameSet || passwordSet) then
    required ++ ["username", "password"]
  else
    let required := if usernameSet || passwordSet then required ++ ["username", "password"]
      else required
    required

/-! ### The fabricated payload -/

def defaultFabricateBytes : Nat := 1024

def maxFabricateBytes : Nat := 2 ^ 30

/-- The struct `repeatReader`.  The offset starts at 0 and `Read` only
increments or resets it, so it is a natural number. -/
structure repeatReader where
  pattern : List Byte
  offset : Nat
deriving DecidableEq

/-- What `Read` leaves and returns: the reader, the buffer `p`, the count and
the error (`none` is nil, `some "EOF"` is `io.EOF`). -/
structure ReadResult where
  reader : repeatReader
  p : List Byte
  n : Nat
  err : Option String
deriving DecidableEq

/-- The loop `for i := range p` of `Read`, from a given offset: the offset and
the contents of `p` afterwards, or `none` when `r.pattern[r.offset]` is out of
range, which panics. -/
def readLoop (pattern : List Byte) : Nat → List Byte → Option (Nat × List Byte)
  | offset, [] => some (offset, [])
  | offset, _ :: rest =>
    match pattern[offset]? with
    | none => none
    | some b =>
      let offset := offset + 1
      let offset := if offset ≥ pattern.length then 0 else offset
      match readLoop pattern offset rest with
      | none => none
      | some (last, bytes) => some (last, b :: bytes)

/-- Method `(*repeatReader).Read`; `none` is the index-out-of-range panic. -/
def repeatReader.Read (r : repeatReader) (p : List Byte) : Option ReadResult :=
  if r.pattern.length = 0 then some { reader := r, p := p, n := 0, err := some "EOF" }
  else
    match readLoop r.pattern r.offset p with
    | none => none
    | some (offset, bytes) =>
      some { reader := { r with offset := offset }, p := bytes, n := p.length, err := none }

/-- The bytes `pattern[(o + i) mod L]` for `i` from 0 to `k - 1`: what the
specification calls `k` bytes of the pattern repeated, from offset `o`. -/
def cycleBytes (pattern : List Byte) (o k : Nat) : List Byte :=
  (List.range k).map fun i => pattern.getD ((o + i) % pattern.length) 0

/-- The reads of `io.CopyN(w, reader, n)`: while bytes remain, one `Read` into
a buffer of at most `bufSize` bytes (at least one) and no more than what
remains, and a write of what was read.  `fuel` bounds the number of reads; the
result is the bytes written, or `none` on a panic or when the fuel runs out. -/
def copyLoop (bufSize : Nat) : Nat → Nat → repeatReader → List Byte → Option (List Byte)
  | _, 0, _, out => some out
  | 0, _ + 1, _, _ => none
  | fuel + 1, remaining + 1, r, out =>
    let k := min (max bufSize 1) (remaining + 1)
    match r.Read (List.replicate k 0) with
    | none => none
    | some res =>
      if res.err.isSome then some (out ++ res.p.take res.n)
      else copyLoop bufSize fuel (remaining + 1 - res.n) res.reader (out ++ res.p.take res.n)

/-- The bytes `io.CopyN(w, reader, n)` writes; `n` reads are enough fuel. -/
def copyN (bufSize : Nat) (r : repeatReader) (n : Nat) : Option (List Byte) :=
  copyLoop bufSize n n r []

/-- The bytes of the string `edgebeat`. -/
def edgebeatPattern : List Byte := [101, 100, 103, 101, 98, 101, 97, 116]

/-! ### Strings

A Go string is the list of its runes.  `strings.ToLower` maps every rune with
`unicode.ToLower`, which is the parameter `lower`. -/

/-- Function `unicode.IsSpace`: the white space that `strings.TrimSpace`
removes. -/
def isSpace (c : Char) : Bool :=
  let n := c.toNat
  n = 9 || n = 10 || n = 11 || n = 12 || n = 13 || n = 32 || n = 0x85 || n = 0xA0 ||
  n = 0x1680 || (0x2000 ≤ n && n ≤ 0x200A) || n = 0x2028 || n = 0x2029 || n = 0x202F ||
  n = 0x205F || n = 0x3000

/-- Function `strings.TrimSpace`. -/
def trimSpace (s : List Char) : List Char :=
  ((s.dropWhile isSpace).reverse.dropWhile isSpace).reverse

/-- Function `strings.HasSuffix`. -/
def hasSuffix (s suffix : List Char) : Bool := suffix.isSuffixOf s

/-- Function `strings.TrimSuffix`. -/
def trimSuffix (s suffix : List Char) : List Char :=
  if hasSuffix s suffix then s.take (s.length - suffix.length) else s

/-- The number a string of decimal digits denotes. -/
def decimalValue (s : List Char) : Nat :=
  s.foldl (fun n c => n * 10 + (c.toNat - 48)) 0

/-- The call `strconv.ParseUint(s, 10, 64)`: `none` when it returns an error,
which it does for the empty string, for a rune that is not a decimal digit and
for a value above 2^64 - 1. -/
def parseUint (s : List Char) : Option Nat :=
  if s = [] then none
  else if s.all Char.isDigit then
    if decimalValue s < 2 ^ 64 then some (decimalValue s) else none
  else none

/-- The table `suffixes` of `parseByteSize`. -/
def byteSizeSuffixes : List (List Char × Nat) :=
  [(['k', 'i'], 1024), (['m', 'i'], 1024 * 1024), (['g', 'i'], 1024 * 1024 * 1024),
   (['k'], 1024), (['m'], 1024 * 1024), (['g'], 1024 * 1024 * 1024), (['b'], 1)]

deriving instance DecidableEq for Except

/-- Function `parseByteSize`: the value or the text of the error.  The
arithmetic is that of `uint64`. -/
def parseByteSize (lower : Char → Char) (input : List Char) : Except String Nat :=
  let value := trimSpace (input.map lower)
  if value = [] then .error "size must be provided"
  else
    let found := byteSizeSuffixes.find? fun entry =>
      hasSuffix value entry.1 && decide (value.length > entry.1.length)
    let multiplier := match found with
      | some entry => entry.2
      | none => 1
    let value := match found with
      | some entry => trimSpace (trimSuffix value entry.1)
      | none => value
    if value = [] then .error "invalid size format"
    else
      match parseUint value with
      | none => .error "invalid size format"
      | some parsed =>
        if multiplier > 0 ∧ parsed > (2 ^ 64 - 1) / multiplier then .error "size is too large"
        else .ok (parsed * multiplier % 2 ^ 64)

/-! ### The endpoints -/

/-- What a handler writes as the body: nothing, the JSON object with the key
`error`, raw bytes, or the JSON of a `ResponseWithMetadata` with its timestamp
and the section it carries. -/
inductive Body (F : Type) where
  | empty : Body F
  | error : String → Body F
  | bytes : List Byte → Body F
  | cpu : String → CPUStats F → Body F
  | memory : String → MemoryStats F → Body F
  | disk : String → DiskStats F → Body F
  | network : String → NetworkStats → Body F
  | host : String → HostStats → Body F
  | sensors : String → SensorsStats F → Body F

/-- The raw bytes a body carries: those `io.CopyN` wrote, none for a body that
is empty or JSON. -/
def Body.payload {F : Type} : Body F → List Byte
  | .bytes written => written
  | _ => []

/-- The response of a handler: the status, the headers it sets and the body. -/
structure Response (F : Type) where
  status : Nat
  allow : Option String
  contentType : Option String
  contentLength : Option String
  payloadBytes : Option String
  body : Body F

/-- The parts of a request the handlers read: the method and the value of the
query parameter `size`, empty when it is absent. -/
structure Request where
  method : String
  size : List Char

/-- The struct `Handler`. -/
structure Handler (F : Type) where
  store : Option (Store F)
  integrations : config.IntegrationConfig

section endpoints
variable {F : Type}

/-- Method `writeJSON`. -/
def writeJSON (data : Body F) (statusCode : Nat) : Response F :=
  { status := statusCode, allow := none, contentType := some "application/json",
    contentLength := none, payloadBytes := none, body := data }

/-- Method `checkMethod`: `none` when the method is the allowed one, else the
response it wrote. -/
def checkMethod (r : Request) (allowed : String) : Option (Response F) :=
  if r.method ≠ allowed then
    some { writeJSON (.error "method not allowed") 405 with allow := some allowed }
  else none

/-- The common shape of the six section handlers: `pick` builds the body from
the snapshot the accessor returned. -/
def sectionResponse (got : Outcome (Option (SystemInfo F) × Bool))
    (pick : SystemInfo F → Body F) : Outcome (Response F) :=
  match got with
  | .nilDeref => .nilDeref
  | .returned (data, ok) =>
    if !ok then .returned (writeJSON (.error "no data available") 503)
    else
      match data with
      | none => .nilDeref
      | some d => .returned (writeJSON (pick d) 200)

/-- Method `getFullMetrics`. -/
def Handler.getFullMetrics (h : Handler F) (r : Request) : Outcome (Response F) :=
  match checkMethod r "GET" with
  | some resp => .returned resp
  | none =>
    match Store.Get h.store with
    | .nilDeref => .nilDeref
    | .returned (payload, ok) =>
      if !ok then .returned (writeJSON (.error "no data available") 503)
      else
        .returned { status := 200, allow := none, contentType := some "application/json",
                    contentLength := none, payloadBytes := none,
                    body := .bytes (payload.getD []) }

/-- Method `getCPUMetrics`. -/
def Handler.getCPUMetrics (h : Handler F) (r : Request) : Outcome (Response F) :=
  match checkMethod r "GET" with
  | some resp => .returned resp
  | none => sectionResponse (Store.GetCPU h.store) fun d => .cpu d.Timestamp d.CPU

/-- Method `getMemoryMetrics`. -/
def Handler.getMemoryMetrics (h : Handler F) (r : Request) : Outcome (Response F) :=
  match checkMethod r "GET" with
  | some resp => .returned resp
  | none => sectionResponse (Store.GetMemory h.store) fun d => .memory d.Timestamp d.Memory

/-- Method `getDiskMetrics`. -/
def Handler.getDiskMetrics (h : Handler F) (r : Request) : Outcome (Response F) :=
  match checkMethod r "GET" with
  | some resp => .returned resp
  | none => sectionResponse (Store.GetDisk h.store) fun d => .disk d.Timestamp d.Disk

/-- Method `getNetworkMetrics`. -/
def Handler.getNetworkMetrics (h : Handler F) (r : Request) : Outcome (Response F) :=
  match checkMethod r "GET" with
  | some resp => .returned resp
  | none => sectionResponse (Store.GetNetwork h.store) fun d => .network d.Timestamp d.Network

/-- Method `getSystemMetrics`. -/
def Handler.getSystemMetrics (h : Handler F) (r : Request) : Outcome (Response F) :=
  match checkMethod r "GET" with
  | some resp => .returned resp
  | none => sectionResponse (Store.GetSystem h.store) fun d => .host d.Timestamp d.Host

/-- Method `getSensorMetrics`. -/
def Handler.getSensorMetrics (h : Handler F) (r : Request) : Outcome (Response F) :=
  match checkMethod r "GET" with
  | some resp => .returned resp
  | none => sectionResponse (Store.GetSensors h.store) fun d => .sensors d.Timestamp d.Sensors

/-- The seven metric endpoints of a handler, the full one first. -/
def Handler.metricEndpoints (h : Handler F) (r : Request) : List (Outcome (Response F)) :=
  [h.getFullMetrics r, h.getCPUMetrics r, h.getMemoryMetrics r, h.getDiskMetrics r,
   h.getNetworkMetrics r, h.getSystemMetrics r, h.getSensorMetrics r]

/-- Method `getFabricatedPayload`; `bufSize` is the size of the buffer
`io.CopyN` reads into, and `none` is a panic during the copy. -/
def getFabricatedPayload (lower : Char → Char) (bufSize : Nat) (r : Request) :
    Option (Response F) :=
  match checkMethod r "GET" with
  | some resp => some resp
  | none =>
    let sizeParam := trimSpace r.size
    let parsed : Except String Nat :=
      if sizeParam ≠ [] then parseByteSize lower sizeParam else .ok defaultFabricateBytes
    match parsed with
    | .error err => some (writeJSON (.error err) 400)
    | .ok sizeBytes =>
      if sizeBytes > maxFabricateBytes then
        some (writeJSON (.error "size exceeds 1Gi limit") 400)
      else
        let resp : Response F :=
          { status := 200, allow := none, contentType := some "application/octet-stream",
            contentLength := some (toString sizeBytes),
            payloadBytes := some (toString sizeBytes), body := .empty }
        if sizeBytes = 0 then some resp
        else
          match copyN bufSize { pattern := edgebeatPattern, offset := 0 } sizeBytes with
          | none => none
          | some written => some { resp with body := .bytes written }

end endpoints

/-- The lower case of the ASCII letters, every other rune unchanged: what
`unicode.ToLower` is on the ASCII runes.  It is the `lower` of the examples,
whose inputs are ASCII; on other runes it is not `unicode.ToLower`, which maps
for instance the Kelvin sign U+212A to `k`, and the theorems take `lower` as a
parameter. -/
def asciiLower (c : Char) : Char := c.toLower

/-! ### The `select` of `Publish` -/

/-- The case the `select` of `Publish` takes, from whether the context is done
and whether the token is done (`some err`, with its error) or not (`none`):
the only ready case when one is ready, either of them (`pickCtx`) when both
are, and `none` while neither is, when `Publish` is still blocked. -/
def mqtt.selectCase (ctxDone : Bool) (token : Option (Option String)) (pickCtx : Bool) :
    Option mqtt.Wait :=
  match ctxDone, token with
  | true, none => some .ctxDone
  | false, some err => some (.tokenDone err)
  | true, some err => if pickCtx then some .ctxDone else some (.tokenDone err)
  | false, none => none

/-! ### What the specification says about a collection cycle -/

/-- The metric groups of a snapshot, in the order the providers are invoked. -/
inductive MetricGroup where
  | load | cpu | memory | disk | network | host | sensors

/-- The position of a group in the invocation order. -/
def MetricGroup.rank : MetricGroup → Nat
  | .load => 0
  | .cpu => 1
  | .memory => 2
  | .disk => 3
  | .network => 4
  | .host => 5
  | .sensors => 6

/-- The error text of a call, if it failed. -/
def errText {α : Type} : Except String α → Option String
  | .ok _ => none
  | .error e => some e

/-- A provider call of one cycle: its group, the name it is reported under and
the error text when it failed. -/
structure ProviderCall where
  group : MetricGroup
  name : String
  err : Option String

/-- The entry of the error list that reports a failed call. -/
def ProviderCall.message (c : ProviderCall) : Option String :=
  c.err.map fun e => c.name ++ ": " ++ e

/-- The `disk.Usage` calls of a cycle: one per partition, in order, made only
when `disk.Partitions` succeeded. -/
def usageCalls {F : Type} (p : Providers F) : List ProviderCall :=
  match p.diskPartitions with
  | .ok partitions =>
    partitions.map fun v => ⟨.disk, "disk.Usage", errText (p.diskUsage v.Mountpoint)⟩
  | .error _ => []

/-- The provider calls `collectSystemInfo` makes, in the order it makes them. -/
def providerCalls {F : Type} (p : Providers F) : List ProviderCall :=
  [⟨.load, "load.Avg", errText p.loadAvg⟩,
   ⟨.cpu, "cpu.Info", errText p.cpuInfo⟩,
   ⟨.cpu, "cpu.Percent per-cpu", errText p.cpuPercentPerCPU⟩,
   ⟨.cpu, "cpu.Percent total", errText p.cpuPercentTotal⟩,
   ⟨.cpu, "cpu.Times total", errText p.cpuTimesTotal⟩,
   ⟨.cpu, "cpu.Times per-cpu", errText p.cpuTimesPerCPU⟩,
   ⟨.memory, "mem.VirtualMemory", errText p.memVirtualMemory⟩,
   ⟨.memory, "mem.SwapMemory", errText p.memSwapMemory⟩,
   ⟨.disk, "disk.Partitions", errText p.diskPartitions⟩] ++
  usageCalls p ++
  [⟨.disk, "disk.IOCounters", errText p.diskIOCounters⟩,
   ⟨.network, "net.Interfaces", errText p.netInterfaces⟩,
   ⟨.network, "net.IOCounters", errText p.netIOCounters⟩,
   ⟨.host, "host.Info", errText p.hostInfo⟩,
   ⟨.host, "host.Users", errText p.hostUsers⟩,
   ⟨.sensors, "sensors.SensorsTemperatures", errText p.sensorsTemperatures⟩]

/-- The number of provider calls of the cycle that failed. -/
def failedCalls {F : Type} (p : Providers F) : Nat :=
  ((providerCalls p).filter fun c => c.err.isSome).length

/-- The per-CPU percentages the cycle holds: those returned, or none when the
call failed. -/
def perCPUPercentOf {F : Type} (p : Providers F) : List F :=
  match p.cpuPercentPerCPU with
  | .ok xs => xs
  | .error _ => []

/-- The aggregate CPU-percent call is unavailable: it failed or returned no
value. -/
def totalPercentUnavailable {F : Type} (p : Providers F) : Prop :=
  match p.cpuPercentTotal with
  | .ok (_ :: _) => False
  | .ok [] => True
  | .error _ => True

/-- The failed aggregate CPU-percent call is covered by the mean of the per-CPU
values, and so is not reported. -/
def totalPercentCovered {F : Type} (p : Providers F) : Bool :=
  (errText p.cpuPercentTotal).isSome && decide ((perCPUPercentOf p).length > 0)

/-- The provider calls whose failure the cycle reports: all of them, in the
order they are made, but the aggregate CPU-percent call when the per-CPU list
the cycle holds is not empty. -/
def reportedCalls {F : Type} (p : Providers F) : List ProviderCall :=
  (providerCalls p).filter fun c =>
    !(c.name == "cpu.Percent total" && decide ((perCPUPercentOf p).length > 0))

/-- Every one of the fifteen unconditional provider calls fails. -/
def AllFail {F : Type} (p : Providers F) : Prop :=
  (errText p.loadAvg).isSome ∧ (errText p.cpuInfo).isSome ∧
  (errText p.cpuPercentPerCPU).isSome ∧ (errText p.cpuPercentTotal).isSome ∧
  (errText p.cpuTimesTotal).isSome ∧ (errText p.cpuTimesPerCPU).isSome ∧
  (errText p.memVirtualMemory).isSome ∧ (errText p.memSwapMemory).isSome ∧
  (errText p.diskPartitions).isSome ∧ (errText p.diskIOCounters).isSome ∧
  (errText p.netInterfaces).isSome ∧ (errText p.netIOCounters).isSome ∧
  (errText p.hostInfo).isSome ∧ (errText p.hostUsers).isSome ∧
  (errText p.sensorsTemperatures).isSome

instance {F : Type} (p : Providers F) : Decidable (AllFail p) := by
  unfold AllFail
  infer_instance

instance {F : Type} (p : Providers F) : Decidable (totalPercentUnavailable p) := by
  unfold totalPercentUnavailable
  split <;> infer_instance

/-- Two cycles whose provider outcomes agree on every call outside the CPU
group. -/
def SameOutsideCPU {F : Type} (p q : Providers F) : Prop :=
  p.loadAvg = q.loadAvg ∧ p.memVirtualMemory = q.memVirtualMemory ∧
  p.memSwapMemory = q.memSwapMemory ∧ p.diskPartitions = q.diskPartitions ∧
  p.diskUsage = q.diskUsage ∧ p.diskIOCounters = q.diskIOCounters ∧
  p.netInterfaces = q.netInterfaces ∧ p.netIOCounters = q.netIOCounters ∧
  p.hostInfo = q.hostInfo ∧ p.hostUsers = q.hostUsers ∧
  p.sensorsTemperatures = q.sensorsTemperatures

/-! ### Closed forms of the sections of a cycle -/

/-- The entries one call adds to the error list. -/
def callErrors {α : Type} (name : String) : Except String α → List String
  | .ok _ => []
  | .error e => [name ++ ": " ++ e]

/-- The usage entry of a partition whose lookup succeeded. -/
def usageEntry {F : Type} (usage : String → Except String (disk.UsageStat F))
    (v : disk.PartitionStat) : Option (DiskUsage F) :=
  match usage v.Mountpoint with
  | .ok u => some { Device := v.Device, Mountpoint := v.Mountpoint, FSType := v.Fstype,
                    Total := u.Total, Used := u.Used, Free := u.Free,
                    UsedPercent := u.UsedPercent }
  | .error _ => none

/-- The message of a partition whose lookup failed. -/
def usageError {F : Type} (usage : String → Except String (disk.UsageStat F))
    (v : disk.PartitionStat) : Option String :=
  match usage v.Mountpoint with
  | .ok _ => none
  | .error e => some ("disk.Usage: " ++ e)

section closed
variable {F : Type}

def loadOf [Zero F] (p : Providers F) : LoadStats F :=
  match p.loadAvg with
  | .ok a => { Load1 := a.Load1, Load5 := a.Load5, Load15 := a.Load15 }
  | .error _ => LoadStats.zero F

def totalPercentOf [Zero F] [Add F] [Div F] [NatCast F] (p : Providers F) : F :=
  match p.cpuPercentTotal with
  | .ok (x :: _) => x
  | _ => if (perCPUPercentOf p).length > 0 then avgFloat64 (perCPUPercentOf p) else 0

def cpuOf [Zero F] [Add F] [Div F] [NatCast F] (p : Providers F) : CPUStats F :=
  { Info := match p.cpuInfo with
      | .ok xs => mapCPUInfo xs
      | .error _ => []
    TotalTimes := match p.cpuTimesTotal with
      | .ok (t :: _) => mapTimes t
      | _ => CPUTimes.zero F
    PerCPUTimes := match p.cpuTimesPerCPU with
      | .ok ts => mapTimesSlice ts
      | .error _ => []
    TotalPercent := totalPercentOf p
    PerCPUPercent := perCPUPercentOf p }

def memoryOf [Zero F] (p : Providers F) : MemoryStats F :=
  { Virtual := match p.memVirtualMemory with
      | .ok vm =>
        { Total := vm.Total, Available := vm.Available, Used := vm.Used, Free := vm.Free,
          Buffers := vm.Buffers, Cached := vm.Cached, Active := vm.Active,
          Inactive := vm.Inactive, UsedPercent := vm.UsedPercent }
      | .error _ => VirtualMemory.zero F
    Swap := match p.memSwapMemory with
      | .ok sm =>
        { Total := sm.Total, Used := sm.Used, Free := sm.Free, UsedPercent := sm.UsedPercent }
      | .error _ => SwapMemory.zero F }

def diskOf (p : Providers F) : DiskStats F :=
  { Partitions := match p.diskPartitions with
      | .ok ps => mapPartitions ps
      | .error _ => []
    Usage := match p.diskPartitions with
      | .ok ps => ps.filterMap (usageEntry p.diskUsage)
      | .error _ => []
    Io := match p.diskIOCounters with
      | .ok m => mapDiskIO m
      | .error _ => [] }

def networkOf (p : Providers F) : NetworkStats :=
  { Interfaces := match p.netInterfaces with
      | .ok xs => mapInterfaces xs
      | .error _ => []
    Totals := match p.netIOCounters with
      | .ok (t :: _) =>
        { BytesSent := t.BytesSent, BytesRecv := t.BytesRecv,
          PacketsSent := t.PacketsSent, PacketsRecv := t.PacketsRecv,
          Errin := t.Errin, Errout := t.Errout, Dropin := t.Dropin, Dropout := t.Dropout }
      | _ => NetIO.zero }

def hostUsersOf (p : Providers F) : List HostUser :=
  match p.hostUsers with
  | .ok us => mapUsers us
  | .error _ => []

def hostOf (p : Providers F) : HostStats :=
  match p.hostInfo with
  | .ok h =>
    { Hostname := h.Hostname, OS := h.OS, Platform := h.Platform,
      PlatformFamily := h.PlatformFamily, PlatformVersion := h.PlatformVersion,
      KernelVersion := h.KernelVersion, KernelArch := h.KernelArch,
      UptimeSeconds := h.Uptime, BootTime := h.BootTime, Procs := h.Procs,
      VirtualizationSystem := h.VirtualizationSystem,
      VirtualizationRole := h.VirtualizationRole, Users := hostUsersOf p }
  | .error _ => { HostStats.zero with Users := hostUsersOf p }

def sensorsOf (p : Providers F) : SensorsStats F :=
  { Temperatures := match p.sensorsTemperatures with
      | .ok ts => mapTemps ts
      | .error _ => []
    Fans := [] }

def diskPartitionErrors (p : Providers F) : List String :=
  match p.diskPartitions with
  | .ok ps => ps.filterMap (usageError p.diskUsage)
  | .error e => ["disk.Partitions: " ++ e]

def totalPercentErrors (p : Providers F) : List String :=
  if (perCPUPercentOf p).length > 0 then []
  else callErrors "cpu.Percent total" p.cpuPercentTotal

def errorsOf (p : Providers F) : List String :=
  callErrors "load.Avg" p.loadAvg ++ (callErrors "cpu.Info" p.cpuInfo ++
  (callErrors "cpu.Percent per-cpu" p.cpuPercentPerCPU ++ (totalPercentErrors p ++
  (callErrors "cpu.Times total" p.cpuTimesTotal ++
  (callErrors "cpu.Times per-cpu" p.cpuTimesPerCPU ++
  (callErrors "mem.VirtualMemory" p.memVirtualMemory ++
  (callErrors "mem.SwapMemory" p.memSwapMemory ++ (diskPartitionErrors p ++
  (callErrors "disk.IOCounters" p.diskIOCounters ++
  (callErrors "net.Interfaces" p.netInterfaces ++
  (callErrors "net.IOCounters" p.netIOCounters ++ (callErrors "host.Info" p.hostInfo ++
  (callErrors "host.Users" p.hostUsers ++
  callErrors "sensors.SensorsTemperatures" p.sensorsTemperatures)))))))))))))

end closed

/-- One when the call failed, zero when it succeeded. -/
def failCount {α : Type} : Except String α → Nat
  | .ok _ => 0
  | .error _ => 1

/-! ### Sample provider outcomes -/

/-- A cycle in which every provider call succeeds and returns empty or zero
data. -/
def allOk : Providers ℚ :=
  { now := "2026-02-15T00:00:00Z"
    loadAvg := .ok { Load1 := 0, Load5 := 0, Load15 := 0 }
    cpuInfo := .ok []
    cpuPercentPerCPU := .ok []
    cpuPercentTotal := .ok [0]
    cpuTimesTotal := .ok []
    cpuTimesPerCPU := .ok []
    memVirtualMemory := .ok { Total := 0, Available := 0, Used := 0, Free := 0, Buffers := 0,
                              Cached := 0, Active := 0, Inactive := 0, UsedPercent := 0 }
    memSwapMemory := .ok { Total := 0, Used := 0, Free := 0, UsedPercent := 0 }
    diskPartitions := .ok []
    diskUsage := fun _ => .ok { Total := 0, Used := 0, Free := 0, UsedPercent := 0 }
    diskIOCounters := .ok []
    netInterfaces := .ok []
    netIOCounters := .ok []
    hostInfo := .ok { Hostname := "edge", OS := "linux", Platform := "", PlatformFamily := "",
                      PlatformVersion := "", KernelVersion := "", KernelArch := "",
                      Uptime := 0, BootTime := 0, Procs := 0,
                      VirtualizationSystem := "", VirtualizationRole := "" }
    hostUsers := .ok []
    sensorsTemperatures := .ok [] }

/-- A cycle in which every provider call fails with the error text `down`. -/
def allFailing : Providers ℚ :=
  { now := "2026-02-15T00:00:00Z"
    loadAvg := .error "down"
    cpuInfo := .error "down"
    cpuPercentPerCPU := .error "down"
    cpuPercentTotal := .error "down"
    cpuTimesTotal := .error "down"
    cpuTimesPerCPU := .error "down"
    memVirtualMemory := .error "down"
    memSwapMemory := .error "down"
    diskPartitions := .error "down"
    diskUsage := fun _ => .error "down"
    diskIOCounters := .error "down"
    netInterfaces := .error "down"
    netIOCounters := .error "down"
    hostInfo := .error "down"
    hostUsers := .error "down"
    sensorsTemperatures := .error "down" }

/-- Every call succeeds except the aggregate `cpu.Percent(0, false)`, while the
per-CPU call returns `[10, 20, 30]`. -/
def totalFailsPerCPUOk : Providers ℚ :=
  { allOk with cpuPercentPerCPU := .ok [10, 20, 30], cpuPercentTotal := .error "down" }

/-- Every call succeeds except the aggregate `cpu.Percent(0, false)`, while the
per-CPU call returns an empty list. -/
def totalFailsPerCPUEmpty : Providers ℚ :=
  { allOk with cpuPercentPerCPU := .ok [], cpuPercentTotal := .error "down" }

/-! ### Sample data for the store -/

/-- The snapshot of `TestStoreAccessors`: a timestamp and `CPU.TotalPercent`
42.5. -/
def sampleInfo : SystemInfo ℚ :=
  { SystemInfo.zero ℚ with
    Timestamp := "2026-02-15T00:00:00Z"
    CPU := { CPUStats.zero ℚ with TotalPercent := 85 / 2 } }

/-- The bytes of `not-json`, the payload of `TestStoreSetInvalidJSON`. -/
def notJSON : List Byte := [110, 111, 116, 45, 106, 115, 111, 110]

/-- A payload standing for the encoding of `sampleInfo`. -/
def samplePayload : List Byte := [123, 125]

/-- A decoder that accepts `samplePayload` only. -/
def sampleDecode : Decoder ℚ := fun p =>
  if p = samplePayload then some sampleInfo else none

/-! ### Sample surroundings of a run -/

/-- A `json.Marshal` that succeeds with `samplePayload`. -/
def sampleMarshal : SystemInfo ℚ → Except String (List Byte) := fun _ => .ok samplePayload

/-- A `json.Marshal` that fails, as it does on a NaN. -/
def failingMarshal : SystemInfo ℚ → Except String (List Byte) :=
  fun _ => .error "json: unsupported value: NaN"

/-- A connected client whose publish token completes without error. -/
def idleClient : mqtt.ClientState := { connected := true, wait := .tokenDone none }

/-- A cycle in which every provider call succeeds and nothing panics. -/
def calmCycle : CycleEnv ℚ := { providers := allOk, panicBlock := none, client := idleClient }

/-- A cycle in which the call `cpu.Info()`, of the second block, panics. -/
def cpuInfoPanics : CycleEnv ℚ := { calmCycle with panicBlock := some 1 }

/-- A publisher as `mqtt.NewPublisher` returns it. -/
def samplePublisher : mqtt.Publisher :=
  { client := some "tcp://localhost:1883", topic := "edgebeat/metrics", qos := 1 }

/-! # Theorems -/

/-! ## The store -/

section store
variable {F : Type}

theorem Set_some (decode : Decoder F) (st : Store F) (p : List Byte) :
    Store.Set decode (some st) p =
      .returned (some (match decode p with
        | none => st
        | some info => { payload := p, info := some info, hasData := true })) := by
  unfold Store.Set
  cases decode p <;> rfl

theorem setPayloads_append (xs ys : List StoreOp) :
    setPayloads (xs ++ ys) = setPayloads xs ++ setPayloads ys := by
  induction xs with
  | nil => rfl
  | cons o rest ih => cases o <;> simp [setPayloads, ih]

theorem lastAccepted_snoc (decode : Decoder F) (ps : List (List Byte)) (p : List Byte) :
    lastAccepted decode (ps ++ [p]) =
      if (decode p).isSome then some p else lastAccepted decode ps := by
  unfold lastAccepted
  by_cases h : (decode p).isSome
  · simp [List.filter_append, h]
  · simp [List.filter_append, h]

theorem Set_storeOf (decode : Decoder F) (ps : List (List Byte)) (p : List Byte) :
    Store.Set decode (some (storeOf decode (lastAccepted decode ps))) p =
      .returned (some (storeOf decode (lastAccepted decode (ps ++ [p])))) := by
  rw [Set_some, lastAccepted_snoc]
  cases h : decode p <;> simp [storeOf, h]

theorem runSets_append (decode : Decoder F) (s : Option (Store F)) (xs ys : List (List Byte)) :
    runSets decode s (xs ++ ys) = (runSets decode s xs).bind fun s1 => runSets decode s1 ys := by
  induction xs generalizing s with
  | nil => rfl
  | cons p rest ih =>
    cases s with
    | none => simp [runSets, Store.Set, Outcome.bind, ih]
    | some st => simp [runSets, Set_some, Outcome.bind, ih]

theorem runSets_storeOf (decode : Decoder F) (pre ps : List (List Byte)) :
    runSets decode (some (storeOf decode (lastAccepted decode pre))) ps =
      .returned (some (storeOf decode (lastAccepted decode (pre ++ ps)))) := by
  induction ps generalizing pre with
  | nil => simp [runSets]
  | cons p rest ih =>
    have h := ih (pre ++ [p])
    simp only [List.append_assoc, List.singleton_append] at h
    simp [runSets, Set_storeOf, Outcome.bind, h]

theorem runSets_NewStore (decode : Decoder F) (ps : List (List Byte)) :
    runSets decode (NewStore F) ps =
      .returned (some (storeOf decode (lastAccepted decode ps))) := by
  have h := runSets_storeOf decode [] ps
  simpa [lastAccepted, storeOf, NewStore] using h

theorem Get_storeOf (decode : Decoder F) (last : Option (List Byte)) :
    Store.Get (some (storeOf decode last)) = .returned (specGet last) := by
  cases last <;> simp [Store.Get, storeOf, specGet]

theorem runOps_storeOf (decode : Decoder F) (before ops : List StoreOp) :
    runOps decode (some (storeOf decode (lastAccepted decode (setPayloads before)))) ops =
      .returned (specGets decode before ops) := by
  induction ops generalizing before with
  | nil => simp [runOps, specGets]
  | cons o rest ih =>
    cases o with
    | set p =>
      have h := ih (before ++ [.set p])
      simp only [setPayloads_append, setPayloads] at h
      simp [runOps, specGets, Set_storeOf, Outcome.bind, h]
    | get =>
      have h := ih (before ++ [.get])
      simp only [setPayloads_append, setPayloads, List.append_nil] at h
      simp [runOps, specGets, Get_storeOf, Outcome.bind, h]

theorem specGets_replicate_get (decode : Decoder F) (before : List StoreOp) (k : Nat) :
    specGets decode before (List.replicate k .get) =
      List.replicate k (specGet (lastAccepted decode (setPayloads before))) := by
  induction k generalizing before with
  | zero => simp [specGets]
  | succ n ih =>
    simp [List.replicate_succ, specGets, ih, setPayloads_append, setPayloads]

theorem specGets_append (decode : Decoder F) (before xs ys : List StoreOp) :
    specGets decode before (xs ++ ys) =
      specGets decode before xs ++ specGets decode (before ++ xs) ys := by
  induction xs generalizing before with
  | nil => simp [specGets]
  | cons o rest ih => cases o <;> simp [specGets, ih]

theorem accessors_storeOf (decode : Decoder F) (last : Option (List Byte)) :
    Store.accessors (some (storeOf decode last)) =
      List.replicate 6 (.returned
        (match last with
         | none => (none, false)
         | some p => (decode p, (decode p).isSome))) := by
  cases last with
  | none =>
    simp [Store.accessors, Store.GetCPU, Store.GetMemory, Store.GetDisk, Store.GetNetwork,
      Store.GetSystem, Store.GetSensors, storeOf, List.replicate]
  | some p =>
    cases h : decode p <;>
    simp [Store.accessors, Store.GetCPU, Store.GetMemory, Store.GetDisk, Store.GetNetwork,
      Store.GetSystem, Store.GetSensors, storeOf, List.replicate, h]

theorem lastAccepted_decodes (decode : Decoder F) (ps : List (List Byte)) (q : List Byte)
    (h : lastAccepted decode ps = some q) : q ∈ ps ∧ (decode q).isSome = true := by
  unfold lastAccepted at h
  have hm := List.mem_of_getLast?_eq_some h
  simpa [List.mem_filter] using hm

theorem lastAccepted_eq_none (decode : Decoder F) (ps : List (List Byte)) :
    lastAccepted decode ps = none ↔ ∀ p ∈ ps, decode p = none := by
  unfold lastAccepted
  rw [List.getLast?_eq_none_iff, List.filter_eq_nil_iff]
  constructor
  · intro h p hp
    have := h p hp
    cases hd : decode p <;> simp_all
  · intro h p hp
    simp [h p hp]

end store

section storeClaims
variable {F : Type}

/-- C1: on a store made by `NewStore`, every `Get` of a sequence of `Set` and
`Get` calls returns the payload of the most recent preceding `Set` whose payload
decodes, with `true`, and `(nil, false)` when there is none; `Get` on the fresh
store is not-present, and `k` further `Get` calls with no `Set` in between all
return the same result. -/
theorem store_get_last_accepted (decode : Decoder F) (ops : List StoreOp) (k : Nat) :
    runOps decode (NewStore F) ops = .returned (specGets decode [] ops) ∧
    Store.Get (NewStore F) = .returned (none, false) ∧
    runOps decode (NewStore F) (ops ++ List.replicate k .get) =
      .returned (specGets decode [] ops ++
        List.replicate k (specGet (lastAccepted decode (setPayloads ops)))) := by
  have h := runOps_storeOf decode []
  simp only [setPayloads, lastAccepted, List.filter_nil, List.getLast?_nil, storeOf] at h
  refine ⟨h ops, rfl, ?_⟩
  show runOps decode (some _) _ = _
  rw [h, specGets_append, specGets_replicate_get]
  simp

/-- C2: a `Set` whose payload does not decode returns with the store as it
was, so `Get` and the six accessors return what they returned before; on a fresh
store `Get` is still not-present. -/
theorem set_invalid_leaves_store (decode : Decoder F) (s : Option (Store F))
    (payload : List Byte) (h : decode payload = none) :
    Store.Set decode s payload = .returned s ∧
    (∀ s1, Store.Set decode s payload = .returned s1 →
      Store.Get s1 = Store.Get s ∧ Store.accessors s1 = Store.accessors s) ∧
    (∀ s1, Store.Set decode (NewStore F) payload = .returned s1 →
      Store.Get s1 = .returned (none, false)) := by
  have key : ∀ t : Option (Store F), Store.Set decode t payload = .returned t := by
    intro t
    cases t with
    | none => rfl
    | some st => simp [Set_some, h]
  refine ⟨key s, ?_, ?_⟩
  · intro s1 h1
    rw [key s] at h1
    cases h1
    exact ⟨rfl, rfl⟩
  · intro s1 h1
    rw [key] at h1
    cases h1
    rfl

theorem set_invalid_leaves_store_witness :
    sampleDecode notJSON = none ∧
    Store.Set sampleDecode (NewStore ℚ) notJSON = .returned (NewStore ℚ) ∧
    Store.Set sampleDecode (some (storeOf sampleDecode (some samplePayload))) notJSON =
      .returned (some (storeOf sampleDecode (some samplePayload))) :=
  ⟨by simp [sampleDecode, notJSON, samplePayload],
   (set_invalid_leaves_store sampleDecode (NewStore ℚ) notJSON
      (by simp [sampleDecode, notJSON, samplePayload])).1,
   (set_invalid_leaves_store sampleDecode _ notJSON
      (by simp [sampleDecode, notJSON, samplePayload])).1⟩

/-- C3: on a nil `*Store`, `Set` returns and does nothing and `Get` returns
`(nil, false)`, but each of the six section accessors panics with a nil
pointer dereference instead of returning not-present. -/
theorem nil_store_accessors_panic (decode : Decoder F) (payload : List Byte) :
    Store.Set decode none payload = .returned none ∧
    Store.Get (none : Option (Store F)) = .returned (none, false) ∧
    Store.GetCPU (none : Option (Store F)) = .nilDeref ∧
    Store.GetMemory (none : Option (Store F)) = .nilDeref ∧
    Store.GetDisk (none : Option (Store F)) = .nilDeref ∧
    Store.GetNetwork (none : Option (Store F)) = .nilDeref ∧
    Store.GetSystem (none : Option (Store F)) = .nilDeref ∧
    Store.GetSensors (none : Option (Store F)) = .nilDeref :=
  ⟨rfl, rfl, rfl, rfl, rfl, rfl, rfl, rfl⟩

/-- C4: after any sequence of `Set` calls on a store made by `NewStore`, the
six section accessors return one and the same presence flag, which is the flag
`Get` returns, and the flag is true exactly when one of the payloads was
accepted. -/
theorem accessors_share_presence_flag (decode : Decoder F) (ps : List (List Byte)) :
    ∃ s payload info flag,
      runSets decode (NewStore F) ps = .returned s ∧
      Store.Get s = .returned (payload, flag) ∧
      Store.accessors s = List.replicate 6 (.returned (info, flag)) ∧
      (flag = true ↔ ∃ p ∈ ps, (decode p).isSome = true) := by
  cases hl : lastAccepted decode ps with
  | none =>
    refine ⟨_, none, none, false, runSets_NewStore decode ps, ?_, ?_, ?_⟩
    · rw [hl, Get_storeOf]; rfl
    · rw [hl, accessors_storeOf]
    · have hn := (lastAccepted_eq_none decode ps).1 hl
      constructor
      · intro hf; cases hf
      · rintro ⟨p, hp, hd⟩
        rw [hn p hp] at hd
        cases hd
  | some q =>
    obtain ⟨hq, hd⟩ := lastAccepted_decodes decode ps q hl
    refine ⟨_, some q, decode q, true, runSets_NewStore decode ps, ?_, ?_, ?_⟩
    · rw [hl, Get_storeOf]; rfl
    · rw [hl, accessors_storeOf]
      simp [hd]
    · exact ⟨fun _ => ⟨q, hq, hd⟩, fun _ => rfl⟩

/-- C5: after `Set(p)` with `p` decoding to `v`, whatever `Set` calls came
before, each of the six accessors returns `(v, true)`; and after any sequence
of `Set` calls, when `Get` returns bytes, the accessors return the decode of
exactly those bytes, which are the latest accepted payload. -/
theorem accessors_return_latest_decode (decode : Decoder F) (ps : List (List Byte)) :
    (∀ p v, decode p = some v →
      ∃ s, runSets decode (NewStore F) (ps ++ [p]) = .returned s ∧
        Store.accessors s = List.replicate 6 (.returned (some v, true))) ∧
    (∃ s, runSets decode (NewStore F) ps = .returned s ∧
      ∀ bytes ok, Store.Get s = .returned (some bytes, ok) →
        lastAccepted decode ps = some bytes ∧
        Store.accessors s = List.replicate 6 (.returned (decode bytes, true))) := by
  constructor
  · intro p v hv
    refine ⟨_, runSets_NewStore decode (ps ++ [p]), ?_⟩
    rw [lastAccepted_snoc, accessors_storeOf]
    simp [hv]
  · refine ⟨_, runSets_NewStore decode ps, ?_⟩
    intro bytes ok hg
    rw [Get_storeOf] at hg
    cases hl : lastAccepted decode ps with
    | none => rw [hl] at hg; simp [specGet] at hg
    | some q =>
      rw [hl] at hg
      simp only [specGet, Outcome.returned.injEq, Prod.mk.injEq, Option.some.injEq] at hg
      obtain ⟨hq, _⟩ := hg
      subst hq
      refine ⟨rfl, ?_⟩
      rw [accessors_storeOf]
      simp [(lastAccepted_decodes decode ps q hl).2]

theorem accessors_return_latest_decode_witness :
    (∃ s, runSets sampleDecode (NewStore ℚ) ([notJSON] ++ [samplePayload]) = .returned s ∧
        Store.accessors s = List.replicate 6 (.returned (some sampleInfo, true))) ∧
    sampleInfo.CPU.TotalPercent = 85 / 2 ∧
    sampleInfo.Timestamp = "2026-02-15T00:00:00Z" :=
  ⟨(accessors_return_latest_decode sampleDecode [notJSON]).1 samplePayload sampleInfo
      (by simp [sampleDecode]), rfl, rfl⟩

end storeClaims

/-! ## The collection cycle -/

section collectLemmas
variable {F : Type}

theorem foldl_snoc_eq_map {α β : Type} (f : α → β) (xs : List α) (acc : List β) :
    xs.foldl (fun items v => items ++ [f v]) acc = acc ++ xs.map f := by
  induction xs generalizing acc with
  | nil => simp
  | cons x rest ih => simp [ih]

theorem mapDiskUsage_foldl (usage : String → Except String (disk.UsageStat F))
    (inp : List disk.PartitionStat) (acc : List (DiskUsage F) × List String) :
    inp.foldl (mapDiskUsageStep usage) acc =
      (acc.1 ++ inp.filterMap (usageEntry usage), acc.2 ++ inp.filterMap (usageError usage)) := by
  induction inp generalizing acc with
  | nil => simp
  | cons v rest ih =>
    rw [List.foldl_cons, ih]
    unfold mapDiskUsageStep
    cases h : usage v.Mountpoint <;>
      simp [List.filterMap_cons, usageEntry, usageError, h]

theorem mapDiskUsage_eq (usage : String → Except String (disk.UsageStat F))
    (inp : List disk.PartitionStat) (errors : List String) :
    mapDiskUsage usage inp errors =
      (inp.filterMap (usageEntry usage), errors ++ inp.filterMap (usageError usage)) := by
  unfold mapDiskUsage
  rw [mapDiskUsage_foldl]
  simp

theorem collectLoadAvg_eq (p : Providers F) (st : Acc F) :
    collectLoadAvg p st =
      ({ st.1 with Load := match p.loadAvg with
          | .ok a => { Load1 := a.Load1, Load5 := a.Load5, Load15 := a.Load15 }
          | .error _ => st.1.Load },
       st.2 ++ callErrors "load.Avg" p.loadAvg) := by
  unfold collectLoadAvg
  cases p.loadAvg <;> simp [callErrors]

theorem collectCPUInfo_eq (p : Providers F) (st : Acc F) :
    collectCPUInfo p st =
      ({ st.1 with CPU := { st.1.CPU with Info := match p.cpuInfo with
          | .ok xs => mapCPUInfo xs
          | .error _ => st.1.CPU.Info } },
       st.2 ++ callErrors "cpu.Info" p.cpuInfo) := by
  unfold collectCPUInfo
  cases p.cpuInfo <;> simp [callErrors]

theorem collectCPUPercentPerCPU_eq (p : Providers F) (st : Acc F) :
    collectCPUPercentPerCPU p st =
      ({ st.1 with CPU := { st.1.CPU with PerCPUPercent := match p.cpuPercentPerCPU with
          | .ok xs => xs
          | .error _ => st.1.CPU.PerCPUPercent } },
       st.2 ++ callErrors "cpu.Percent per-cpu" p.cpuPercentPerCPU) := by
  unfold collectCPUPercentPerCPU
  cases p.cpuPercentPerCPU <;> simp [callErrors]

theorem collectCPUPercentTotal_eq [Zero F] [Add F] [Div F] [NatCast F]
    (p : Providers F) (st : Acc F) :
    collectCPUPercentTotal p st =
      ({ st.1 with CPU := { st.1.CPU with TotalPercent := match p.cpuPercentTotal with
          | .ok (x :: _) => x
          | _ => if st.1.CPU.PerCPUPercent.length > 0
                 then avgFloat64 st.1.CPU.PerCPUPercent else st.1.CPU.TotalPercent } },
       st.2 ++ (if st.1.CPU.PerCPUPercent.length > 0 then []
                else callErrors "cpu.Percent total" p.cpuPercentTotal)) := by
  unfold collectCPUPercentTotal
  cases h : p.cpuPercentTotal with
  | error e => by_cases hl : st.1.CPU.PerCPUPercent.length > 0 <;> simp [callErrors, hl]
  | ok xs =>
    cases xs with
    | nil => by_cases hl : st.1.CPU.PerCPUPercent.length > 0 <;> simp [callErrors, hl]
    | cons x rest => simp [callErrors]

theorem collectCPUTimesTotal_eq (p : Providers F) (st : Acc F) :
    collectCPUTimesTotal p st =
      ({ st.1 with CPU := { st.1.CPU with TotalTimes := match p.cpuTimesTotal with
          | .ok (t :: _) => mapTimes t
          | _ => st.1.CPU.TotalTimes } },
       st.2 ++ callErrors "cpu.Times total" p.cpuTimesTotal) := by
  unfold collectCPUTimesTotal
  cases h : p.cpuTimesTotal with
  | error e => simp [callErrors]
  | ok xs => cases xs <;> simp [callErrors]

theorem collectCPUTimesPerCPU_eq (p : Providers F) (st : Acc F) :
    collectCPUTimesPerCPU p st =
      ({ st.1 with CPU := { st.1.CPU with PerCPUTimes := match p.cpuTimesPerCPU with
          | .ok ts => mapTimesSlice ts
          | .error _ => st.1.CPU.PerCPUTimes } },
       st.2 ++ callErrors "cpu.Times per-cpu" p.cpuTimesPerCPU) := by
  unfold collectCPUTimesPerCPU
  cases p.cpuTimesPerCPU <;> simp [callErrors]

theorem collectVirtualMemory_eq (p : Providers F) (st : Acc F) :
    collectVirtualMemory p st =
      ({ st.1 with Memory := { st.1.Memory with Virtual := match p.memVirtualMemory with
          | .ok vm =>
            { Total := vm.Total, Available := vm.Available, Used := vm.Used, Free := vm.Free,
              Buffers := vm.Buffers, Cached := vm.Cached, Active := vm.Active,
              Inactive := vm.Inactive, UsedPercent := vm.UsedPercent }
          | .error _ => st.1.Memory.Virtual } },
       st.2 ++ callErrors "mem.VirtualMemory" p.memVirtualMemory) := by
  unfold collectVirtualMemory
  cases p.memVirtualMemory <;> simp [callErrors]

theorem collectSwapMemory_eq (p : Providers F) (st : Acc F) :
    collectSwapMemory p st =
      ({ st.1 with Memory := { st.1.Memory with Swap := match p.memSwapMemory with
          | .ok sm =>
            { Total := sm.Total, Used := sm.Used, Free := sm.Free,
              UsedPercent := sm.UsedPercent }
          | .error _ => st.1.Memory.Swap } },
       st.2 ++ callErrors "mem.SwapMemory" p.memSwapMemory) := by
  unfold collectSwapMemory
  cases p.memSwapMemory <;> simp [callErrors]

theorem collectDiskPartitions_eq (p : Providers F) (st : Acc F) :
    collectDiskPartitions p st =
      ({ st.1 with Disk := { st.1.Disk with
          Partitions := match p.diskPartitions with
            | .ok ps => mapPartitions ps
            | .error _ => st.1.Disk.Partitions
          Usage := match p.diskPartitions with
            | .ok ps => ps.filterMap (usageEntry p.diskUsage)
            | .error _ => st.1.Disk.Usage } },
       st.2 ++ diskPartitionErrors p) := by
  unfold collectDiskPartitions diskPartitionErrors
  cases p.diskPartitions <;> simp [mapDiskUsage_eq]

theorem collectDiskIOCounters_eq (p : Providers F) (st : Acc F) :
    collectDiskIOCounters p st =
      ({ st.1 with Disk := { st.1.Disk with Io := match p.diskIOCounters with
          | .ok m => mapDiskIO m
          | .error _ => st.1.Disk.Io } },
       st.2 ++ callErrors "disk.IOCounters" p.diskIOCounters) := by
  unfold collectDiskIOCounters
  cases p.diskIOCounters <;> simp [callErrors]

theorem collectNetInterfaces_eq (p : Providers F) (st : Acc F) :
    collectNetInterfaces p st =
      ({ st.1 with Network := { st.1.Network with Interfaces := match p.netInterfaces with
          | .ok xs => mapInterfaces xs
          | .error _ => st.1.Network.Interfaces } },
       st.2 ++ callErrors "net.Interfaces" p.netInterfaces) := by
  unfold collectNetInterfaces
  cases p.netInterfaces <;> simp [callErrors]

theorem collectNetIOCounters_eq (p : Providers F) (st : Acc F) :
    collectNetIOCounters p st =
      ({ st.1 with Network := { st.1.Network with Totals := match p.netIOCounters with
          | .ok (t :: _) =>
            { BytesSent := t.BytesSent, BytesRecv := t.BytesRecv,
              PacketsSent := t.PacketsSent, PacketsRecv := t.PacketsRecv,
              Errin := t.Errin, Errout := t.Errout, Dropin := t.Dropin,
              Dropout := t.Dropout }
          | _ => st.1.Network.Totals } },
       st.2 ++ callErrors "net.IOCounters" p.netIOCounters) := by
  unfold collectNetIOCounters
  cases h : p.netIOCounters with
  | error e => simp [callErrors]
  | ok xs => cases xs <;> simp [callErrors]

theorem collectHostInfo_eq (p : Providers F) (st : Acc F) :
    collectHostInfo p st =
      ({ st.1 with Host := match p.hostInfo with
          | .ok h =>
            { Hostname := h.Hostname, OS := h.OS, Platform := h.Platform,
              PlatformFamily := h.PlatformFamily, PlatformVersion := h.PlatformVersion,
              KernelVersion := h.KernelVersion, KernelArch := h.KernelArch,
              UptimeSeconds := h.Uptime, BootTime := h.BootTime, Procs := h.Procs,
              VirtualizationSystem := h.VirtualizationSystem,
              VirtualizationRole := h.VirtualizationRole, Users := [] }
          | .error _ => st.1.Host },
       st.2 ++ callErrors "host.Info" p.hostInfo) := by
  unfold collectHostInfo
  cases p.hostInfo <;> simp [callErrors]

theorem collectHostUsers_eq (p : Providers F) (st : Acc F) :
    collectHostUsers p st =
      ({ st.1 with Host := { st.1.Host with Users := match p.hostUsers with
          | .ok us => mapUsers us
          | .error _ => st.1.Host.Users } },
       st.2 ++ callErrors "host.Users" p.hostUsers) := by
  unfold collectHostUsers
  cases p.hostUsers <;> simp [callErrors]

theorem collectSensorsTemperatures_eq (p : Providers F) (st : Acc F) :
    collectSensorsTemperatures p st =
      ({ st.1 with Sensors := { st.1.Sensors with
          Temperatures := match p.sensorsTemperatures with
            | .ok ts => mapTemps ts
            | .error _ => st.1.Sensors.Temperatures } },
       st.2 ++ callErrors "sensors.SensorsTemperatures" p.sensorsTemperatures) := by
  unfold collectSensorsTemperatures
  cases p.sensorsTemperatures <;> simp [callErrors]

theorem collectFinish_eq (st : Acc F) (h : st.1.Errors = []) :
    collectFinish st = { st.1 with Errors := st.2 } := by
  unfold collectFinish
  by_cases hl : st.2.length > 0
  · simp [hl]
  · have : st.2 = [] := by
      cases hs : st.2 with
      | nil => rfl
      | cons a t => simp [hs] at hl
    simp [this, ← h]

end collectLemmas

section closedForm
variable {F : Type} [Zero F] [Add F] [Div F] [NatCast F]

theorem collectSystemInfo_eq (p : Providers F) :
    collectSystemInfo p =
      { Timestamp := p.now, CPU := cpuOf p, Load := loadOf p, Memory := memoryOf p,
        Disk := diskOf p, Network := networkOf p, Host := hostOf p,
        Sensors := sensorsOf p, Errors := errorsOf p } := by
  unfold collectSystemInfo
  simp only [collectLoadAvg_eq, collectCPUInfo_eq, collectCPUPercentPerCPU_eq,
    collectCPUPercentTotal_eq, collectCPUTimesTotal_eq, collectCPUTimesPerCPU_eq,
    collectVirtualMemory_eq, collectSwapMemory_eq, collectDiskPartitions_eq,
    collectDiskIOCounters_eq, collectNetInterfaces_eq, collectNetIOCounters_eq,
    collectHostInfo_eq, collectHostUsers_eq, collectSensorsTemperatures_eq]
  rw [collectFinish_eq _ rfl]
  simp only [collectStart, SystemInfo.zero, List.nil_append]
  congr 1
  · unfold hostOf hostUsersOf
    cases p.hostInfo <;> rfl
  · simp only [errorsOf, totalPercentErrors, perCPUPercentOf, List.append_assoc]
    rfl

end closedForm

section errorCount
variable {F : Type}

theorem callErrors_length {α : Type} (name : String) (r : Except String α) :
    (callErrors name r).length = failCount r := by
  cases r <;> rfl

theorem ite_errText_eq_failCount {α : Type} (r : Except String α) :
    (if (errText r).isSome = true then 1 else 0) = failCount r := by
  cases r <;> rfl

theorem totalPercentErrors_length (p : Providers F) :
    (totalPercentErrors p).length + (if totalPercentCovered p = true then 1 else 0) =
      failCount p.cpuPercentTotal := by
  unfold totalPercentErrors totalPercentCovered
  by_cases hl : (perCPUPercentOf p).length > 0
  · cases p.cpuPercentTotal <;> simp [hl, errText, failCount]
  · cases p.cpuPercentTotal <;> simp [hl, errText, failCount, callErrors]

theorem usageError_length (usage : String → Except String (disk.UsageStat F))
    (ps : List disk.PartitionStat) :
    (ps.filterMap (usageError usage)).length =
      List.countP (fun c => c.err.isSome)
        (ps.map fun v => (⟨.disk, "disk.Usage", errText (usage v.Mountpoint)⟩ : ProviderCall)) := by
  induction ps with
  | nil => rfl
  | cons v rest ih =>
    rw [List.map_cons, List.countP_cons, ← ih, List.filterMap_cons]
    unfold usageError
    cases usage v.Mountpoint <;> simp [errText]

theorem diskPartitionErrors_length (p : Providers F) :
    (diskPartitionErrors p).length =
      failCount p.diskPartitions + List.countP (fun c => c.err.isSome) (usageCalls p) := by
  unfold diskPartitionErrors usageCalls
  cases p.diskPartitions with
  | error e => simp [failCount]
  | ok ps => simp [failCount, usageError_length]

theorem errorsOf_length (p : Providers F) :
    (errorsOf p).length + (if totalPercentCovered p = true then 1 else 0) = failedCalls p := by
  have h1 := totalPercentErrors_length p
  have h2 := diskPartitionErrors_length p
  unfold failedCalls providerCalls errorsOf
  rw [← List.countP_eq_length_filter]
  simp only [List.countP_append, List.countP_cons, List.countP_nil, List.length_append,
    callErrors_length, ite_errText_eq_failCount]
  omega

end errorCount

section cycleClaims
variable {F : Type} [Zero F] [Add F] [Div F] [NatCast F]

/-- C6, as amended: the length of the error list equals the number of failed
provider calls, not counting a failed aggregate `cpu.Percent` call that the mean
of a non-empty per-CPU list covers; and every field whose provider call
succeeded holds the field-mapped values that call returned (the first element
for the three calls that return a list of totals). -/
theorem errors_count_and_sections (p : Providers F) :
    (collectSystemInfo p).Errors.length + (if totalPercentCovered p = true then 1 else 0) =
      failedCalls p ∧
    (∀ a, p.loadAvg = .ok a →
      (collectSystemInfo p).Load = { Load1 := a.Load1, Load5 := a.Load5, Load15 := a.Load15 }) ∧
    (∀ xs, p.cpuInfo = .ok xs → (collectSystemInfo p).CPU.Info = mapCPUInfo xs) ∧
    (∀ xs, p.cpuPercentPerCPU = .ok xs → (collectSystemInfo p).CPU.PerCPUPercent = xs) ∧
    (∀ x rest, p.cpuPercentTotal = .ok (x :: rest) →
      (collectSystemInfo p).CPU.TotalPercent = x) ∧
    (∀ t rest, p.cpuTimesTotal = .ok (t :: rest) →
      (collectSystemInfo p).CPU.TotalTimes = mapTimes t) ∧
    (∀ ts, p.cpuTimesPerCPU = .ok ts →
      (collectSystemInfo p).CPU.PerCPUTimes = mapTimesSlice ts) ∧
    (∀ vm, p.memVirtualMemory = .ok vm →
      (collectSystemInfo p).Memory.Virtual =
        { Total := vm.Total, Available := vm.Available, Used := vm.Used, Free := vm.Free,
          Buffers := vm.Buffers, Cached := vm.Cached, Active := vm.Active,
          Inactive := vm.Inactive, UsedPercent := vm.UsedPercent }) ∧
    (∀ sm, p.memSwapMemory = .ok sm →
      (collectSystemInfo p).Memory.Swap =
        { Total := sm.Total, Used := sm.Used, Free := sm.Free,
          UsedPercent := sm.UsedPercent }) ∧
    (∀ ps, p.diskPartitions = .ok ps →
      (collectSystemInfo p).Disk.Partitions = mapPartitions ps ∧
      (collectSystemInfo p).Disk.Usage = ps.filterMap (usageEntry p.diskUsage)) ∧
    (∀ m, p.diskIOCounters = .ok m → (collectSystemInfo p).Disk.Io = mapDiskIO m) ∧
    (∀ xs, p.netInterfaces = .ok xs →
      (collectSystemInfo p).Network.Interfaces = mapInterfaces xs) ∧
    (∀ t rest, p.netIOCounters = .ok (t :: rest) →
      (collectSystemInfo p).Network.Totals =
        { BytesSent := t.BytesSent, BytesRecv := t.BytesRecv,
          PacketsSent := t.PacketsSent, PacketsRecv := t.PacketsRecv,
          Errin := t.Errin, Errout := t.Errout, Dropin := t.Dropin,
          Dropout := t.Dropout }) ∧
    (∀ h, p.hostInfo = .ok h →
      (collectSystemInfo p).Host =
        { Hostname := h.Hostname, OS := h.OS, Platform := h.Platform,
          PlatformFamily := h.PlatformFamily, PlatformVersion := h.PlatformVersion,
          KernelVersion := h.KernelVersion, KernelArch := h.KernelArch,
          UptimeSeconds := h.Uptime, BootTime := h.BootTime, Procs := h.Procs,
          VirtualizationSystem := h.VirtualizationSystem,
          VirtualizationRole := h.VirtualizationRole,
          Users := (collectSystemInfo p).Host.Users }) ∧
    (∀ us, p.hostUsers = .ok us → (collectSystemInfo p).Host.Users = mapUsers us) ∧
    (∀ ts, p.sensorsTemperatures = .ok ts →
      (collectSystemInfo p).Sensors.Temperatures = mapTemps ts) := by
  rw [collectSystemInfo_eq]
  refine ⟨errorsOf_length p, ?_, ?_, ?_, ?_, ?_, ?_, ?_, ?_, ?_, ?_, ?_, ?_, ?_, ?_, ?_⟩
  · intro a h; simp [loadOf, h]
  · intro xs h; simp [cpuOf, h]
  · intro xs h; simp [cpuOf, perCPUPercentOf, h]
  · intro x rest h; simp [cpuOf, totalPercentOf, h]
  · intro t rest h; simp [cpuOf, h]
  · intro ts h; simp [cpuOf, h]
  · intro vm h; simp [memoryOf, h]
  · intro sm h; simp [memoryOf, h]
  · intro ps h; simp [diskOf, h]
  · intro m h; simp [diskOf, h]
  · intro xs h; simp [networkOf, h]
  · intro t rest h; simp [networkOf, h]
  · intro h hh; simp [hostOf, hh]
  · intro us h
    show (hostOf p).Users = _
    unfold hostOf hostUsersOf
    cases p.hostInfo <;> simp [h]
  · intro ts h; simp [sensorsOf, h]

end cycleClaims

section cycleClaims2
variable {F : Type} [Zero F] [Add F] [Div F] [NatCast F]

theorem errors_count_and_sections_witness :
    (collectSystemInfo totalFailsPerCPUOk).Errors.length +
        (if totalPercentCovered totalFailsPerCPUOk = true then 1 else 0) =
      failedCalls totalFailsPerCPUOk ∧
    (collectSystemInfo totalFailsPerCPUOk).CPU.PerCPUPercent = [10, 20, 30] :=
  ⟨(errors_count_and_sections totalFailsPerCPUOk).1,
   (errors_count_and_sections totalFailsPerCPUOk).2.2.2.1 [10, 20, 30] rfl⟩

/-- C6, as stated, fails: when only the aggregate `cpu.Percent` call fails and
the per-CPU call returned `[10, 20, 30]`, one provider call failed but the error
list is empty. -/
theorem errors_count_counterexample :
    failedCalls totalFailsPerCPUOk = 1 ∧
    (collectSystemInfo totalFailsPerCPUOk).Errors.length = 0 ∧
    ¬ ((collectSystemInfo totalFailsPerCPUOk).Errors.length =
        failedCalls totalFailsPerCPUOk) := by
  refine ⟨by decide, by decide, by decide⟩

end cycleClaims2

section cycleClaims3
variable {F : Type} [Zero F] [Add F] [Div F] [NatCast F]

theorem errText_isSome {α : Type} {r : Except String α} (h : (errText r).isSome = true) :
    ∃ e, r = .error e := by
  cases r with
  | ok a => simp [errText] at h
  | error e => exact ⟨e, rfl⟩

/-- C7, as amended: when every provider call fails, `collectSystemInfo` returns
a snapshot carrying the timestamp, every metric section is at its zero value,
and the error list has one entry per call, fifteen in all. -/
theorem all_fail_sections_zero (p : Providers F) (h : AllFail p) :
    (collectSystemInfo p).Timestamp = p.now ∧
    (collectSystemInfo p).CPU = CPUStats.zero F ∧
    (collectSystemInfo p).Load = LoadStats.zero F ∧
    (collectSystemInfo p).Memory = MemoryStats.zero F ∧
    (collectSystemInfo p).Disk = DiskStats.zero F ∧
    (collectSystemInfo p).Network = NetworkStats.zero ∧
    (collectSystemInfo p).Host = HostStats.zero ∧
    (collectSystemInfo p).Sensors = SensorsStats.zero F ∧
    (collectSystemInfo p).Errors.length = 15 := by
  obtain ⟨h1, h2, h3, h4, h5, h6, h7, h8, h9, h10, h11, h12, h13, h14, h15⟩ := h
  obtain ⟨e1, h1⟩ := errText_isSome h1
  obtain ⟨e2, h2⟩ := errText_isSome h2
  obtain ⟨e3, h3⟩ := errText_isSome h3
  obtain ⟨e4, h4⟩ := errText_isSome h4
  obtain ⟨e5, h5⟩ := errText_isSome h5
  obtain ⟨e6, h6⟩ := errText_isSome h6
  obtain ⟨e7, h7⟩ := errText_isSome h7
  obtain ⟨e8, h8⟩ := errText_isSome h8
  obtain ⟨e9, h9⟩ := errText_isSome h9
  obtain ⟨e10, h10⟩ := errText_isSome h10
  obtain ⟨e11, h11⟩ := errText_isSome h11
  obtain ⟨e12, h12⟩ := errText_isSome h12
  obtain ⟨e13, h13⟩ := errText_isSome h13
  obtain ⟨e14, h14⟩ := errText_isSome h14
  obtain ⟨e15, h15⟩ := errText_isSome h15
  rw [collectSystemInfo_eq]
  refine ⟨rfl, ?_, ?_, ?_, ?_, ?_, ?_, ?_, ?_⟩
  · simp [cpuOf, totalPercentOf, perCPUPercentOf, CPUStats.zero, h2, h3, h4, h5, h6]
  · simp [loadOf, h1]
  · simp [memoryOf, MemoryStats.zero, h7, h8]
  · simp [diskOf, DiskStats.zero, h9, h10]
  · simp [networkOf, NetworkStats.zero, h11, h12]
  · simp [hostOf, hostUsersOf, HostStats.zero, h13, h14]
  · simp [sensorsOf, SensorsStats.zero, h15]
  · simp [errorsOf, totalPercentErrors, perCPUPercentOf, diskPartitionErrors, callErrors,
      h1, h2, h3, h4, h5, h6, h7, h8, h9, h10, h11, h12, h13, h14, h15]

theorem all_fail_sections_zero_witness :
    AllFail allFailing ∧ (collectSystemInfo allFailing).Load = LoadStats.zero ℚ ∧
    (collectSystemInfo allFailing).Errors.length = 15 :=
  ⟨by decide,
   (all_fail_sections_zero allFailing (by decide)).2.2.1,
   (all_fail_sections_zero allFailing (by decide)).2.2.2.2.2.2.2.2⟩

/-- C7, as stated, fails: when every provider call fails with `down`, the
error list has fifteen entries, not seven. -/
theorem all_fail_errors_counterexample :
    AllFail allFailing ∧
    (collectSystemInfo allFailing).Errors.length = 15 ∧
    ¬ ((collectSystemInfo allFailing).Errors.length = 7) := by
  refine ⟨by decide, by decide, by decide⟩

end cycleClaims3

section errorOrder
variable {F : Type}

theorem callErrors_eq_message {α : Type} (g : MetricGroup) (name : String)
    (r : Except String α) :
    callErrors name r = [(⟨g, name, errText r⟩ : ProviderCall)].filterMap ProviderCall.message := by
  cases r <;> rfl

theorem totalPercentErrors_sublist (p : Providers F) :
    List.Sublist (totalPercentErrors p)
      ([(⟨.cpu, "cpu.Percent total", errText p.cpuPercentTotal⟩ : ProviderCall)].filterMap
        ProviderCall.message) := by
  unfold totalPercentErrors
  split
  · exact List.nil_sublist _
  · rw [callErrors_eq_message .cpu]

theorem usageError_eq_message (usage : String → Except String (disk.UsageStat F))
    (ps : List disk.PartitionStat) :
    ps.filterMap (usageError usage) =
      (ps.map fun v =>
        (⟨.disk, "disk.Usage", errText (usage v.Mountpoint)⟩ : ProviderCall)).filterMap
        ProviderCall.message := by
  induction ps with
  | nil => rfl
  | cons v rest ih =>
    rw [List.map_cons, List.filterMap_cons, List.filterMap_cons, ih]
    unfold usageError
    cases usage v.Mountpoint <;> simp [errText, ProviderCall.message]

theorem diskPartitionErrors_eq_message (p : Providers F) :
    diskPartitionErrors p =
      ([(⟨.disk, "disk.Partitions", errText p.diskPartitions⟩ : ProviderCall)] ++
        usageCalls p).filterMap ProviderCall.message := by
  unfold diskPartitionErrors usageCalls
  cases p.diskPartitions with
  | error e => simp [errText, ProviderCall.message]
  | ok ps => simp [errText, ProviderCall.message, usageError_eq_message]

theorem errorsOf_sublist (p : Providers F) :
    List.Sublist (errorsOf p) ((providerCalls p).filterMap ProviderCall.message) := by
  have e1 := callErrors_eq_message .load "load.Avg" p.loadAvg
  have e2 := callErrors_eq_message .cpu "cpu.Info" p.cpuInfo
  have e3 := callErrors_eq_message .cpu "cpu.Percent per-cpu" p.cpuPercentPerCPU
  have e5 := callErrors_eq_message .cpu "cpu.Times total" p.cpuTimesTotal
  have e6 := callErrors_eq_message .cpu "cpu.Times per-cpu" p.cpuTimesPerCPU
  have e7 := callErrors_eq_message .memory "mem.VirtualMemory" p.memVirtualMemory
  have e8 := callErrors_eq_message .memory "mem.SwapMemory" p.memSwapMemory
  have e10 := callErrors_eq_message .disk "disk.IOCounters" p.diskIOCounters
  have e11 := callErrors_eq_message .network "net.Interfaces" p.netInterfaces
  have e12 := callErrors_eq_message .network "net.IOCounters" p.netIOCounters
  have e13 := callErrors_eq_message .host "host.Info" p.hostInfo
  have e14 := callErrors_eq_message .host "host.Users" p.hostUsers
  have e15 := callErrors_eq_message .sensors "sensors.SensorsTemperatures"
    p.sensorsTemperatures
  have hsplit : providerCalls p =
      [⟨.load, "load.Avg", errText p.loadAvg⟩] ++
      ([⟨.cpu, "cpu.Info", errText p.cpuInfo⟩] ++
      ([⟨.cpu, "cpu.Percent per-cpu", errText p.cpuPercentPerCPU⟩] ++
      ([⟨.cpu, "cpu.Percent total", errText p.cpuPercentTotal⟩] ++
      ([⟨.cpu, "cpu.Times total", errText p.cpuTimesTotal⟩] ++
      ([⟨.cpu, "cpu.Times per-cpu", errText p.cpuTimesPerCPU⟩] ++
      ([⟨.memory, "mem.VirtualMemory", errText p.memVirtualMemory⟩] ++
      ([⟨.memory, "mem.SwapMemory", errText p.memSwapMemory⟩] ++
      (([⟨.disk, "disk.Partitions", errText p.diskPartitions⟩] ++ usageCalls p) ++
      ([⟨.disk, "disk.IOCounters", errText p.diskIOCounters⟩] ++
      ([⟨.network, "net.Interfaces", errText p.netInterfaces⟩] ++
      ([⟨.network, "net.IOCounters", errText p.netIOCounters⟩] ++
      ([⟨.host, "host.Info", errText p.hostInfo⟩] ++
      ([⟨.host, "host.Users", errText p.hostUsers⟩] ++
      [⟨.sensors, "sensors.SensorsTemperatures",
        errText p.sensorsTemperatures⟩]))))))))))))) := by
    simp [providerCalls]
  rw [hsplit]
  simp only [List.filterMap_append]
  unfold errorsOf
  rw [e1, e2, e3, e5, e6, e7, e8, e10, e11, e12, e13, e14, e15,
    diskPartitionErrors_eq_message]
  simp only [List.filterMap_append]
  refine List.Sublist.append (List.Sublist.refl _) ?_
  refine List.Sublist.append (List.Sublist.refl _) ?_
  refine List.Sublist.append (List.Sublist.refl _) ?_
  refine List.Sublist.append (totalPercentErrors_sublist p) ?_
  exact List.Sublist.refl _

theorem usageCalls_name (p : Providers F) : ∀ c ∈ usageCalls p, c.name = "disk.Usage" := by
  intro c hc
  unfold usageCalls at hc
  cases hp : p.diskPartitions with
  | error e => simp [hp] at hc
  | ok ps =>
    simp only [hp, List.mem_map] at hc
    obtain ⟨v, _, rfl⟩ := hc
    rfl

theorem providerCalls_split (p : Providers F) :
    providerCalls p =
      [⟨.load, "load.Avg", errText p.loadAvg⟩] ++
      ([⟨.cpu, "cpu.Info", errText p.cpuInfo⟩] ++
      ([⟨.cpu, "cpu.Percent per-cpu", errText p.cpuPercentPerCPU⟩] ++
      ([⟨.cpu, "cpu.Percent total", errText p.cpuPercentTotal⟩] ++
      ([⟨.cpu, "cpu.Times total", errText p.cpuTimesTotal⟩] ++
      ([⟨.cpu, "cpu.Times per-cpu", errText p.cpuTimesPerCPU⟩] ++
      ([⟨.memory, "mem.VirtualMemory", errText p.memVirtualMemory⟩] ++
      ([⟨.memory, "mem.SwapMemory", errText p.memSwapMemory⟩] ++
      (([⟨.disk, "disk.Partitions", errText p.diskPartitions⟩] ++ usageCalls p) ++
      ([⟨.disk, "disk.IOCounters", errText p.diskIOCounters⟩] ++
      ([⟨.network, "net.Interfaces", errText p.netInterfaces⟩] ++
      ([⟨.network, "net.IOCounters", errText p.netIOCounters⟩] ++
      ([⟨.host, "host.Info", errText p.hostInfo⟩] ++
      ([⟨.host, "host.Users", errText p.hostUsers⟩] ++
      [⟨.sensors, "sensors.SensorsTemperatures",
        errText p.sensorsTemperatures⟩]))))))))))))) := by
  simp [providerCalls]

theorem filter_other_call (b : Bool) (g : MetricGroup) (name : String) (e : Option String)
    (hname : (name == "cpu.Percent total") = false) :
    [(⟨g, name, e⟩ : ProviderCall)].filter (fun c => !(c.name == "cpu.Percent total" && b)) =
      [⟨g, name, e⟩] := by
  simp [List.filter_cons, hname]

theorem errorsOf_eq_reported (p : Providers F) :
    errorsOf p = (reportedCalls p).filterMap ProviderCall.message := by
  have e1 := callErrors_eq_message .load "load.Avg" p.loadAvg
  have e2 := callErrors_eq_message .cpu "cpu.Info" p.cpuInfo
  have e3 := callErrors_eq_message .cpu "cpu.Percent per-cpu" p.cpuPercentPerCPU
  have e5 := callErrors_eq_message .cpu "cpu.Times total" p.cpuTimesTotal
  have e6 := callErrors_eq_message .cpu "cpu.Times per-cpu" p.cpuTimesPerCPU
  have e7 := callErrors_eq_message .memory "mem.VirtualMemory" p.memVirtualMemory
  have e8 := callErrors_eq_message .memory "mem.SwapMemory" p.memSwapMemory
  have e10 := callErrors_eq_message .disk "disk.IOCounters" p.diskIOCounters
  have e11 := callErrors_eq_message .network "net.Interfaces" p.netInterfaces
  have e12 := callErrors_eq_message .network "net.IOCounters" p.netIOCounters
  have e13 := callErrors_eq_message .host "host.Info" p.hostInfo
  have e14 := callErrors_eq_message .host "host.Users" p.hostUsers
  have e15 := callErrors_eq_message .sensors "sensors.SensorsTemperatures"
    p.sensorsTemperatures
  have hu : (usageCalls p).filter (fun c =>
      !(c.name == "cpu.Percent total" && decide ((perCPUPercentOf p).length > 0))) =
      usageCalls p := by
    rw [List.filter_eq_self]
    intro c hc
    rw [usageCalls_name p c hc]
    rfl
  have ht : totalPercentErrors p =
      ([(⟨.cpu, "cpu.Percent total", errText p.cpuPercentTotal⟩ : ProviderCall)].filter
        (fun c =>
          !(c.name == "cpu.Percent total" &&
            decide ((perCPUPercentOf p).length > 0)))).filterMap ProviderCall.message := by
    unfold totalPercentErrors
    by_cases hlen : (perCPUPercentOf p).length > 0
    · simp [hlen]
    · rw [if_neg hlen, callErrors_eq_message .cpu]
      simp [hlen]
  unfold reportedCalls errorsOf
  rw [providerCalls_split]
  simp only [List.filter_append, hu]
  rw [filter_other_call _ .load "load.Avg" _ (by decide),
    filter_other_call _ .cpu "cpu.Info" _ (by decide),
    filter_other_call _ .cpu "cpu.Percent per-cpu" _ (by decide),
    filter_other_call _ .cpu "cpu.Times total" _ (by decide),
    filter_other_call _ .cpu "cpu.Times per-cpu" _ (by decide),
    filter_other_call _ .memory "mem.VirtualMemory" _ (by decide),
    filter_other_call _ .memory "mem.SwapMemory" _ (by decide),
    filter_other_call _ .disk "disk.Partitions" _ (by decide),
    filter_other_call _ .disk "disk.IOCounters" _ (by decide),
    filter_other_call _ .network "net.Interfaces" _ (by decide),
    filter_other_call _ .network "net.IOCounters" _ (by decide),
    filter_other_call _ .host "host.Info" _ (by decide),
    filter_other_call _ .host "host.Users" _ (by decide),
    filter_other_call _ .sensors "sensors.SensorsTemperatures" _ (by decide)]
  simp only [List.filterMap_append]
  rw [e1, e2, e3, e5, e6, e7, e8, e10, e11, e12, e13, e14, e15, ht,
    diskPartitionErrors_eq_message]
  simp only [List.filterMap_append]

theorem providerCalls_groups_ordered (p : Providers F) :
    ((providerCalls p).map fun c => c.group.rank).Pairwise (· ≤ ·) := by
  have hu : ∀ c ∈ usageCalls p, c.group.rank = 3 := by
    intro c hc
    unfold usageCalls at hc
    cases hp : p.diskPartitions with
    | error e => simp [hp] at hc
    | ok ps =>
      simp only [hp, List.mem_map] at hc
      obtain ⟨v, _, rfl⟩ := hc
      rfl
  have hpw : ((usageCalls p).map fun c => c.group.rank).Pairwise (· ≤ ·) := by
    apply List.pairwise_of_forall_mem_list
    intro a ha b hb
    simp only [List.mem_map] at ha hb
    obtain ⟨c, hc, rfl⟩ := ha
    obtain ⟨d, hd, rfl⟩ := hb
    rw [hu c hc, hu d hd]
  unfold providerCalls
  simp only [List.map_append, List.map_cons, List.map_nil]
  rw [List.pairwise_append, List.pairwise_append]
  refine ⟨⟨by decide, hpw, ?_⟩, by decide, ?_⟩
  · intro a ha b hb
    simp only [List.mem_map] at hb
    obtain ⟨c, hc, rfl⟩ := hb
    rw [hu c hc]
    revert a
    decide
  · intro a ha b hb
    simp only [List.mem_append, List.mem_map] at ha
    have ha3 : a ≤ 3 := by
      rcases ha with ha | ⟨c, hc, rfl⟩
      · revert a; decide
      · rw [hu c hc]
    have hb3 : 3 ≤ b := by revert b; decide
    omega

end errorOrder

section cycleClaims4
variable {F : Type} [Zero F] [Add F] [Div F] [NatCast F]

/-- C8: the error list is exactly the list of the messages
`<name>: <error text>` of the reported provider calls that failed in this
cycle, in the order the calls are made, the reported calls being all the calls
but the aggregate CPU-percent call when the per-CPU list held is not empty; so
every failed call other than that one has its message in the list, the list is
a subsequence, in invocation order, of the messages of the failed calls, every
entry has that form and reports a failed call; the calls are invoked group by
group in the order load, cpu, memory, disk, network, host, sensors; and when no
call failed the list is empty. -/
theorem errors_entries_in_call_order (p : Providers F) :
    (collectSystemInfo p).Errors = (reportedCalls p).filterMap ProviderCall.message ∧
    (∀ c ∈ providerCalls p, ∀ text, c.err = some text →
      (c.name = "cpu.Percent total" → perCPUPercentOf p = []) →
      c.name ++ ": " ++ text ∈ (collectSystemInfo p).Errors) ∧
    List.Sublist (collectSystemInfo p).Errors
      ((providerCalls p).filterMap ProviderCall.message) ∧
    (∀ entry ∈ (collectSystemInfo p).Errors,
      ∃ c ∈ providerCalls p, ∃ text, c.err = some text ∧ entry = c.name ++ ": " ++ text) ∧
    ((providerCalls p).map fun c => c.group.rank).Pairwise (· ≤ ·) ∧
    ((∀ c ∈ providerCalls p, c.err = none) → (collectSystemInfo p).Errors = []) := by
  have hexact : (collectSystemInfo p).Errors =
      (reportedCalls p).filterMap ProviderCall.message := by
    rw [collectSystemInfo_eq]
    exact errorsOf_eq_reported p
  have hsub : List.Sublist (collectSystemInfo p).Errors
      ((providerCalls p).filterMap ProviderCall.message) := by
    rw [collectSystemInfo_eq]
    exact errorsOf_sublist p
  refine ⟨hexact, ?_, hsub, ?_, providerCalls_groups_ordered p, ?_⟩
  · intro c hc text herr hcov
    rw [hexact, List.mem_filterMap]
    refine ⟨c, ?_, by simp [ProviderCall.message, herr]⟩
    unfold reportedCalls
    rw [List.mem_filter]
    refine ⟨hc, ?_⟩
    by_cases hname : c.name = "cpu.Percent total"
    · simp [hcov hname]
    · simp [hname]
  · intro entry he
    have hm := hsub.subset he
    rw [List.mem_filterMap] at hm
    obtain ⟨c, hc, hmsg⟩ := hm
    unfold ProviderCall.message at hmsg
    cases hce : c.err with
    | none => simp [hce] at hmsg
    | some text =>
      simp only [hce, Option.map_some', Option.some.injEq] at hmsg
      exact ⟨c, hc, text, hce, hmsg.symm⟩
  · intro hnone
    have hnil : (providerCalls p).filterMap ProviderCall.message = [] := by
      rw [List.filterMap_eq_nil_iff]
      intro c hc
      simp [ProviderCall.message, hnone c hc]
    rw [hnil] at hsub
    exact List.eq_nil_of_sublist_nil hsub

theorem errors_entries_in_call_order_witness :
    ((∀ c ∈ providerCalls allOk, c.err = none) ∧ (collectSystemInfo allOk).Errors = []) ∧
    ((collectSystemInfo allFailing).Errors =
        (reportedCalls allFailing).filterMap ProviderCall.message ∧
      (reportedCalls allFailing).filterMap ProviderCall.message =
        ["load.Avg: down", "cpu.Info: down", "cpu.Percent per-cpu: down",
         "cpu.Percent total: down", "cpu.Times total: down", "cpu.Times per-cpu: down",
         "mem.VirtualMemory: down", "mem.SwapMemory: down", "disk.Partitions: down",
         "disk.IOCounters: down", "net.Interfaces: down", "net.IOCounters: down",
         "host.Info: down", "host.Users: down", "sensors.SensorsTemperatures: down"]) ∧
    ((collectSystemInfo totalFailsPerCPUOk).Errors =
        (reportedCalls totalFailsPerCPUOk).filterMap ProviderCall.message ∧
      (reportedCalls totalFailsPerCPUOk).filterMap ProviderCall.message = []) :=
  ⟨⟨by decide, (errors_entries_in_call_order allOk).2.2.2.2.2 (by decide)⟩,
   ⟨(errors_entries_in_call_order allFailing).1, by decide⟩,
   ⟨(errors_entries_in_call_order totalFailsPerCPUOk).1, by decide⟩⟩

/-- C9, as amended: when the aggregate CPU-percent call is unavailable and the
per-CPU call succeeded with `xs`, `CPU.TotalPercent` is `avgFloat64 xs`, which
is the sum of `xs` divided by its length when `xs` is not empty and 0 when it
is; for a non-empty `xs` the block adds no entry to the error list, and the
list is the one of the cycle in which the aggregate call returned no value; for
an empty `xs` a failed aggregate call is reported as `cpu.Percent total: ...`. -/
theorem total_percent_fallback (p : Providers F) (xs : List F)
    (hper : p.cpuPercentPerCPU = .ok xs) (hun : totalPercentUnavailable p) :
    (collectSystemInfo p).CPU.TotalPercent = avgFloat64 xs ∧
    (xs ≠ [] → avgFloat64 xs = xs.foldl (fun sum v => sum + v) 0 / (xs.length : F)) ∧
    (xs = [] → avgFloat64 xs = 0) ∧
    (xs ≠ [] →
      (∀ st : Acc F, st.1.CPU.PerCPUPercent = xs → (collectCPUPercentTotal p st).2 = st.2) ∧
      (collectSystemInfo p).Errors =
        (collectSystemInfo { p with cpuPercentTotal := .ok [] }).Errors) ∧
    (xs = [] → ∀ e, p.cpuPercentTotal = .error e →
      "cpu.Percent total: " ++ e ∈ (collectSystemInfo p).Errors) := by
  refine ⟨?_, ?_, ?_, ?_, ?_⟩
  · rw [collectSystemInfo_eq]
    show totalPercentOf p = _
    unfold totalPercentOf totalPercentUnavailable at *
    cases hxs : xs with
    | nil =>
      subst hxs
      cases ht : p.cpuPercentTotal with
      | error e => simp [perCPUPercentOf, hper, avgFloat64]
      | ok ys =>
        cases ys with
        | nil => simp [perCPUPercentOf, hper, avgFloat64]
        | cons y rest => simp [ht] at hun
    | cons x rest =>
      subst hxs
      cases ht : p.cpuPercentTotal with
      | error e => simp [perCPUPercentOf, hper]
      | ok ys =>
        cases ys with
        | nil => simp [perCPUPercentOf, hper]
        | cons y rest => simp [ht] at hun
  · intro hne
    unfold avgFloat64
    have : xs.length ≠ 0 := by
      intro h0
      exact hne (List.length_eq_zero.mp h0)
    simp [this]
  · intro he
    simp [he, avgFloat64]
  · intro hne
    have hlen : xs.length > 0 := List.length_pos.mpr hne
    constructor
    · intro st hst
      rw [collectCPUPercentTotal_eq]
      simp [hst, hlen]
    · rw [collectSystemInfo_eq, collectSystemInfo_eq]
      simp only [errorsOf, totalPercentErrors, perCPUPercentOf, diskPartitionErrors, hper, hlen,
        if_true]
  · intro he e ht
    rw [collectSystemInfo_eq]
    simp [errorsOf, totalPercentErrors, perCPUPercentOf, hper, he, ht, callErrors]

theorem total_percent_fallback_witness :
    totalFailsPerCPUOk.cpuPercentPerCPU = .ok [10, 20, 30] ∧
    totalPercentUnavailable totalFailsPerCPUOk ∧
    (collectSystemInfo totalFailsPerCPUOk).CPU.TotalPercent = avgFloat64 [10, 20, 30] ∧
    avgFloat64 ([10, 20, 30] : List ℚ) = 20 ∧
    avgFloat64 ([1, 2, 3] : List ℚ) = 2 ∧
    avgFloat64 ([] : List ℚ) = 0 ∧
    (collectSystemInfo totalFailsPerCPUOk).Errors = [] :=
  ⟨rfl, by decide,
   (total_percent_fallback totalFailsPerCPUOk [10, 20, 30] rfl (by decide)).1,
   by norm_num [avgFloat64], by norm_num [avgFloat64], by simp [avgFloat64], by decide⟩

/-- C9, as stated, fails: the per-CPU call succeeded with an empty list and the
aggregate call failed, every other call succeeded, and the error list has the
entry `cpu.Percent total: down`. -/
theorem total_percent_fallback_counterexample :
    totalFailsPerCPUEmpty.cpuPercentPerCPU = .ok [] ∧
    totalPercentUnavailable totalFailsPerCPUEmpty ∧
    failedCalls totalFailsPerCPUEmpty = 1 ∧
    (collectSystemInfo totalFailsPerCPUEmpty).Errors = ["cpu.Percent total: down"] ∧
    ¬ ((collectSystemInfo totalFailsPerCPUEmpty).Errors = []) := by
  refine ⟨rfl, by decide, by decide, by decide, by decide⟩

end cycleClaims4

section cycleClaims5
variable {F : Type} [Zero F] [Add F] [Div F] [NatCast F]

/-- C10, as amended: two cycles whose provider outcomes differ only in the CPU
calls have equal Load, Memory, Disk, Network, Host and Sensors sections; more
generally each of the seven sections is determined by the calls of its own
group, so a failing call changes no other section; and a
failing call leaves the field it feeds at the zero value, except that a failing
aggregate `cpu.Percent` call leaves `CPU.TotalPercent` at the mean of the
per-CPU values when there are any. -/
theorem sections_depend_on_own_providers (p q : Providers F) :
    (SameOutsideCPU p q →
      (collectSystemInfo p).Load = (collectSystemInfo q).Load ∧
      (collectSystemInfo p).Memory = (collectSystemInfo q).Memory ∧
      (collectSystemInfo p).Disk = (collectSystemInfo q).Disk ∧
      (collectSystemInfo p).Network = (collectSystemInfo q).Network ∧
      (collectSystemInfo p).Host = (collectSystemInfo q).Host ∧
      (collectSystemInfo p).Sensors = (collectSystemInfo q).Sensors) ∧
    (p.cpuInfo = q.cpuInfo → p.cpuPercentPerCPU = q.cpuPercentPerCPU →
      p.cpuPercentTotal = q.cpuPercentTotal → p.cpuTimesTotal = q.cpuTimesTotal →
      p.cpuTimesPerCPU = q.cpuTimesPerCPU →
      (collectSystemInfo p).CPU = (collectSystemInfo q).CPU) ∧
    (p.loadAvg = q.loadAvg → (collectSystemInfo p).Load = (collectSystemInfo q).Load) ∧
    (p.memVirtualMemory = q.memVirtualMemory → p.memSwapMemory = q.memSwapMemory →
      (collectSystemInfo p).Memory = (collectSystemInfo q).Memory) ∧
    (p.diskPartitions = q.diskPartitions → p.diskUsage = q.diskUsage →
      p.diskIOCounters = q.diskIOCounters →
      (collectSystemInfo p).Disk = (collectSystemInfo q).Disk) ∧
    (p.netInterfaces = q.netInterfaces → p.netIOCounters = q.netIOCounters →
      (collectSystemInfo p).Network = (collectSystemInfo q).Network) ∧
    (p.hostInfo = q.hostInfo → p.hostUsers = q.hostUsers →
      (collectSystemInfo p).Host = (collectSystemInfo q).Host) ∧
    (p.sensorsTemperatures = q.sensorsTemperatures →
      (collectSystemInfo p).Sensors = (collectSystemInfo q).Sensors) ∧
    ((errText p.loadAvg).isSome = true → (collectSystemInfo p).Load = LoadStats.zero F) ∧
    ((errText p.cpuInfo).isSome = true → (collectSystemInfo p).CPU.Info = []) ∧
    ((errText p.cpuPercentPerCPU).isSome = true →
      (collectSystemInfo p).CPU.PerCPUPercent = []) ∧
    ((errText p.cpuPercentTotal).isSome = true →
      (collectSystemInfo p).CPU.TotalPercent =
        if (perCPUPercentOf p).length > 0 then avgFloat64 (perCPUPercentOf p) else 0) ∧
    ((errText p.cpuTimesTotal).isSome = true →
      (collectSystemInfo p).CPU.TotalTimes = CPUTimes.zero F) ∧
    ((errText p.cpuTimesPerCPU).isSome = true → (collectSystemInfo p).CPU.PerCPUTimes = []) ∧
    ((errText p.memVirtualMemory).isSome = true →
      (collectSystemInfo p).Memory.Virtual = VirtualMemory.zero F) ∧
    ((errText p.memSwapMemory).isSome = true →
      (collectSystemInfo p).Memory.Swap = SwapMemory.zero F) ∧
    ((errText p.diskPartitions).isSome = true →
      (collectSystemInfo p).Disk.Partitions = [] ∧ (collectSystemInfo p).Disk.Usage = []) ∧
    ((errText p.diskIOCounters).isSome = true → (collectSystemInfo p).Disk.Io = []) ∧
    ((errText p.netInterfaces).isSome = true →
      (collectSystemInfo p).Network.Interfaces = []) ∧
    ((errText p.netIOCounters).isSome = true →
      (collectSystemInfo p).Network.Totals = NetIO.zero) ∧
    ((errText p.hostInfo).isSome = true →
      (collectSystemInfo p).Host =
        { HostStats.zero with Users := (collectSystemInfo p).Host.Users }) ∧
    ((errText p.hostUsers).isSome = true → (collectSystemInfo p).Host.Users = []) ∧
    ((errText p.sensorsTemperatures).isSome = true →
      (collectSystemInfo p).Sensors.Temperatures = []) := by
  rw [collectSystemInfo_eq, collectSystemInfo_eq]
  refine ⟨?_, ?_, ?_, ?_, ?_, ?_, ?_, ?_, ?_, ?_, ?_, ?_, ?_, ?_, ?_, ?_, ?_, ?_, ?_, ?_, ?_,
    ?_, ?_⟩
  · rintro ⟨h1, h2, h3, h4, h5, h6, h7, h8, h9, h10, h11⟩
    refine ⟨?_, ?_, ?_, ?_, ?_, ?_⟩
    · simp only [loadOf, h1]
    · simp only [memoryOf, h2, h3]
    · simp only [diskOf, h4, h5, h6]
    · simp only [networkOf, h7, h8]
    · simp only [hostOf, hostUsersOf, h9, h10]
    · simp only [sensorsOf, h11]
  · intro h1 h2 h3 h4 h5
    simp only [cpuOf, totalPercentOf, perCPUPercentOf, h1, h2, h3, h4, h5]
  · intro h1
    simp only [loadOf, h1]
  · intro h2 h3
    simp only [memoryOf, h2, h3]
  · intro h4 h5 h6
    simp only [diskOf, h4, h5, h6]
  · intro h7 h8
    simp only [networkOf, h7, h8]
  · intro h9 h10
    simp only [hostOf, hostUsersOf, h9, h10]
  · intro h11
    simp only [sensorsOf, h11]
  · intro h; obtain ⟨e, he⟩ := errText_isSome h; simp [loadOf, he]
  · intro h; obtain ⟨e, he⟩ := errText_isSome h; simp [cpuOf, he]
  · intro h; obtain ⟨e, he⟩ := errText_isSome h; simp [cpuOf, perCPUPercentOf, he]
  · intro h; obtain ⟨e, he⟩ := errText_isSome h; simp [cpuOf, totalPercentOf, he]
  · intro h; obtain ⟨e, he⟩ := errText_isSome h; simp [cpuOf, he]
  · intro h; obtain ⟨e, he⟩ := errText_isSome h; simp [cpuOf, he]
  · intro h; obtain ⟨e, he⟩ := errText_isSome h; simp [memoryOf, he]
  · intro h; obtain ⟨e, he⟩ := errText_isSome h; simp [memoryOf, he]
  · intro h; obtain ⟨e, he⟩ := errText_isSome h; simp [diskOf, he]
  · intro h; obtain ⟨e, he⟩ := errText_isSome h; simp [diskOf, he]
  · intro h; obtain ⟨e, he⟩ := errText_isSome h; simp [networkOf, he]
  · intro h; obtain ⟨e, he⟩ := errText_isSome h; simp [networkOf, he]
  · intro h; obtain ⟨e, he⟩ := errText_isSome h; simp [hostOf, he]
  · intro h
    obtain ⟨e, he⟩ := errText_isSome h
    show (hostOf p).Users = []
    unfold hostOf hostUsersOf
    cases p.hostInfo <;> simp [he]
  · intro h; obtain ⟨e, he⟩ := errText_isSome h; simp [sensorsOf, he]

theorem sections_depend_on_own_providers_witness :
    SameOutsideCPU totalFailsPerCPUOk allOk ∧
    (collectSystemInfo totalFailsPerCPUOk).Host = (collectSystemInfo allOk).Host ∧
    (collectSystemInfo allFailing).Memory.Swap = SwapMemory.zero ℚ :=
  ⟨⟨rfl, rfl, rfl, rfl, rfl, rfl, rfl, rfl, rfl, rfl, rfl⟩,
   ((sections_depend_on_own_providers totalFailsPerCPUOk allOk).1
      ⟨rfl, rfl, rfl, rfl, rfl, rfl, rfl, rfl, rfl, rfl, rfl⟩).2.2.2.2.1,
   (sections_depend_on_own_providers allFailing allOk).2.2.2.2.2.2.2.2.2.2.2.2.2.2.2.1 (by decide)⟩

/-- C10, as stated, fails: the aggregate `cpu.Percent` call fails while the
per-CPU call returned `[10, 20, 30]`, and `CPU.TotalPercent`, the field that
call feeds, is 20 and not the zero value. -/
theorem failing_total_percent_not_zero :
    (errText totalFailsPerCPUOk.cpuPercentTotal).isSome = true ∧
    (collectSystemInfo totalFailsPerCPUOk).CPU.TotalPercent = 20 ∧
    ¬ ((collectSystemInfo totalFailsPerCPUOk).CPU.TotalPercent = 0) := by
  have h : (collectSystemInfo totalFailsPerCPUOk).CPU.TotalPercent = 20 := by
    rw [collectSystemInfo_eq]
    norm_num [cpuOf, totalPercentOf, perCPUPercentOf, totalFailsPerCPUOk, allOk, avgFloat64]
  refine ⟨by decide, h, ?_⟩
  rw [h]
  norm_num

end cycleClaims5

/-! ## The scheduler -/

section rootLemmas
variable {F : Type}

theorem runBlocks_none (p : Providers F) (bs : List (Providers F → Acc F → Acc F))
    (i : Nat) (st : Acc F) (calls : List Nat) :
    runBlocks p none bs i st calls =
      (calls ++ List.range' i bs.length, some (bs.foldl (fun st b => b p st) st)) := by
  induction bs generalizing i st calls with
  | nil => simp [runBlocks]
  | cons b rest ih =>
    simp [runBlocks, ih, List.range'_succ]

theorem runBlocks_panic (p : Providers F) (k : Nat)
    (bs : List (Providers F → Acc F → Acc F)) (i : Nat) (st : Acc F) (calls : List Nat)
    (hik : i ≤ k) (hk : k < i + bs.length) :
    runBlocks p (some k) bs i st calls = (calls ++ List.range' i (k - i + 1), none) := by
  induction bs generalizing i st calls with
  | nil => simp at hk; omega
  | cons b rest ih =>
    by_cases h : k = i
    · subst h
      simp [runBlocks]
    · have h1 : i + 1 ≤ k := by omega
      have h2 : k < i + 1 + rest.length := by
        simp only [List.length_cons] at hk
        omega
      have h3 : k - i + 1 = (k - (i + 1) + 1) + 1 := by omega
      rw [runBlocks, if_neg (by simp; omega), ih (i + 1) _ _ h1 h2, h3]
      simp [List.range'_succ]

theorem setStep_eq (decode : Decoder F) (store : Option (Store F)) (payload : List Byte) :
    setStep decode store payload =
      { store := store.map fun st =>
          match decode payload with
          | none => st
          | some info => { payload := payload, info := some info, hasData := true }
        actions := match store with
          | none => []
          | some _ => [.set payload]
        panicked := false } := by
  unfold setStep
  cases store with
  | none => rfl
  | some st => simp only [Set_some, Option.map_some']

theorem Get_setStep (decode : Decoder F) (st : Store F) (payload : List Byte)
    (hd : (decode payload).isSome = true) :
    Store.Get (setStep decode (some st) payload).store = .returned (some payload, true) := by
  rw [setStep_eq]
  cases h : decode payload with
  | none => simp [h] at hd
  | some v => simp [Store.Get]

end rootLemmas

section rootLemmas2
variable {F : Type} [Zero F] [Add F] [Div F] [NatCast F]

theorem collectBlocks_length : (collectBlocks : List (Providers F → Acc F → Acc F)).length = 15 :=
  rfl

theorem runCollect_none (p : Providers F) :
    runCollect p none = (List.range 15, some (collectSystemInfo p)) := by
  unfold runCollect
  rw [runBlocks_none]
  simp only [collectBlocks_length, List.nil_append, List.range_eq_range']
  rfl

theorem runCollect_panic (p : Providers F) (k : Nat) (hk : k < 15) :
    runCollect p (some k) = (List.range (k + 1), none) := by
  unfold runCollect
  rw [runBlocks_panic p k collectBlocks 0 _ _ (Nat.zero_le k) (by rw [collectBlocks_length]; omega)]
  simp [List.range_eq_range']

theorem runCollect_out_of_range (p : Providers F) (k : Nat) (hk : 15 ≤ k) :
    runCollect p (some k) = (List.range 15, some (collectSystemInfo p)) := by
  have h : ∀ (bs : List (Providers F → Acc F → Acc F)) (i : Nat) (st : Acc F)
      (calls : List Nat), i + bs.length ≤ k →
      runBlocks p (some k) bs i st calls = runBlocks p none bs i st calls := by
    intro bs
    induction bs with
    | nil => intro i st calls _; simp [runBlocks]
    | cons b rest ih =>
      intro i st calls hle
      simp only [List.length_cons] at hle
      have hne : ¬ (k = i) := by omega
      simp only [runBlocks, Option.some.injEq, hne, if_false]
      rw [ih (i + 1) _ _ (by omega)]
      simp
  rw [← runCollect_none]
  unfold runCollect
  rw [h collectBlocks 0 _ _ (by rw [collectBlocks_length]; omega)]

end rootLemmas2

section rootClaims
variable {F : Type} [Zero F] [Add F] [Div F] [NatCast F]

theorem collectAndPublish_panic (marshal : SystemInfo F → Except String (List Byte))
    (decode : Decoder F) (env : CycleEnv F) (store : Option (Store F)) (publisher : Publisher)
    (k : Nat) (hk : env.panicBlock = some k) (hlt : k < 15) :
    collectAndPublish marshal decode env store publisher =
      { store := store, actions := (List.range (k + 1)).map .providerCall, panicked := true } := by
  unfold collectAndPublish
  rw [hk, runCollect_panic _ k hlt]

/-- C11, as amended: a provider call that panics is not recovered.
`collectSystemInfo` returns no snapshot and makes no provider call after the one
that panicked; `collectAndPublish` ends in the panic with the store untouched
and neither `Set` nor `Publish` called; and `Run` ends in the panic, in the
first cycle as in a cycle of the loop. -/
theorem provider_panic_aborts_run (marshal : SystemInfo F → Except String (List Byte))
    (decode : Decoder F) (env : CycleEnv F) (store : Option (Store F)) (publisher : Publisher)
    (k : Nat) (hk : env.panicBlock = some k) (hlt : k < 15) :
    runCollect env.providers env.panicBlock = (List.range (k + 1), none) ∧
    collectAndPublish marshal decode env store publisher =
      { store := store, actions := (List.range (k + 1)).map .providerCall, panicked := true } ∧
    (∀ frequency wakes,
      Run marshal decode frequency store publisher env wakes =
        { store := store, actions := (List.range (k + 1)).map .providerCall,
          status := .panicked "provider" }) ∧
    (∀ acts (w : Wake F) rest, w.cycle = env → w.ctxDone = false → w.tickReady = true →
      runLoop marshal decode publisher store acts (w :: rest) =
        { store := store,
          actions := acts ++ [.wait] ++ (List.range (k + 1)).map .providerCall,
          status := .panicked "provider" }) := by
  have hc := collectAndPublish_panic marshal decode env store publisher k hk hlt
  refine ⟨by rw [hk, runCollect_panic _ k hlt], hc, ?_, ?_⟩
  · intro frequency wakes
    simp [Run, hc]
  · intro acts w rest hw hd ht
    simp [runLoop, hw, hd, ht, hc]

theorem provider_panic_aborts_run_witness :
    cpuInfoPanics.panicBlock = some 1 ∧
    runCollect cpuInfoPanics.providers cpuInfoPanics.panicBlock = ([0, 1], none) :=
  ⟨rfl, (provider_panic_aborts_run sampleMarshal sampleDecode cpuInfoPanics (NewStore ℚ)
    (.mqttPublisher (some samplePublisher)) 1 rfl (by decide)).1⟩

/-- C11, as stated, fails: when `cpu.Info()` panics, `collectSystemInfo`
returns no snapshot, only the first two of the fifteen provider calls are made,
and `Run` ends in the panic without a `Set`. -/
theorem provider_panic_counterexample :
    (runCollect cpuInfoPanics.providers cpuInfoPanics.panicBlock).2.isNone = true ∧
    (runCollect cpuInfoPanics.providers cpuInfoPanics.panicBlock).1 = [0, 1] ∧
    (Run sampleMarshal sampleDecode 60 (NewStore ℚ) (.mqttPublisher (some samplePublisher))
      cpuInfoPanics []).status = .panicked "provider" ∧
    (Run sampleMarshal sampleDecode 60 (NewStore ℚ) (.mqttPublisher (some samplePublisher))
      cpuInfoPanics []).actions = [.providerCall 0, .providerCall 1] := by
  refine ⟨by decide, by decide, by decide, by decide⟩

end rootClaims

section rootLemmas3
variable {F : Type} [Zero F] [Add F] [Div F] [NatCast F]

theorem collectAndPublish_calm (marshal : SystemInfo F → Except String (List Byte))
    (decode : Decoder F) (env : CycleEnv F) (store : Option (Store F)) (publisher : Publisher)
    (hp : env.panicBlock = none) :
    collectAndPublish marshal decode env store publisher =
      match marshal (collectSystemInfo env.providers) with
      | .error err =>
        { store := store
          actions := (List.range 15).map .providerCall ++ [.logError "marshal system info" err]
          panicked := false }
      | .ok payload =>
        { store := (setStep decode store payload).store
          actions := (List.range 15).map .providerCall ++ (setStep decode store payload).actions ++
            publishStep publisher env.client payload ++
            summaryStep (collectSystemInfo env.providers)
          panicked := false } := by
  unfold collectAndPublish
  rw [hp, runCollect_none]
  cases h : marshal (collectSystemInfo env.providers) with
  | error e => simp [h]
  | ok payload => simp [h, setStep_eq]

theorem publishStep_no_loop_action (publisher : Publisher) (client : mqtt.ClientState)
    (payload : List Byte) :
    ∀ a ∈ publishStep publisher client payload, a ≠ .wait ∧ a ≠ .newTicker := by
  intro a ha
  unfold publishStep at ha
  cases publisher with
  | nilInterface => simp at ha
  | mqttPublisher p =>
    simp only at ha
    split at ha <;> simp at ha <;> rcases ha with rfl | rfl <;> simp

theorem collectAndPublish_no_loop_action (marshal : SystemInfo F → Except String (List Byte))
    (decode : Decoder F) (env : CycleEnv F) (store : Option (Store F)) (publisher : Publisher) :
    ∀ a ∈ (collectAndPublish marshal decode env store publisher).actions,
      a ≠ .wait ∧ a ≠ .newTicker := by
  intro a ha
  unfold collectAndPublish at ha
  split at ha
  · simp only [List.mem_map] at ha
    obtain ⟨i, _, rfl⟩ := ha
    simp
  · split at ha
    · simp only [List.mem_append, List.mem_map, List.mem_singleton] at ha
      rcases ha with ⟨i, _, rfl⟩ | rfl <;> simp
    · rw [setStep_eq] at ha
      simp only [Bool.false_eq_true, if_false, List.mem_append, List.mem_map] at ha
      rcases ha with ((⟨i, _, rfl⟩ | hs) | hpub) | hsum
      · simp
      · cases store <;> simp at hs
        subst hs
        simp
      · exact publishStep_no_loop_action _ _ _ a hpub
      · unfold summaryStep at hsum
        split at hsum <;> simp at hsum <;> subst hsum <;> simp

theorem runLoop_actions_prefix (marshal : SystemInfo F → Except String (List Byte))
    (decode : Decoder F) (publisher : Publisher) (store : Option (Store F))
    (acts : List Action) (wakes : List (Wake F)) :
    ∃ tail, (runLoop marshal decode publisher store acts wakes).actions =
      acts ++ [.wait] ++ tail := by
  induction wakes generalizing store acts with
  | nil => exact ⟨[], by simp [runLoop]⟩
  | cons w rest ih =>
    have hdone : ∃ tail, (acts ++ [Action.wait, Action.logInfo "shutting down"]) =
        acts ++ [.wait] ++ tail := ⟨[.logInfo "shutting down"], by simp⟩
    have htick : ∃ tail,
        (if (collectAndPublish marshal decode w.cycle store publisher).panicked = true then
          ({ store := (collectAndPublish marshal decode w.cycle store publisher).store,
             actions := acts ++ [.wait] ++
               (collectAndPublish marshal decode w.cycle store publisher).actions,
             status := .panicked "provider" } : RunResult F)
         else runLoop marshal decode publisher
           (collectAndPublish marshal decode w.cycle store publisher).store
           (acts ++ [.wait] ++ (collectAndPublish marshal decode w.cycle store publisher).actions)
           rest).actions = acts ++ [.wait] ++ tail := by
      split
      · exact ⟨_, rfl⟩
      · obtain ⟨tail, ht⟩ := ih (collectAndPublish marshal decode w.cycle store publisher).store
          (acts ++ [.wait] ++ (collectAndPublish marshal decode w.cycle store publisher).actions)
        exact ⟨(collectAndPublish marshal decode w.cycle store publisher).actions ++ [.wait] ++
          tail, by rw [ht]; simp⟩
    unfold runLoop
    cases hd : w.ctxDone <;> cases ht : w.tickReady
    · exact ⟨[], by simp⟩
    · simpa using htick
    · simp
    · cases hpk : w.pickTick
      · simp
      · simpa using htick

end rootLemmas3

section rootClaims2
variable {F : Type} [Zero F] [Add F] [Div F] [NatCast F]

/-- C12, as amended: given a non-positive interval, `Run` first performs one
collection cycle, with its `Set` and `Publish` when serialization succeeded,
and then panics in `time.NewTicker`: it creates no ticker, never waits in the
loop and never returns normally. -/
theorem run_nonpositive_interval (marshal : SystemInfo F → Except String (List Byte))
    (decode : Decoder F) (frequency : Int) (hf : frequency ≤ 0) (store : Option (Store F))
    (publisher : Publisher) (first : CycleEnv F) (wakes : List (Wake F)) :
    (Run marshal decode frequency store publisher first wakes).actions =
      (collectAndPublish marshal decode first store publisher).actions ∧
    (Run marshal decode frequency store publisher first wakes).store =
      (collectAndPublish marshal decode first store publisher).store ∧
    (∃ reason, (Run marshal decode frequency store publisher first wakes).status =
      .panicked reason) ∧
    Action.newTicker ∉ (Run marshal decode frequency store publisher first wakes).actions ∧
    Action.wait ∉ (Run marshal decode frequency store publisher first wakes).actions ∧
    (first.panicBlock = none → ∀ payload st p,
      marshal (collectSystemInfo first.providers) = .ok payload → store = some st →
      publisher = .mqttPublisher p →
      (Run marshal decode frequency store publisher first wakes).status =
        .panicked "non-positive interval for NewTicker" ∧
      Action.set payload ∈ (Run marshal decode frequency store publisher first wakes).actions ∧
      Action.publish payload ∈
        (Run marshal decode frequency store publisher first wakes).actions) := by
  have hrun : Run marshal decode frequency store publisher first wakes =
      { store := (collectAndPublish marshal decode first store publisher).store,
        actions := (collectAndPublish marshal decode first store publisher).actions,
        status := if (collectAndPublish marshal decode first store publisher).panicked = true
          then .panicked "provider" else .panicked "non-positive interval for NewTicker" } := by
    unfold Run
    simp only [hf, if_true]
    split <;> rfl
  have hno := collectAndPublish_no_loop_action marshal decode first store publisher
  rw [hrun]
  refine ⟨rfl, rfl, ?_, ?_, ?_, ?_⟩
  · simp only
    split <;> exact ⟨_, rfl⟩
  · intro h
    exact (hno _ h).2 rfl
  · intro h
    exact (hno _ h).1 rfl
  · intro hp payload st p hm hs hpub
    subst hs hpub
    rw [collectAndPublish_calm marshal decode first _ _ hp, hm]
    refine ⟨by simp, ?_, ?_⟩
    · simp [setStep_eq]
    · simp only [List.mem_append]
      refine Or.inl (Or.inr ?_)
      unfold publishStep
      simp only
      split <;> simp

theorem run_nonpositive_interval_witness :
    ((0 : Int) ≤ 0) ∧
    (Run sampleMarshal sampleDecode 0 (NewStore ℚ) (.mqttPublisher (some samplePublisher))
      calmCycle []).actions =
      (collectAndPublish sampleMarshal sampleDecode calmCycle (NewStore ℚ)
        (.mqttPublisher (some samplePublisher))).actions :=
  ⟨by decide,
   (run_nonpositive_interval sampleMarshal sampleDecode 0 (by decide) (NewStore ℚ)
     (.mqttPublisher (some samplePublisher)) calmCycle []).1⟩

/-- C12, as stated, fails: with the interval 0, `Run` performs a whole cycle,
calling `Set` and `Publish` with the payload, before it panics in
`time.NewTicker`. -/
theorem run_nonpositive_interval_counterexample :
    (Run sampleMarshal sampleDecode 0 (NewStore ℚ) (.mqttPublisher (some samplePublisher))
      calmCycle []).actions =
      (List.range 15).map .providerCall ++
        [.set samplePayload, .publish samplePayload, .logInfo "system info collected"] ∧
    (Run sampleMarshal sampleDecode 0 (NewStore ℚ) (.mqttPublisher (some samplePublisher))
      calmCycle []).status = .panicked "non-positive interval for NewTicker" := by
  refine ⟨by decide, by decide⟩

end rootClaims2

section rootClaims3
variable {F : Type} [Zero F] [Add F] [Div F] [NatCast F]

theorem Run_positive (marshal : SystemInfo F → Except String (List Byte))
    (decode : Decoder F) (frequency : Int) (hf : 0 < frequency) (store : Option (Store F))
    (publisher : Publisher) (first : CycleEnv F) (wakes : List (Wake F))
    (hp : first.panicBlock = none) :
    Run marshal decode frequency store publisher first wakes =
      runLoop marshal decode publisher
        (collectAndPublish marshal decode first store publisher).store
        ((collectAndPublish marshal decode first store publisher).actions ++ [.newTicker])
        wakes := by
  have hnp : (collectAndPublish marshal decode first store publisher).panicked = false := by
    rw [collectAndPublish_calm marshal decode first _ _ hp]
    split <;> rfl
  have hnf : ¬ frequency ≤ 0 := by omega
  unfold Run
  simp [hnp, hnf]

/-- C13, as amended: for every positive interval, and when no provider call
panics, `Run` performs exactly one collection cycle before it creates the ticker
and first waits on it: the fifteen provider calls, the serialization and, when
that succeeded, `Set` and the publish step; the store at that first wait is the
one that cycle left, so it holds the cycle's payload whenever serialization
succeeded and the store accepted the payload. -/
theorem run_first_cycle_before_wait (marshal : SystemInfo F → Except String (List Byte))
    (decode : Decoder F) (frequency : Int) (hf : 0 < frequency) (store : Option (Store F))
    (publisher : Publisher) (first : CycleEnv F) (wakes : List (Wake F))
    (hp : first.panicBlock = none) :
    (∃ tail, (Run marshal decode frequency store publisher first wakes).actions =
      (collectAndPublish marshal decode first store publisher).actions ++
        [.newTicker, .wait] ++ tail) ∧
    Action.wait ∉ (collectAndPublish marshal decode first store publisher).actions ∧
    (collectAndPublish marshal decode first store publisher).actions =
      (List.range 15).map .providerCall ++
        (match marshal (collectSystemInfo first.providers) with
         | .error err => [.logError "marshal system info" err]
         | .ok payload =>
           (setStep decode store payload).actions ++
             publishStep publisher first.client payload ++
             summaryStep (collectSystemInfo first.providers)) ∧
    (Run marshal decode frequency store publisher first []).store =
      (collectAndPublish marshal decode first store publisher).store ∧
    (Run marshal decode frequency store publisher first []).status = .blocked ∧
    (∀ payload st, marshal (collectSystemInfo first.providers) = .ok payload →
      store = some st → (decode payload).isSome = true →
      Store.Get (Run marshal decode frequency store publisher first []).store =
        .returned (some payload, true)) := by
  have hrun := Run_positive marshal decode frequency hf store publisher first
  have hcalm := collectAndPublish_calm marshal decode first store publisher hp
  refine ⟨?_, ?_, ?_, ?_, ?_, ?_⟩
  · rw [hrun wakes hp]
    obtain ⟨tail, ht⟩ := runLoop_actions_prefix marshal decode publisher
      (collectAndPublish marshal decode first store publisher).store
      ((collectAndPublish marshal decode first store publisher).actions ++ [.newTicker]) wakes
    exact ⟨tail, by rw [ht]; simp⟩
  · intro h
    exact (collectAndPublish_no_loop_action marshal decode first store publisher _ h).1 rfl
  · rw [hcalm]
    cases marshal (collectSystemInfo first.providers) <;> simp
  · rw [hrun [] hp]
    rfl
  · rw [hrun [] hp]
    rfl
  · intro payload st hm hs hd
    subst hs
    rw [hrun [] hp]
    show Store.Get (collectAndPublish marshal decode first (some st) publisher).store = _
    rw [hcalm, hm]
    exact Get_setStep decode st payload hd

theorem run_first_cycle_before_wait_witness :
    ((0 : Int) < 60) ∧ calmCycle.panicBlock = none ∧
    Store.Get (Run sampleMarshal sampleDecode 60 (NewStore ℚ)
      (.mqttPublisher (some samplePublisher)) calmCycle []).store =
        .returned (some samplePayload, true) :=
  ⟨by decide, rfl,
   (run_first_cycle_before_wait sampleMarshal sampleDecode 60 (by decide) (NewStore ℚ)
     (.mqttPublisher (some samplePublisher)) calmCycle [] rfl).2.2.2.2.2 samplePayload _ rfl rfl
     (by simp [sampleDecode])⟩

/-- C13, as stated, fails: with the positive interval 60 and a snapshot that
`json.Marshal` rejects, `Run` reaches its first wait on the ticker with neither
`Set` nor `Publish` called and with a store that holds no snapshot. -/
theorem run_first_cycle_counterexample :
    (Run failingMarshal sampleDecode 60 (NewStore ℚ) (.mqttPublisher (some samplePublisher))
      calmCycle []).status = .blocked ∧
    (Run failingMarshal sampleDecode 60 (NewStore ℚ) (.mqttPublisher (some samplePublisher))
      calmCycle []).actions =
      (List.range 15).map .providerCall ++
        [.logError "marshal system info" "json: unsupported value: NaN", .newTicker, .wait] ∧
    Store.Get (Run failingMarshal sampleDecode 60 (NewStore ℚ)
      (.mqttPublisher (some samplePublisher)) calmCycle []).store = .returned (none, false) := by
  refine ⟨by decide, by decide, rfl⟩

end rootClaims3

section rootClaims4
variable {F : Type} [Zero F] [Add F] [Div F] [NatCast F]

/-- C14: the publish step is skipped for the nil interface value, but `main`
with MQTT disabled hands `Run` an interface holding a nil `*mqtt.Publisher`,
which is not the nil interface: every cycle then calls `Publish` on the nil
receiver, gets `publisher not initialized` and logs `mqtt publish failed`. -/
theorem disabled_mqtt_publish_is_invoked (newPublisher : Except String mqtt.Publisher)
    (client : mqtt.ClientState) (payload : List Byte) :
    publishStep .nilInterface client payload = [] ∧
    mainPublisher false newPublisher = some (.mqttPublisher none) ∧
    publishStep (.mqttPublisher none) client payload =
      [.publish payload, .logError "mqtt publish failed" "publisher not initialized"] ∧
    (Run sampleMarshal sampleDecode 60 (NewStore ℚ) (.mqttPublisher none) calmCycle []).actions =
      (List.range 15).map .providerCall ++
        [.set samplePayload, .publish samplePayload,
         .logError "mqtt publish failed" "publisher not initialized",
         .logInfo "system info collected", .newTicker, .wait] := by
  refine ⟨rfl, rfl, rfl, by decide⟩

/-- C15: in a cycle whose serialization succeeds, on a store that is there,
`Set` is called with the payload and then the publish step runs, calling
`Publish` with the same payload when a publisher is there; whatever `Publish`
returns, the call does not panic and `Get` on the store returns this cycle's
payload; and the loop keeps running: a loop that took the tick goes on with the
wake-ups that follow, it performs the cycle and reaches its next wait whatever
follows, it is blocked in that wait, not returned and not panicked, when
nothing follows, and a `Run` whose first cycle this is creates the ticker and
is blocked in its first wait. -/
theorem set_precedes_publish (marshal : SystemInfo F → Except String (List Byte))
    (decode : Decoder F) (env : CycleEnv F) (st : Store F) (publisher : Publisher)
    (payload : List Byte) (hp : env.panicBlock = none)
    (hm : marshal (collectSystemInfo env.providers) = .ok payload)
    (hd : (decode payload).isSome = true) :
    (collectAndPublish marshal decode env (some st) publisher).actions =
      (List.range 15).map .providerCall ++ [.set payload] ++
        publishStep publisher env.client payload ++
        summaryStep (collectSystemInfo env.providers) ∧
    (∀ p, publisher = .mqttPublisher p →
      publishStep publisher env.client payload =
        .publish payload ::
          (match (mqtt.Publisher.Publish p env.client payload).err with
           | some err => [.logError "mqtt publish failed" err]
           | none => [])) ∧
    (collectAndPublish marshal decode env (some st) publisher).panicked = false ∧
    Store.Get (collectAndPublish marshal decode env (some st) publisher).store =
      .returned (some payload, true) ∧
    (∀ acts (w : Wake F) rest, w.cycle = env → w.ctxDone = false → w.tickReady = true →
      runLoop marshal decode publisher (some st) acts (w :: rest) =
        runLoop marshal decode publisher
          (collectAndPublish marshal decode env (some st) publisher).store
          (acts ++ [.wait] ++ (collectAndPublish marshal decode env (some st) publisher).actions)
          rest) ∧
    (∀ acts (w : Wake F) rest, w.cycle = env → w.ctxDone = false → w.tickReady = true →
      ∃ tail, (runLoop marshal decode publisher (some st) acts (w :: rest)).actions =
        acts ++ [.wait] ++
          ((List.range 15).map .providerCall ++ [.set payload] ++
            publishStep publisher env.client payload ++
            summaryStep (collectSystemInfo env.providers)) ++ [.wait] ++ tail) ∧
    (∀ acts (w : Wake F), w.cycle = env → w.ctxDone = false → w.tickReady = true →
      runLoop marshal decode publisher (some st) acts [w] =
        { store := (collectAndPublish marshal decode env (some st) publisher).store
          actions := acts ++ [.wait] ++
            ((List.range 15).map .providerCall ++ [.set payload] ++
              publishStep publisher env.client payload ++
              summaryStep (collectSystemInfo env.providers)) ++ [.wait]
          status := .blocked }) ∧
    (∀ frequency : Int, 0 < frequency →
      Run marshal decode frequency (some st) publisher env [] =
        { store := (collectAndPublish marshal decode env (some st) publisher).store
          actions := (List.range 15).map .providerCall ++ [.set payload] ++
            publishStep publisher env.client payload ++
            summaryStep (collectSystemInfo env.providers) ++ [.newTicker, .wait]
          status := .blocked }) := by
  have hcalm := collectAndPublish_calm marshal decode env (some st) publisher hp
  rw [hm] at hcalm
  simp only at hcalm
  have hacts : (collectAndPublish marshal decode env (some st) publisher).actions =
      (List.range 15).map .providerCall ++ [.set payload] ++
        publishStep publisher env.client payload ++
        summaryStep (collectSystemInfo env.providers) := by
    rw [hcalm, setStep_eq]
  have hnp : (collectAndPublish marshal decode env (some st) publisher).panicked = false := by
    rw [hcalm]
  have hstep : ∀ acts (w : Wake F) rest, w.cycle = env → w.ctxDone = false →
      w.tickReady = true →
      runLoop marshal decode publisher (some st) acts (w :: rest) =
        runLoop marshal decode publisher
          (collectAndPublish marshal decode env (some st) publisher).store
          (acts ++ [.wait] ++ (collectAndPublish marshal decode env (some st) publisher).actions)
          rest := by
    intro acts w rest hw hdone htick
    subst hw
    simp [runLoop, hdone, htick, hnp]
  refine ⟨hacts, ?_, hnp, ?_, hstep, ?_, ?_, ?_⟩
  · intro p hpub
    subst hpub
    unfold publishStep
    simp only
    cases (mqtt.Publisher.Publish p env.client payload).err <;> rfl
  · rw [hcalm]
    exact Get_setStep decode st payload hd
  · intro acts w rest hw hdone htick
    rw [hstep acts w rest hw hdone htick, hacts]
    exact runLoop_actions_prefix marshal decode publisher _ _ rest
  · intro acts w hw hdone htick
    rw [hstep acts w [] hw hdone htick, hacts]
    rfl
  · intro frequency hf
    rw [Run_positive marshal decode frequency hf (some st) publisher env [] hp, hacts]
    simp [runLoop]

theorem set_precedes_publish_witness :
    calmCycle.panicBlock = none ∧
    sampleMarshal (collectSystemInfo calmCycle.providers) = .ok samplePayload ∧
    (collectAndPublish sampleMarshal sampleDecode
        { calmCycle with client := { connected := false, wait := .ctxDone } }
        (storeOf sampleDecode none) (.mqttPublisher (some samplePublisher))).actions =
      (List.range 15).map .providerCall ++ [.set samplePayload] ++
        [.publish samplePayload, .logError "mqtt publish failed" "mqtt client not connected"] ++
        [.logInfo "system info collected"] ∧
    Store.Get (collectAndPublish sampleMarshal sampleDecode
        { calmCycle with client := { connected := false, wait := .ctxDone } }
        (storeOf sampleDecode none) (.mqttPublisher (some samplePublisher))).store =
      .returned (some samplePayload, true) ∧
    (Run sampleMarshal sampleDecode 60 (storeOf sampleDecode none)
        (.mqttPublisher (some samplePublisher))
        { calmCycle with client := { connected := false, wait := .ctxDone } } []).status =
      .blocked ∧
    (Run sampleMarshal sampleDecode 60 (storeOf sampleDecode none)
        (.mqttPublisher (some samplePublisher))
        { calmCycle with client := { connected := false, wait := .ctxDone } } []).actions =
      (List.range 15).map .providerCall ++
        [.set samplePayload, .publish samplePayload,
         .logError "mqtt publish failed" "mqtt client not connected",
         .logInfo "system info collected", .newTicker, .wait] :=
  ⟨rfl, rfl, by decide,
   (set_precedes_publish sampleMarshal sampleDecode
      { calmCycle with client := { connected := false, wait := .ctxDone } }
      (storeOf sampleDecode none) (.mqttPublisher (some samplePublisher)) samplePayload rfl rfl
      (by simp [sampleDecode])).2.2.2.1,
   congrArg RunResult.status
     ((set_precedes_publish sampleMarshal sampleDecode
        { calmCycle with client := { connected := false, wait := .ctxDone } }
        (storeOf sampleDecode none) (.mqttPublisher (some samplePublisher)) samplePayload rfl
        rfl (by simp [sampleDecode])).2.2.2.2.2.2.2 60 (by decide)),
   by decide⟩

/-- C16: when serializing the collected snapshot fails, `collectAndPublish`
logs the error and returns: it calls neither `Set` nor `Publish`, the store is
what it was before the cycle, and `Run` goes on, to the ticker after the first
cycle and to the next wait after a tick. -/
theorem marshal_failure_drops_cycle (marshal : SystemInfo F → Except String (List Byte))
    (decode : Decoder F) (env : CycleEnv F) (store : Option (Store F)) (publisher : Publisher)
    (err : String) (hp : env.panicBlock = none)
    (hm : marshal (collectSystemInfo env.providers) = .error err) :
    collectAndPublish marshal decode env store publisher =
      { store := store
        actions := (List.range 15).map .providerCall ++ [.logError "marshal system info" err]
        panicked := false } ∧
    (∀ payload,
      Action.set payload ∉ (collectAndPublish marshal decode env store publisher).actions ∧
      Action.publish payload ∉ (collectAndPublish marshal decode env store publisher).actions) ∧
    (∀ acts (w : Wake F) rest, w.cycle = env → w.ctxDone = false → w.tickReady = true →
      runLoop marshal decode publisher store acts (w :: rest) =
        runLoop marshal decode publisher store
          (acts ++ [.wait] ++
            ((List.range 15).map .providerCall ++ [.logError "marshal system info" err]))
          rest) ∧
    (∀ (frequency : Int) wakes, 0 < frequency →
      Run marshal decode frequency store publisher env wakes =
        runLoop marshal decode publisher store
          ((List.range 15).map .providerCall ++ [.logError "marshal system info" err] ++
            [.newTicker])
          wakes) := by
  have hcalm := collectAndPublish_calm marshal decode env store publisher hp
  rw [hm] at hcalm
  simp only at hcalm
  refine ⟨hcalm, ?_, ?_, ?_⟩
  · intro payload
    rw [hcalm]
    simp
  · intro acts w rest hw hdone htick
    subst hw
    simp [runLoop, hdone, htick, hcalm]
  · intro frequency wakes hf
    rw [Run_positive marshal decode frequency hf store publisher env wakes hp, hcalm]

theorem marshal_failure_drops_cycle_witness :
    calmCycle.panicBlock = none ∧
    failingMarshal (collectSystemInfo calmCycle.providers) =
      .error "json: unsupported value: NaN" ∧
    collectAndPublish failingMarshal sampleDecode calmCycle
        (some (storeOf sampleDecode (some samplePayload)))
        (.mqttPublisher (some samplePublisher)) =
      { store := some (storeOf sampleDecode (some samplePayload))
        actions := (List.range 15).map .providerCall ++
          [.logError "marshal system info" "json: unsupported value: NaN"]
        panicked := false } :=
  ⟨rfl, rfl,
   (marshal_failure_drops_cycle failingMarshal sampleDecode calmCycle _ _ _ rfl rfl).1⟩

end rootClaims4

section rootClaims5
variable {F : Type} [Zero F] [Add F] [Div F] [NatCast F]

/-- C17, as amended: once the context is done, `Run` returns, without calling
`collectAndPublish` again, as soon as its `select` takes the `ctx.Done()` case.
It takes that case at once when no tick is pending; when a tick is pending at
the same moment the `select` takes either case, and if it takes the tick one
more cycle runs before the loop comes back to the `select`. -/
theorem run_returns_when_done_is_taken (marshal : SystemInfo F → Except String (List Byte))
    (decode : Decoder F) (publisher : Publisher) (store : Option (Store F))
    (acts : List Action) (w : Wake F) (rest : List (Wake F)) (hd : w.ctxDone = true) :
    (w.tickReady = false →
      runLoop marshal decode publisher store acts (w :: rest) =
        { store := store, actions := acts ++ [.wait, .logInfo "shutting down"],
          status := .returned }) ∧
    (w.tickReady = true → w.pickTick = false →
      runLoop marshal decode publisher store acts (w :: rest) =
        { store := store, actions := acts ++ [.wait, .logInfo "shutting down"],
          status := .returned }) ∧
    (w.tickReady = true → w.pickTick = true →
      (collectAndPublish marshal decode w.cycle store publisher).panicked = false →
      runLoop marshal decode publisher store acts (w :: rest) =
        runLoop marshal decode publisher
          (collectAndPublish marshal decode w.cycle store publisher).store
          (acts ++ [.wait] ++ (collectAndPublish marshal decode w.cycle store publisher).actions)
          rest) := by
  refine ⟨?_, ?_, ?_⟩
  · intro ht
    simp [runLoop, hd, ht]
  · intro ht hpk
    simp [runLoop, hd, ht, hpk]
  · intro ht hpk hnp
    simp [runLoop, hd, ht, hpk, hnp]

theorem run_returns_when_done_is_taken_witness :
    runLoop sampleMarshal sampleDecode (.mqttPublisher (some samplePublisher)) (NewStore ℚ) []
        [{ ctxDone := true, tickReady := false, pickTick := false, cycle := calmCycle }] =
      { store := NewStore ℚ, actions := [] ++ [.wait, .logInfo "shutting down"],
        status := .returned } :=
  (run_returns_when_done_is_taken sampleMarshal sampleDecode _ (NewStore ℚ) []
    { ctxDone := true, tickReady := false, pickTick := false, cycle := calmCycle } [] rfl).1 rfl

/-- C17, as stated, fails: the context is done when the loop first reaches its
`select`, a tick is pending as well and the `select` takes the tick: a second
cycle runs, with its `Set` and `Publish`, and only then does `Run` return. -/
theorem run_cycle_after_done_counterexample :
    (Run sampleMarshal sampleDecode 60 (NewStore ℚ) (.mqttPublisher (some samplePublisher))
      calmCycle
      [{ ctxDone := true, tickReady := true, pickTick := true, cycle := calmCycle },
       { ctxDone := true, tickReady := false, pickTick := false, cycle := calmCycle }]).actions =
      (List.range 15).map .providerCall ++
        [.set samplePayload, .publish samplePayload, .logInfo "system info collected",
         .newTicker, .wait] ++
      (List.range 15).map .providerCall ++
        [.set samplePayload, .publish samplePayload, .logInfo "system info collected",
         .wait, .logInfo "shutting down"] ∧
    (Run sampleMarshal sampleDecode 60 (NewStore ℚ) (.mqttPublisher (some samplePublisher))
      calmCycle
      [{ ctxDone := true, tickReady := true, pickTick := true, cycle := calmCycle },
       { ctxDone := true, tickReady := false, pickTick := false, cycle := calmCycle }]).status =
      .returned := by
  refine ⟨by decide, by decide⟩

end rootClaims5

/-! ## The configuration -/

section configClaims
variable {Data : Type}

theorem Load_parsed (readFile : String → Except String Data)
    (unmarshal : Data → config.Config → Except String config.Config) (path : String)
    (data : Data) (c : config.Config) (hr : readFile path = .ok data)
    (hu : unmarshal data config.Default = .ok c) :
    config.Load readFile unmarshal path =
      if c.FrequencySeconds < 1 ∨ c.FrequencySeconds > 180 then
        (config.Config.zero,
          some ("frequency_seconds out of range: " ++ toString c.FrequencySeconds))
      else (config.fillDefaults c, none) := by
  unfold config.Load
  simp only [hr, hu]
  rfl

theorem fillDefaults_eq (c : config.Config) :
    config.fillDefaults c =
      { FrequencySeconds := c.FrequencySeconds
        Rest := { Address := if c.Rest.Address = "" then ":8080" else c.Rest.Address
                  Path := if c.Rest.Path = "" then "/health" else c.Rest.Path }
        MQTT := c.MQTT
        Integrations :=
          { Modbus :=
              { Enabled := c.Integrations.Modbus.Enabled
                Mode := if c.Integrations.Modbus.Mode = "" then "tcp"
                        else c.Integrations.Modbus.Mode
                Host := if c.Integrations.Modbus.Host = "" then "localhost"
                        else c.Integrations.Modbus.Host
                Port := if c.Integrations.Modbus.Port = 0 then 502
                        else c.Integrations.Modbus.Port
                UnitID := if c.Integrations.Modbus.UnitID = 0 then 1
                          else c.Integrations.Modbus.UnitID
                Notes := c.Integrations.Modbus.Notes }
            OPCUA :=
              { Enabled := c.Integrations.OPCUA.Enabled
                Endpoint := if c.Integrations.OPCUA.Endpoint = "" then "opc.tcp://localhost:4840"
                            else c.Integrations.OPCUA.Endpoint
                SecurityPolicy := if c.Integrations.OPCUA.SecurityPolicy = "" then "None"
                                  else c.Integrations.OPCUA.SecurityPolicy
                SecurityMode := if c.Integrations.OPCUA.SecurityMode = "" then "None"
                                else c.Integrations.OPCUA.SecurityMode
                Username := c.Integrations.OPCUA.Username
                Password := c.Integrations.OPCUA.Password
                Notes := c.Integrations.OPCUA.Notes } } } := by
  obtain ⟨f, ⟨ra, rp⟩, m, ⟨⟨me, mm, mh, mp, mu, mn⟩, ⟨oe, oen, osp, osm, ou, opw, ont⟩⟩⟩ := c
  simp only [config.fillDefaults, config.DefaultRestAddress, config.DefaultRestPath,
    config.DefaultModbusMode, config.DefaultModbusPort, config.DefaultModbusUnitID,
    config.DefaultOpcuaEndpoint, config.DefaultOpcuaPolicy, config.DefaultOpcuaMode]
  by_cases h1 : ra = "" <;> by_cases h2 : rp = "" <;> by_cases h3 : mm = "" <;>
    by_cases h4 : mh = "" <;> by_cases h5 : mp = 0 <;> by_cases h6 : mu = 0 <;>
    by_cases h7 : oen = "" <;> by_cases h8 : osp = "" <;> by_cases h9 : osm = "" <;>
    simp [h1, h2, h3, h4, h5, h6, h7, h8, h9]

end configClaims

section configClaims2
variable {Data : Type}

/-- C19: for a file that is read and parsed, with `c` the config that
`yaml.Unmarshal` leaves when it starts from `Default()`, whose frequency is 60,
`Load` returns an error exactly when `c.FrequencySeconds` is below 1 or above
180, and otherwise returns that frequency unchanged. -/
theorem load_error_iff_frequency_out_of_range (readFile : String → Except String Data)
    (unmarshal : Data → config.Config → Except String config.Config) (path : String)
    (data : Data) (c : config.Config) (hr : readFile path = .ok data)
    (hu : unmarshal data config.Default = .ok c) :
    ((config.Load readFile unmarshal path).2.isSome = true ↔
      (c.FrequencySeconds < 1 ∨ 180 < c.FrequencySeconds)) ∧
    ((config.Load readFile unmarshal path).2 = none →
      (config.Load readFile unmarshal path).1.FrequencySeconds = c.FrequencySeconds) ∧
    config.Default.FrequencySeconds = 60 := by
  have hl := Load_parsed readFile unmarshal path data c hr hu
  refine ⟨?_, ?_, rfl⟩
  · rw [hl]
    by_cases h : c.FrequencySeconds < 1 ∨ c.FrequencySeconds > 180
    · rw [if_pos h]
      exact Iff.intro (fun _ => h) (fun _ => rfl)
    · rw [if_neg h]
      exact Iff.intro (fun hs => by cases hs) (fun hc => absurd hc h)
  · rw [hl]
    by_cases h : c.FrequencySeconds < 1 ∨ c.FrequencySeconds > 180
    · rw [if_pos h]
      intro hn
      cases hn
    · rw [if_neg h, fillDefaults_eq]
      intro _
      rfl

theorem load_error_iff_frequency_out_of_range_witness :
    (config.Load sampleReadFile sampleUnmarshal "invalid.yaml").2 =
      some "frequency_seconds out of range: 500" ∧
    config.Load sampleReadFile sampleUnmarshal "overrides.yaml" =
      (overridesFile config.Default, none) ∧
    (config.Load sampleReadFile sampleUnmarshal "overrides.yaml").1.FrequencySeconds = 10 ∧
    (config.Load sampleReadFile sampleUnmarshal "defaults.yaml").2 = none ∧
    (config.Load sampleReadFile sampleUnmarshal "defaults.yaml").1.FrequencySeconds = 60 ∧
    (config.Load sampleReadFile sampleUnmarshal "empty.yaml").2 = none ∧
    (config.Load sampleReadFile sampleUnmarshal "empty.yaml").1.FrequencySeconds = 60 ∧
    ((config.Load sampleReadFile sampleUnmarshal "invalid.yaml").2.isSome = true ↔
      ((invalidFrequencyFile config.Default).FrequencySeconds < 1 ∨
        180 < (invalidFrequencyFile config.Default).FrequencySeconds)) :=
  ⟨by decide, by decide, by decide, by decide, by decide, by decide, by decide,
   (load_error_iff_frequency_out_of_range sampleReadFile sampleUnmarshal "invalid.yaml"
     invalidFrequencyFile (invalidFrequencyFile config.Default) rfl rfl).1⟩

/-- C20: whenever `Load` succeeds, the file was read and parsed, and with `c`
the config `yaml.Unmarshal` left, the returned config has the nine fields
rest.address, rest.path, modbus mode, host, port, unit_id and opcua endpoint,
security_policy, security_mode equal to those of `c` where they are not empty or
zero and equal to the defaults where they are, so none of them is empty or zero,
and every other field equal to that of `c`. -/
theorem load_fills_defaults (readFile : String → Except String Data)
    (unmarshal : Data → config.Config → Except String config.Config) (path : String)
    (hok : (config.Load readFile unmarshal path).2 = none) :
    ∃ data c, readFile path = .ok data ∧ unmarshal data config.Default = .ok c ∧
      (config.Load readFile unmarshal path).1.FrequencySeconds = c.FrequencySeconds ∧
      (config.Load readFile unmarshal path).1.MQTT = c.MQTT ∧
      (config.Load readFile unmarshal path).1.Integrations.Modbus.Enabled =
        c.Integrations.Modbus.Enabled ∧
      (config.Load readFile unmarshal path).1.Integrations.Modbus.Notes =
        c.Integrations.Modbus.Notes ∧
      (config.Load readFile unmarshal path).1.Integrations.OPCUA.Enabled =
        c.Integrations.OPCUA.Enabled ∧
      (config.Load readFile unmarshal path).1.Integrations.OPCUA.Username =
        c.Integrations.OPCUA.Username ∧
      (config.Load readFile unmarshal path).1.Integrations.OPCUA.Password =
        c.Integrations.OPCUA.Password ∧
      (config.Load readFile unmarshal path).1.Integrations.OPCUA.Notes =
        c.Integrations.OPCUA.Notes ∧
      (config.Load readFile unmarshal path).1.Rest.Address =
        (if c.Rest.Address = "" then ":8080" else c.Rest.Address) ∧
      (config.Load readFile unmarshal path).1.Rest.Path =
        (if c.Rest.Path = "" then "/health" else c.Rest.Path) ∧
      (config.Load readFile unmarshal path).1.Integrations.Modbus.Mode =
        (if c.Integrations.Modbus.Mode = "" then "tcp" else c.Integrations.Modbus.Mode) ∧
      (config.Load readFile unmarshal path).1.Integrations.Modbus.Host =
        (if c.Integrations.Modbus.Host = "" then "localhost"
         else c.Integrations.Modbus.Host) ∧
      (config.Load readFile unmarshal path).1.Integrations.Modbus.Port =
        (if c.Integrations.Modbus.Port = 0 then 502 else c.Integrations.Modbus.Port) ∧
      (config.Load readFile unmarshal path).1.Integrations.Modbus.UnitID =
        (if c.Integrations.Modbus.UnitID = 0 then 1 else c.Integrations.Modbus.UnitID) ∧
      (config.Load readFile unmarshal path).1.Integrations.OPCUA.Endpoint =
        (if c.Integrations.OPCUA.Endpoint = "" then "opc.tcp://localhost:4840"
         else c.Integrations.OPCUA.Endpoint) ∧
      (config.Load readFile unmarshal path).1.Integrations.OPCUA.SecurityPolicy =
        (if c.Integrations.OPCUA.SecurityPolicy = "" then "None"
         else c.Integrations.OPCUA.SecurityPolicy) ∧
      (config.Load readFile unmarshal path).1.Integrations.OPCUA.SecurityMode =
        (if c.Integrations.OPCUA.SecurityMode = "" then "None"
         else c.Integrations.OPCUA.SecurityMode) ∧
      (config.Load readFile unmarshal path).1.Rest.Address ≠ "" ∧
      (config.Load readFile unmarshal path).1.Rest.Path ≠ "" ∧
      (config.Load readFile unmarshal path).1.Integrations.Modbus.Mode ≠ "" ∧
      (config.Load readFile unmarshal path).1.Integrations.Modbus.Host ≠ "" ∧
      (config.Load readFile unmarshal path).1.Integrations.Modbus.Port ≠ 0 ∧
      (config.Load readFile unmarshal path).1.Integrations.Modbus.UnitID ≠ 0 ∧
      (config.Load readFile unmarshal path).1.Integrations.OPCUA.Endpoint ≠ "" ∧
      (config.Load readFile unmarshal path).1.Integrations.OPCUA.SecurityPolicy ≠ "" ∧
      (config.Load readFile unmarshal path).1.Integrations.OPCUA.SecurityMode ≠ "" := by
  cases hr : readFile path with
  | error e => simp [config.Load, hr] at hok
  | ok data =>
    cases hu : unmarshal data config.Default with
    | error e => simp [config.Load, hr, hu] at hok
    | ok c =>
      have hl := Load_parsed readFile unmarshal path data c hr hu
      by_cases h : c.FrequencySeconds < 1 ∨ c.FrequencySeconds > 180
      · rw [hl] at hok
        simp [h] at hok
      · have hl2 : config.Load readFile unmarshal path = (config.fillDefaults c, none) := by
          rw [hl]; simp only [h, if_false]
        refine ⟨data, c, rfl, hu, ?_⟩
        rw [hl2, fillDefaults_eq]
        refine ⟨rfl, rfl, rfl, rfl, rfl, rfl, rfl, rfl, rfl, rfl, rfl, rfl, rfl, rfl, rfl, rfl,
          rfl, ?_, ?_, ?_, ?_, ?_, ?_, ?_, ?_, ?_⟩ <;>
        · show (if _ then _ else _) ≠ _
          split
          · decide
          · assumption

theorem load_fills_defaults_witness :
    (config.Load sampleReadFile sampleUnmarshal "defaults.yaml").2 = none ∧
    (config.Load sampleReadFile sampleUnmarshal "defaults.yaml").1.Rest =
      { Address := ":8080", Path := "/health" } ∧
    (∃ data c, sampleReadFile "defaults.yaml" = .ok data ∧
      sampleUnmarshal data config.Default = .ok c ∧
      (config.Load sampleReadFile sampleUnmarshal "defaults.yaml").1.FrequencySeconds =
        c.FrequencySeconds) :=
  ⟨by decide, by decide,
   match load_fills_defaults sampleReadFile sampleUnmarshal "defaults.yaml" (by decide) with
   | ⟨data, c, h1, h2, h3, _⟩ => ⟨data, c, h1, h2, h3⟩⟩

end configClaims2

/-! ## The publisher, the mappers and the handler -/

section mqttClaims

/-- C24: `Publish` returns an error when the publisher is nil, when its client
is nil and when the client is not connected, in these three cases without
calling the client's `Publish`; it returns `mqtt publish: ...` when the `select`
takes the token and the token has an error, and `context cancelled during
publish` when it takes the context, as it must when the context is done and
the token is not; and it returns nil only when the publisher and its client are
there, the client is connected and the token is done without an error. -/
theorem publish_errors (p : Option mqtt.Publisher) (client : mqtt.ClientState)
    (payload : List Byte) :
    (p = none →
      mqtt.Publisher.Publish p client payload =
        { err := some "publisher not initialized", clientPublishCalled := false }) ∧
    (∀ pub, p = some pub → pub.client = none →
      mqtt.Publisher.Publish p client payload =
        { err := some "publisher not initialized", clientPublishCalled := false }) ∧
    (∀ pub c, p = some pub → pub.client = some c → client.connected = false →
      mqtt.Publisher.Publish p client payload =
        { err := some "mqtt client not connected", clientPublishCalled := false }) ∧
    (∀ pub c e, p = some pub → pub.client = some c → client.connected = true →
      client.wait = .tokenDone (some e) →
      mqtt.Publisher.Publish p client payload =
        { err := some ("mqtt publish: " ++ e), clientPublishCalled := true }) ∧
    (∀ pub c, p = some pub → pub.client = some c → client.connected = true →
      client.wait = .ctxDone →
      mqtt.Publisher.Publish p client payload =
        { err := some "context cancelled during publish", clientPublishCalled := true }) ∧
    (∀ pickCtx, mqtt.selectCase true none pickCtx = some .ctxDone) ∧
    (∀ e pickCtx, mqtt.selectCase false (some e) pickCtx = some (.tokenDone e)) ∧
    ((mqtt.Publisher.Publish p client payload).err = none ↔
      ∃ pub c, p = some pub ∧ pub.client = some c ∧ client.connected = true ∧
        client.wait = .tokenDone none) := by
  refine ⟨?_, ?_, ?_, ?_, ?_, fun _ => rfl, fun _ _ => rfl, ?_⟩
  · intro h; subst h; rfl
  · intro pub h hc; subst h; simp [mqtt.Publisher.Publish, hc]
  · intro pub c h hc hn; subst h; simp [mqtt.Publisher.Publish, hc, hn]
  · intro pub c e h hc hn hw; subst h; simp [mqtt.Publisher.Publish, hc, hn, hw]
  · intro pub c h hc hn hw; subst h; simp [mqtt.Publisher.Publish, hc, hn, hw]
  · constructor
    · intro h
      cases p with
      | none => simp [mqtt.Publisher.Publish] at h
      | some pub =>
        cases hc : pub.client with
        | none => simp [mqtt.Publisher.Publish, hc] at h
        | some c =>
          cases hn : client.connected with
          | false => simp [mqtt.Publisher.Publish, hc, hn] at h
          | true =>
            cases hw : client.wait with
            | ctxDone => simp [mqtt.Publisher.Publish, hc, hn, hw] at h
            | tokenDone e =>
              cases e with
              | some e => simp [mqtt.Publisher.Publish, hc, hn, hw] at h
              | none => exact ⟨pub, c, rfl, hc, rfl, rfl⟩
    · rintro ⟨pub, c, rfl, hc, hn, hw⟩
      simp [mqtt.Publisher.Publish, hc, hn, hw]

theorem publish_errors_witness :
    mqtt.Publisher.Publish (some samplePublisher)
        { connected := true, wait := .tokenDone (some "publish failed") } [100, 97, 116, 97] =
      { err := some ("mqtt publish: " ++ "publish failed"), clientPublishCalled := true } ∧
    mqtt.Publisher.Publish (some { client := none, topic := "", qos := 0 })
        { connected := true, wait := .tokenDone none } [100, 97, 116, 97] =
      { err := some "publisher not initialized", clientPublishCalled := false } :=
  ⟨(publish_errors (some samplePublisher)
      { connected := true, wait := .tokenDone (some "publish failed") }
      [100, 97, 116, 97]).2.2.2.1 samplePublisher _ "publish failed" rfl rfl rfl rfl,
   (publish_errors (some { client := none, topic := "", qos := 0 })
      { connected := true, wait := .tokenDone none } [100, 97, 116, 97]).2.1 _ rfl rfl⟩

end mqttClaims

section mapperClaims
variable {F : Type}

/-- C26: each of `mapCPUInfo`, `mapTimesSlice`, `mapPartitions`,
`mapInterfaces`, `mapUsers` and `mapTemps` is the element-wise image of its
input, in order, so it has the length of the input and its i-th element carries
the fields of the i-th input element (`mapInterfaces` keeping the addresses in
order); `mapDiskIO` is the element-wise image of the entries of its map, each
entry giving its key as device and its counters. -/
theorem mappers_are_elementwise (cpus : List (cpu.InfoStat F)) (times : List (cpu.TimesStat F))
    (parts : List disk.PartitionStat) (ifaces : List net.InterfaceStat)
    (users : List host.UserStat) (temps : List (sensors.TemperatureStat F))
    (ios : List (String × disk.IOCountersStat)) :
    mapCPUInfo cpus = cpus.map (fun v =>
      { ModelName := v.ModelName, Cores := v.Cores, Mhz := v.Mhz, CacheSize := v.CacheSize }) ∧
    mapTimesSlice times = times.map (fun t =>
      { User := t.User, System := t.System, Idle := t.Idle, Nice := t.Nice,
        Iowait := t.Iowait, Irq := t.Irq, SoftIrq := t.Softirq, Steal := t.Steal,
        Guest := t.Guest, GuestNice := t.GuestNice }) ∧
    mapPartitions parts = parts.map (fun v =>
      { Device := v.Device, Mountpoint := v.Mountpoint, FSType := v.Fstype }) ∧
    mapInterfaces ifaces = ifaces.map (fun v =>
      { Name := v.Name, MTU := v.MTU, HardwareAddr := v.HardwareAddr, Flags := v.Flags,
        Addrs := v.Addrs.map (fun a => a.Addr) }) ∧
    mapUsers users = users.map (fun v =>
      { User := v.User, Terminal := v.Terminal, Host := v.Host, StartedUnix := v.Started }) ∧
    mapTemps temps = temps.map (fun v =>
      { SensorKey := v.SensorKey, Value := v.Temperature, High := v.High,
        Critical := v.Critical }) ∧
    mapDiskIO ios = ios.map (fun e =>
      { Device := e.1, ReadBytes := e.2.ReadBytes, WriteBytes := e.2.WriteBytes,
        ReadCount := e.2.ReadCount, WriteCount := e.2.WriteCount,
        ReadTimeMS := e.2.ReadTime, WriteTimeMS := e.2.WriteTime }) ∧
    (mapCPUInfo cpus).length = cpus.length ∧
    (mapTimesSlice times).length = times.length ∧
    (mapPartitions parts).length = parts.length ∧
    (mapInterfaces ifaces).length = ifaces.length ∧
    (mapUsers users).length = users.length ∧
    (mapTemps temps).length = temps.length ∧
    ( mapDiskIO ios).length = ios.length := by
  have h1 : mapCPUInfo cpus = cpus.map (fun v =>
      { ModelName := v.ModelName, Cores := v.Cores, Mhz := v.Mhz,
        CacheSize := v.CacheSize }) := by
    unfold mapCPUInfo; rw [foldl_snoc_eq_map]; rfl
  have h2 : mapTimesSlice times = times.map mapTimes := by
    unfold mapTimesSlice; rw [foldl_snoc_eq_map]; rfl
  have h3 : mapPartitions parts = parts.map (fun v =>
      { Device := v.Device, Mountpoint := v.Mountpoint, FSType := v.Fstype }) := by
    unfold mapPartitions; rw [foldl_snoc_eq_map]; rfl
  have h4 : mapInterfaces ifaces = ifaces.map (fun v =>
      { Name := v.Name, MTU := v.MTU, HardwareAddr := v.HardwareAddr, Flags := v.Flags,
        Addrs := v.Addrs.map (fun a => a.Addr) }) := by
    unfold mapInterfaces
    simp only [foldl_snoc_eq_map, List.nil_append]
  have h5 : mapUsers users = users.map (fun v =>
      { User := v.User, Terminal := v.Terminal, Host := v.Host,
        StartedUnix := v.Started }) := by
    unfold mapUsers; rw [foldl_snoc_eq_map]; rfl
  have h6 : mapTemps temps = temps.map (fun v =>
      { SensorKey := v.SensorKey, Value := v.Temperature, High := v.High,
        Critical := v.Critical }) := by
    unfold mapTemps; rw [foldl_snoc_eq_map]; rfl
  have h7 : mapDiskIO ios = ios.map (fun e =>
      { Device := e.1, ReadBytes := e.2.ReadBytes, WriteBytes := e.2.WriteBytes,
        ReadCount := e.2.ReadCount, WriteCount := e.2.WriteCount,
        ReadTimeMS := e.2.ReadTime, WriteTimeMS := e.2.WriteTime }) := by
    unfold mapDiskIO; rw [foldl_snoc_eq_map]; rfl
  refine ⟨h1, ?_, h3, h4, h5, h6, h7, ?_, ?_, ?_, ?_, ?_, ?_, ?_⟩
  · rw [h2]; rfl
  · rw [h1, List.length_map]
  · rw [h2, List.length_map]
  · rw [h3, List.length_map]
  · rw [h4, List.length_map]
  · rw [h5, List.length_map]
  · rw [h6, List.length_map]
  · rw [h7, List.length_map]

/-- C27: `mapDiskUsage` returns, in input order, one usage entry for each
partition whose lookup succeeded and none for the others, and leaves the error
list as it was followed by one `disk.Usage: ...` message for each partition
whose lookup failed, in input order; so the number of entries and the number of
appended messages add up to the number of partitions. -/
theorem mapDiskUsage_entries_and_errors (usage : String → Except String (disk.UsageStat F))
    (inp : List disk.PartitionStat) (errors : List String) :
    (mapDiskUsage usage inp errors).1 =
      inp.filterMap (fun v =>
        match usage v.Mountpoint with
        | .ok u => some { Device := v.Device, Mountpoint := v.Mountpoint, FSType := v.Fstype,
                          Total := u.Total, Used := u.Used, Free := u.Free,
                          UsedPercent := u.UsedPercent }
        | .error _ => none) ∧
    (mapDiskUsage usage inp errors).2 =
      errors ++ inp.filterMap (fun v =>
        match usage v.Mountpoint with
        | .ok _ => none
        | .error e => some ("disk.Usage: " ++ e)) ∧
    (mapDiskUsage usage inp errors).1.length =
      (inp.filter fun v => (errText (usage v.Mountpoint)).isNone).length ∧
    (mapDiskUsage usage inp errors).2.length =
      errors.length + (inp.filter fun v => (errText (usage v.Mountpoint)).isSome).length ∧
    (mapDiskUsage usage inp errors).1.length +
        ((mapDiskUsage usage inp errors).2.length - errors.length) = inp.length := by
  rw [mapDiskUsage_eq]
  have hcount : ∀ l : List disk.PartitionStat,
      (l.filterMap (usageEntry usage)).length =
        (l.filter fun v => (errText (usage v.Mountpoint)).isNone).length ∧
      (l.filterMap (usageError usage)).length =
        (l.filter fun v => (errText (usage v.Mountpoint)).isSome).length ∧
      (l.filterMap (usageEntry usage)).length + (l.filterMap (usageError usage)).length =
        l.length := by
    intro l
    induction l with
    | nil => simp
    | cons v rest ih =>
      obtain ⟨ih1, ih2, ih3⟩ := ih
      simp only [List.filterMap_cons, List.filter_cons, usageEntry, usageError]
      cases h : usage v.Mountpoint with
      | ok u =>
        simp only [errText, Option.isNone_none, Option.isSome_none, if_true,
          Bool.false_eq_true, if_false, List.length_cons] at *
        omega
      | error e =>
        simp only [errText, Option.isNone_some, Option.isSome_some, if_true,
          Bool.false_eq_true, if_false, List.length_cons] at *
        omega
  obtain ⟨hc1, hc2, hc3⟩ := hcount inp
  refine ⟨rfl, rfl, hc1, ?_, ?_⟩
  · simp only [List.length_append, hc2]
  · simp only [List.length_append]
    omega

end mapperClaims

section opcuaClaims

/-- C28: `opcuaRequiredFields` returns endpoint, security_policy and
security_mode when neither a username nor a password is set, and those three
followed by username and password when one of them is set, three against five
entries, whatever the security mode and whatever `strings.EqualFold` answers:
two security modes give the same result. -/
theorem opcuaRequiredFields_ignores_mode (equalFold : String → String → Bool)
    (securityMode otherMode : String) (usernameSet passwordSet : Bool) :
    opcuaRequiredFields equalFold securityMode false false =
      ["endpoint", "security_policy", "security_mode"] ∧
    ((usernameSet || passwordSet) = true →
      opcuaRequiredFields equalFold securityMode usernameSet passwordSet =
        ["endpoint", "security_policy", "security_mode", "username", "password"]) ∧
    (opcuaRequiredFields equalFold securityMode usernameSet passwordSet).length =
      (if (usernameSet || passwordSet) = true then 5 else 3) ∧
    opcuaRequiredFields equalFold securityMode usernameSet passwordSet =
      opcuaRequiredFields equalFold otherMode usernameSet passwordSet := by
  have key : ∀ mode, opcuaRequiredFields equalFold mode usernameSet passwordSet =
      ["endpoint", "security_policy", "security_mode"] ++
        (if (usernameSet || passwordSet) = true then ["username", "password"] else []) := by
    intro mode
    unfold opcuaRequiredFields
    cases equalFold mode "none" <;> cases usernameSet <;> cases passwordSet <;> rfl
  refine ⟨?_, ?_, ?_, ?_⟩
  · unfold opcuaRequiredFields
    cases equalFold securityMode "none" <;> rfl
  · intro h
    rw [key, if_pos h]
    rfl
  · rw [key]
    split <;> rfl
  · rw [key, key]

theorem opcuaRequiredFields_ignores_mode_witness :
    ((true || false) = true) ∧
    opcuaRequiredFields (fun a b => a.toLower == b.toLower) "Sign" true false =
      ["endpoint", "security_policy", "security_mode", "username", "password"] :=
  ⟨rfl, (opcuaRequiredFields_ignores_mode (fun a b => a.toLower == b.toLower) "Sign" "none"
    true false).2.1 rfl⟩

end opcuaClaims

section readerClaims

theorem cycleBytes_succ (pattern : List Byte) (o k : Nat) :
    cycleBytes pattern o (k + 1) =
      pattern.getD (o % pattern.length) 0 :: cycleBytes pattern (o + 1) k := by
  unfold cycleBytes
  rw [List.range_succ_eq_map]
  simp only [List.map_cons, List.map_map, Nat.add_zero]
  congr 1
  apply List.map_congr_left
  intro i _
  simp only [Function.comp]
  congr 2
  omega

theorem cycleBytes_mod (pattern : List Byte) (o k : Nat) :
    cycleBytes pattern (o % pattern.length) k = cycleBytes pattern o k := by
  unfold cycleBytes
  apply List.map_congr_left
  intro i _
  rw [Nat.mod_add_mod]

theorem cycleBytes_length (pattern : List Byte) (o k : Nat) :
    (cycleBytes pattern o k).length = k := by
  simp [cycleBytes]

theorem cycleBytes_add (pattern : List Byte) (o j k : Nat) :
    cycleBytes pattern o (j + k) = cycleBytes pattern o j ++ cycleBytes pattern (o + j) k := by
  induction j generalizing o with
  | zero => simp [cycleBytes]
  | succ j ih =>
    rw [show j + 1 + k = (j + k) + 1 by omega, cycleBytes_succ, cycleBytes_succ, ih]
    rw [show o + 1 + j = o + (j + 1) by omega]
    rfl

theorem readLoop_eq (pattern : List Byte) (o : Nat) (p : List Byte)
    (ho : o < pattern.length) :
    readLoop pattern o p =
      some ((o + p.length) % pattern.length, cycleBytes pattern o p.length) := by
  induction p generalizing o with
  | nil => simp [readLoop, cycleBytes, Nat.mod_eq_of_lt ho]
  | cons x rest ih =>
    have hget : pattern[o]? = some (pattern.getD (o % pattern.length) 0) := by
      rw [Nat.mod_eq_of_lt ho, List.getD_eq_getElem?_getD, List.getElem?_eq_getElem ho]
      rfl
    have hnext : (if o + 1 ≥ pattern.length then 0 else o + 1) = (o + 1) % pattern.length := by
      by_cases h : o + 1 ≥ pattern.length
      · have : o + 1 = pattern.length := by omega
        rw [if_pos h, this, Nat.mod_self]
      · rw [if_neg h, Nat.mod_eq_of_lt (by omega)]
    have hlt : (o + 1) % pattern.length < pattern.length := Nat.mod_lt _ (by omega)
    simp only [readLoop, hget, hnext, ih _ hlt, List.length_cons]
    rw [cycleBytes_mod, cycleBytes_succ, Nat.mod_add_mod]
    congr 3
    omega

end readerClaims

section readerClaims2

theorem Read_eq (r : repeatReader) (p : List Byte) (hne : r.pattern ≠ [])
    (ho : r.offset < r.pattern.length) :
    r.Read p =
      some { reader := { r with offset := (r.offset + p.length) % r.pattern.length }
             p := cycleBytes r.pattern r.offset p.length
             n := p.length
             err := none } := by
  have hlen : r.pattern.length ≠ 0 := by
    intro h
    exact hne (List.length_eq_zero.mp h)
  unfold repeatReader.Read
  rw [if_neg hlen, readLoop_eq _ _ _ ho]

/-- C25: for a reader with a non-empty pattern of length `L` and an offset
below `L`, `Read(p)` returns `(len(p), nil)`, fills `p` with the bytes
`pattern[(o + i) mod L]` and leaves the offset `(o + len(p)) mod L`, which is
below `L`; a `Read` of `p` followed by a `Read` of `q` yields the bytes of one
`Read` of the two together and leaves the same reader; and with an empty
pattern `Read` returns `(0, io.EOF)` and leaves `p` and the reader as they
were. -/
theorem repeatReader_read (r : repeatReader) (p q : List Byte) :
    (r.pattern ≠ [] → r.offset < r.pattern.length →
      r.Read p =
        some { reader := { r with offset := (r.offset + p.length) % r.pattern.length }
               p := cycleBytes r.pattern r.offset p.length
               n := p.length
               err := none } ∧
      (cycleBytes r.pattern r.offset p.length).length = p.length ∧
      (∀ i, i < p.length →
        (cycleBytes r.pattern r.offset p.length)[i]? =
          r.pattern[(r.offset + i) % r.pattern.length]?) ∧
      (r.offset + p.length) % r.pattern.length < r.pattern.length ∧
      (∃ r1 b1 r2 b2,
        r.Read p = some { reader := r1, p := b1, n := p.length, err := none } ∧
        r1.Read q = some { reader := r2, p := b2, n := q.length, err := none } ∧
        r.Read (p ++ q) =
          some { reader := r2, p := b1 ++ b2, n := (p ++ q).length, err := none })) ∧
    (r.pattern = [] → r.Read p = some { reader := r, p := p, n := 0, err := some "EOF" }) := by
  constructor
  · intro hne ho
    have hpos : 0 < r.pattern.length := List.length_pos.mpr hne
    have hlt : (r.offset + p.length) % r.pattern.length < r.pattern.length :=
      Nat.mod_lt _ hpos
    refine ⟨Read_eq r p hne ho, cycleBytes_length _ _ _, ?_, hlt, ?_⟩
    · intro i hi
      have hidx : (r.offset + i) % r.pattern.length < r.pattern.length := Nat.mod_lt _ hpos
      unfold cycleBytes
      rw [List.getElem?_map, List.getElem?_range hi, Option.map_some',
        List.getD_eq_getElem?_getD, List.getElem?_eq_getElem hidx]
      rfl
    · refine ⟨_, _, _, _, Read_eq r p hne ho,
        Read_eq { r with offset := (r.offset + p.length) % r.pattern.length } q hne hlt, ?_⟩
      rw [Read_eq r (p ++ q) hne ho]
      simp only [List.length_append, cycleBytes_add, cycleBytes_mod, Nat.mod_add_mod,
        Nat.add_assoc]
  · intro he
    unfold repeatReader.Read
    simp [he]

theorem repeatReader_read_witness :
    ({ pattern := [97, 98], offset := 0 } : repeatReader).Read [0, 0, 0, 0, 0] =
      some { reader := { pattern := [97, 98], offset := 1 }, p := [97, 98, 97, 98, 97],
             n := 5, err := none } ∧
    ({ pattern := [], offset := 0 } : repeatReader).Read [7] =
      some { reader := { pattern := [], offset := 0 }, p := [7], n := 0, err := some "EOF" } :=
  ⟨((repeatReader_read { pattern := [97, 98], offset := 0 } [0, 0, 0, 0, 0] []).1
      (by decide) (by decide)).1,
   (repeatReader_read { pattern := [], offset := 0 } [7] []).2 rfl⟩

theorem copyLoop_eq (bufSize : Nat) (pattern : List Byte) (hne : pattern ≠ [])
    (fuel remaining o : Nat) (out : List Byte) (ho : o < pattern.length)
    (hf : remaining ≤ fuel) :
    copyLoop bufSize fuel remaining { pattern := pattern, offset := o } out =
      some (out ++ cycleBytes pattern o remaining) := by
  induction fuel generalizing remaining o out with
  | zero =>
    have : remaining = 0 := by omega
    subst this
    simp [copyLoop, cycleBytes]
  | succ fuel ih =>
    cases remaining with
    | zero => simp [copyLoop, cycleBytes]
    | succ rem =>
      have hpos : 0 < pattern.length := List.length_pos.mpr hne
      have hk1 : 1 ≤ min (max bufSize 1) (rem + 1) := by omega
      have hk2 : min (max bufSize 1) (rem + 1) ≤ rem + 1 := by omega
      generalize hk : min (max bufSize 1) (rem + 1) = k at hk1 hk2
      have hread := Read_eq { pattern := pattern, offset := o } (List.replicate k 0) hne ho
      simp only [List.length_replicate] at hread
      simp only [copyLoop, hk, hread, Option.isSome_none, Bool.false_eq_true, if_false]
      rw [ih (rem + 1 - k) _ _ (Nat.mod_lt _ hpos) (by omega)]
      rw [List.take_of_length_le (by rw [cycleBytes_length]), cycleBytes_mod,
        List.append_assoc, ← cycleBytes_add]
      congr 3
      omega

theorem copyN_eq (bufSize n : Nat) :
    copyN bufSize { pattern := edgebeatPattern, offset := 0 } n =
      some (cycleBytes edgebeatPattern 0 n) := by
  unfold copyN
  rw [copyLoop_eq bufSize edgebeatPattern (by decide) n n 0 [] (by decide) (Nat.le_refl n)]
  rfl

end readerClaims2

section endpointClaims
variable {F : Type}

/-- C21: for a handler whose store was made by `NewStore` and has accepted no
payload, a GET to the full-metrics endpoint and to each of the six section
endpoints returns, without a panic, the status 503 with the error `no data
available`. -/
theorem no_data_gives_503 (decode : Decoder F) (ps : List (List Byte))
    (hrej : ∀ p ∈ ps, decode p = none) (integrations : config.IntegrationConfig)
    (r : Request) (hget : r.method = "GET") :
    ∃ s, runSets decode (NewStore F) ps = .returned s ∧
      Handler.metricEndpoints { store := s, integrations := integrations } r =
        List.replicate 7 (.returned
          { status := 503, allow := none, contentType := some "application/json",
            contentLength := none, payloadBytes := none,
            body := .error "no data available" }) := by
  refine ⟨_, runSets_NewStore decode ps, ?_⟩
  rw [(lastAccepted_eq_none decode ps).2 hrej]
  simp [Handler.metricEndpoints, Handler.getFullMetrics, Handler.getCPUMetrics,
    Handler.getMemoryMetrics, Handler.getDiskMetrics, Handler.getNetworkMetrics,
    Handler.getSystemMetrics, Handler.getSensorMetrics, checkMethod, hget, sectionResponse,
    Store.Get, Store.GetCPU, Store.GetMemory, Store.GetDisk, Store.GetNetwork,
    Store.GetSystem, Store.GetSensors, storeOf, writeJSON, List.replicate]

theorem no_data_gives_503_witness :
    (∀ p ∈ [notJSON], sampleDecode p = none) ∧
    (∃ s, runSets sampleDecode (NewStore ℚ) [notJSON] = .returned s ∧
      Handler.metricEndpoints
          { store := s, integrations := config.Default.Integrations }
          { method := "GET", size := [] } =
        List.replicate 7 (.returned
          { status := 503, allow := none, contentType := some "application/json",
            contentLength := none, payloadBytes := none,
            body := .error "no data available" })) :=
  ⟨by simp [sampleDecode, notJSON, samplePayload],
   no_data_gives_503 sampleDecode [notJSON] (by simp [sampleDecode, notJSON, samplePayload])
     config.Default.Integrations { method := "GET", size := [] } rfl⟩

end endpointClaims

section parseLemmas

theorem isSpace_of_isDigit (c : Char) (h : c.isDigit = true) : isSpace c = false := by
  have h1 : 48 ≤ c.toNat ∧ c.toNat ≤ 57 := by
    simp only [Char.isDigit, Bool.and_eq_true, decide_eq_true_eq] at h
    exact ⟨h.1, h.2⟩
  simp only [isSpace]
  simp
  omega

theorem find?_congr_mem {α : Type} (p q : α → Bool) (l : List α)
    (h : ∀ x ∈ l, p x = q x) : l.find? p = l.find? q := by
  induction l with
  | nil => rfl
  | cons x rest ih =>
    have hx := h x (List.mem_cons_self x rest)
    have hr := ih fun y hy => h y (List.mem_cons_of_mem x hy)
    simp only [List.find?_cons, hx, hr]

theorem suffix_append_iff_of_last (pre sfx e : List Char)
    (h : ∀ c, pre.getLast? = some c → c ∉ e) :
    e <:+ pre ++ sfx ↔ e <:+ sfx := by
  constructor
  · intro he
    rcases List.suffix_or_suffix_of_suffix he (List.suffix_append pre sfx) with h1 | h2
    · exact h1
    · obtain ⟨t, rfl⟩ := h2
      obtain ⟨u, hu⟩ := he
      have hut : u ++ t = pre := by
        rw [← List.append_assoc] at hu
        exact List.append_cancel_right hu
      cases t with
      | nil => exact List.suffix_refl _
      | cons x xs =>
        exfalso
        have hne : (x :: xs) ≠ [] := List.cons_ne_nil x xs
        have hlast : pre.getLast? = some ((x :: xs).getLast hne) := by
          rw [← hut, List.getLast?_append, List.getLast?_eq_getLast _ hne]
          rfl
        exact h _ hlast (List.mem_append_left _ (List.getLast_mem hne))
  · intro he
    exact he.trans (List.suffix_append pre sfx)

theorem trimSpace_sandwich (a core b : List Char)
    (ha : ∀ c ∈ a, isSpace c = true) (hb : ∀ c ∈ b, isSpace c = true) (x y : Char)
    (hx : core.head? = some x) (hy : core.getLast? = some y)
    (hxs : isSpace x = false) (hys : isSpace y = false) :
    trimSpace (a ++ core ++ b) = core := by
  unfold trimSpace
  obtain ⟨t, rfl⟩ : ∃ t, core = x :: t := by
    cases core with
    | nil => simp at hx
    | cons z t => simp at hx; exact ⟨t, by rw [hx]⟩
  have h1 : (a ++ x :: t ++ b).dropWhile isSpace = x :: t ++ b := by
    rw [List.append_assoc, List.dropWhile_append_of_pos ha]
    simp [List.dropWhile_cons, hxs]
  rw [h1]
  obtain ⟨u, hu⟩ : ∃ u, (x :: t).reverse = y :: u := by
    have hrev : (x :: t).reverse.head? = some y := by rw [List.head?_reverse]; exact hy
    cases hr : (x :: t).reverse with
    | nil => rw [hr] at hrev; simp at hrev
    | cons z u => rw [hr] at hrev; simp at hrev; exact ⟨u, by rw [hrev]⟩
  have h2 : ((x :: t ++ b).reverse).dropWhile isSpace = (x :: t).reverse := by
    rw [List.reverse_append, List.dropWhile_append_of_pos (by simpa using hb), hu]
    simp [List.dropWhile_cons, hys]
  rw [h2, List.reverse_reverse]

theorem find_byteSizeSuffix (pre sfx : List Char)
    (hpre : pre ≠ []) (hlast : ∀ c, pre.getLast? = some c → c ∉ ['k', 'm', 'g', 'b', 'i']) :
    byteSizeSuffixes.find? (fun entry =>
        hasSuffix (pre ++ sfx) entry.1 && decide ((pre ++ sfx).length > entry.1.length)) =
      byteSizeSuffixes.find? (fun entry => entry.1.isSuffixOf sfx) := by
  apply find?_congr_mem
  intro e he
  have hsub : ∀ c ∈ e.1, c ∈ ['k', 'm', 'g', 'b', 'i'] := by
    simp only [byteSizeSuffixes, List.mem_cons, List.mem_singleton, List.not_mem_nil,
      or_false] at he
    rcases he with rfl | rfl | rfl | rfl | rfl | rfl | rfl <;> decide
  have hiff := suffix_append_iff_of_last pre sfx e.1
    (fun c hc hmem => hlast c hc (hsub c hmem))
  have hlen : 0 < pre.length := List.length_pos.mpr hpre
  rw [Bool.eq_iff_iff]
  simp only [hasSuffix, Bool.and_eq_true, List.isSuffixOf_iff_suffix, decide_eq_true_eq,
    List.length_append]
  constructor
  · rintro ⟨h1, _⟩
    exact hiff.1 h1
  · intro h1
    have := h1.length_le
    exact ⟨hiff.2 h1, by omega⟩

theorem trimSuffix_append (pre sfx : List Char) : trimSuffix (pre ++ sfx) sfx = pre := by
  have h : hasSuffix (pre ++ sfx) sfx = true := by
    simp [hasSuffix, List.suffix_append]
  simp [trimSuffix, h]

theorem parseUint_digits (ds : List Char) (hne : ds ≠ [])
    (hdig : ∀ c ∈ ds, c.isDigit = true) :
    parseUint ds =
      if decimalValue ds < 2 ^ 64 then some (decimalValue ds) else none := by
  have hall : ds.all Char.isDigit = true := by
    rw [List.all_eq_true]
    exact hdig
  simp only [parseUint, hne, if_false, hall, if_true]

theorem digits_head_last (ds : List Char) (hne : ds ≠ [])
    (hdig : ∀ c ∈ ds, c.isDigit = true) :
    ∃ x y, ds.head? = some x ∧ ds.getLast? = some y ∧ x.isDigit = true ∧ y.isDigit = true := by
  refine ⟨ds.head hne, ds.getLast hne, ?_, ?_, hdig _ (List.head_mem hne),
    hdig _ (List.getLast_mem hne)⟩
  · exact List.head?_eq_head hne
  · exact List.getLast?_eq_getLast _ hne

theorem trimSpace_digits (ds ws : List Char) (hne : ds ≠ [])
    (hdig : ∀ c ∈ ds, c.isDigit = true) (hws : ∀ c ∈ ws, isSpace c = true) :
    trimSpace (ds ++ ws) = ds := by
  obtain ⟨x, y, hx, hy, hxd, hyd⟩ := digits_head_last ds hne hdig
  have h := trimSpace_sandwich [] ds ws (by simp) hws x y hx hy
    (isSpace_of_isDigit x hxd) (isSpace_of_isDigit y hyd)
  simpa using h

theorem map_lower_digits (lower : Char → Char) (ds : List Char)
    (hl2 : ∀ c, c.isDigit = true → lower c = c) (hdig : ∀ c ∈ ds, c.isDigit = true) :
    ds.map lower = ds := by
  induction ds with
  | nil => rfl
  | cons x rest ih =>
    rw [List.map_cons, hl2 x (hdig x (List.mem_cons_self x rest)),
      ih fun c hc => hdig c (List.mem_cons_of_mem x hc)]

theorem map_lower_spaces (lower : Char → Char) (ws : List Char)
    (hl1 : ∀ c, isSpace c = true → isSpace (lower c) = true)
    (hws : ∀ c ∈ ws, isSpace c = true) :
    ∀ c ∈ ws.map lower, isSpace c = true := by
  intro c hc
  rw [List.mem_map] at hc
  obtain ⟨d, hd, rfl⟩ := hc
  exact hl1 d (hws d hd)

theorem parseByteSize_no_suffix (lower : Char → Char) (ws1 ds ws2 : List Char)
    (hl1 : ∀ c, isSpace c = true → isSpace (lower c) = true)
    (hl2 : ∀ c, c.isDigit = true → lower c = c)
    (hw1 : ∀ c ∈ ws1, isSpace c = true) (hw2 : ∀ c ∈ ws2, isSpace c = true)
    (hne : ds ≠ []) (hdig : ∀ c ∈ ds, c.isDigit = true) :
    parseByteSize lower (ws1 ++ ds ++ ws2) =
      match parseUint ds with
      | none => .error "invalid size format"
      | some parsed =>
        if 1 > 0 ∧ parsed > (2 ^ 64 - 1) / 1 then .error "size is too large"
        else .ok (parsed * 1 % 2 ^ 64) := by
  obtain ⟨x, y, hx, hy, hxd, hyd⟩ := digits_head_last ds hne hdig
  have hv : trimSpace ((ws1 ++ ds ++ ws2).map lower) = ds := by
    rw [List.map_append, List.map_append, map_lower_digits lower ds hl2 hdig]
    exact trimSpace_sandwich _ ds _ (map_lower_spaces lower ws1 hl1 hw1)
      (map_lower_spaces lower ws2 hl1 hw2) x y hx hy (isSpace_of_isDigit x hxd)
      (isSpace_of_isDigit y hyd)
  have hlast : ∀ c, ds.getLast? = some c → c ∉ ['k', 'm', 'g', 'b', 'i'] := by
    intro c hc hmem
    rw [hy] at hc
    cases hc
    simp only [List.mem_cons, List.mem_singleton, List.not_mem_nil, or_false] at hmem
    rcases hmem with rfl | rfl | rfl | rfl | rfl <;> simp at hyd
  have hfind := find_byteSizeSuffix ds [] hne hlast
  rw [List.append_nil] at hfind
  have hnone : byteSizeSuffixes.find? (fun entry => entry.1.isSuffixOf ([] : List Char)) =
      none := by decide
  rw [hnone] at hfind
  unfold parseByteSize
  simp only [hv, hne, if_false, hfind]

theorem parseByteSize_with_suffix (lower : Char → Char) (ws1 ds ws2 sfx ws3 : List Char)
    (m : Nat)
    (hl1 : ∀ c, isSpace c = true → isSpace (lower c) = true)
    (hl2 : ∀ c, c.isDigit = true → lower c = c)
    (hw1 : ∀ c ∈ ws1, isSpace c = true) (hw2 : ∀ c ∈ ws2, isSpace c = true)
    (hw3 : ∀ c ∈ ws3, isSpace c = true)
    (hne : ds ≠ []) (hdig : ∀ c ∈ ds, c.isDigit = true)
    (hs : (sfx.map lower, m) ∈ byteSizeSuffixes) :
    parseByteSize lower (ws1 ++ ds ++ ws2 ++ sfx ++ ws3) =
      match parseUint ds with
      | none => .error "invalid size format"
      | some parsed =>
        if m > 0 ∧ parsed > (2 ^ 64 - 1) / m then .error "size is too large"
        else .ok (parsed * m % 2 ^ 64) := by
  obtain ⟨x, y, hx, hy, hxd, hyd⟩ := digits_head_last ds hne hdig
  have hw2' := map_lower_spaces lower ws2 hl1 hw2
  generalize hsl : sfx.map lower = sfxL at hs
  generalize hw2l : ws2.map lower = ws2L at hw2'
  have hfacts : byteSizeSuffixes.find? (fun entry => entry.1.isSuffixOf sfxL) = some (sfxL, m) ∧
      ∃ z, sfxL.getLast? = some z ∧ isSpace z = false := by
    simp only [byteSizeSuffixes, List.mem_cons, Prod.mk.injEq, List.mem_singleton,
      List.not_mem_nil, or_false] at hs
    rcases hs with ⟨rfl, rfl⟩ | ⟨rfl, rfl⟩ | ⟨rfl, rfl⟩ | ⟨rfl, rfl⟩ | ⟨rfl, rfl⟩ |
      ⟨rfl, rfl⟩ | ⟨rfl, rfl⟩ <;> exact ⟨by decide, _, rfl, by decide⟩
  obtain ⟨hfind0, z, hz, hzs⟩ := hfacts
  have hpre : ds ++ ws2L ≠ [] := by simp [hne]
  have hcorehead : (ds ++ ws2L ++ sfxL).head? = some x := by
    rw [List.append_assoc, List.head?_append, hx]
    rfl
  have hcorelast : (ds ++ ws2L ++ sfxL).getLast? = some z := by
    rw [List.getLast?_append, hz]
    rfl
  have hv : trimSpace ((ws1 ++ ds ++ ws2 ++ sfx ++ ws3).map lower) = ds ++ ws2L ++ sfxL := by
    simp only [List.map_append, hsl, hw2l, map_lower_digits lower ds hl2 hdig]
    have h := trimSpace_sandwich (ws1.map lower) (ds ++ ws2L ++ sfxL) (ws3.map lower)
      (map_lower_spaces lower ws1 hl1 hw1) (map_lower_spaces lower ws3 hl1 hw3) x z
      hcorehead hcorelast (isSpace_of_isDigit x hxd) hzs
    simpa [List.append_assoc] using h
  have hlast : ∀ c, (ds ++ ws2L).getLast? = some c → c ∉ ['k', 'm', 'g', 'b', 'i'] := by
    intro c hc hmem
    have hcm : c ∈ ds ++ ws2L := List.mem_of_getLast?_eq_some hc
    have hcase : c.isDigit = true ∨ isSpace c = true := by
      rcases List.mem_append.mp hcm with h | h
      · exact Or.inl (hdig c h)
      · exact Or.inr (hw2' c h)
    simp only [List.mem_cons, List.mem_singleton, List.not_mem_nil, or_false] at hmem
    rcases hmem with rfl | rfl | rfl | rfl | rfl <;> rcases hcase with h | h <;>
      simp [isSpace] at h
  have hfind := find_byteSizeSuffix (ds ++ ws2L) sfxL hpre hlast
  rw [hfind0] at hfind
  have hcore_ne : ds ++ ws2L ++ sfxL ≠ [] := by simp [hne]
  unfold parseByteSize
  simp only [hv, hcore_ne, if_false, hfind, trimSuffix_append,
    trimSpace_digits ds ws2L hne hdig hw2', hne]

end parseLemmas

section parseClaims

theorem parseUint_some (s : List Char) (n : Nat) (h : parseUint s = some n) :
    s ≠ [] ∧ (∀ c ∈ s, c.isDigit = true) ∧ n = decimalValue s ∧ n < 2 ^ 64 := by
  unfold parseUint at h
  split at h
  · cases h
  · rename_i hne
    split at h
    · rename_i hall
      split at h
      · rename_i hlt
        cases h
        exact ⟨hne, by simpa [List.all_eq_true] using hall, rfl, hlt⟩
      · cases h
    · cases h

theorem trimSpace_decomp (s : List Char) :
    ∃ a b, s = a ++ trimSpace s ++ b ∧ (∀ c ∈ a, isSpace c = true) ∧
      (∀ c ∈ b, isSpace c = true) := by
  refine ⟨s.takeWhile isSpace, (((s.dropWhile isSpace).reverse).takeWhile isSpace).reverse,
    ?_, ?_, ?_⟩
  · unfold trimSpace
    have h1 := List.takeWhile_append_dropWhile isSpace s
    have h2 := List.takeWhile_append_dropWhile isSpace (s.dropWhile isSpace).reverse
    have h3 : (((s.dropWhile isSpace).reverse).dropWhile isSpace).reverse ++
        (((s.dropWhile isSpace).reverse).takeWhile isSpace).reverse = s.dropWhile isSpace := by
      rw [← List.reverse_append, h2, List.reverse_reverse]
    rw [List.append_assoc, h3, h1]
  · intro c hc
    exact List.mem_takeWhile_imp hc
  · intro c hc
    rw [List.mem_reverse] at hc
    exact List.mem_takeWhile_imp hc

theorem byteSize_no_wrap (parsed m v : Nat) (hm : 0 < m)
    (h : (if m > 0 ∧ parsed > (2 ^ 64 - 1) / m then
        (.error "size is too large" : Except String Nat)
      else .ok (parsed * m % 2 ^ 64)) = .ok v) :
    v = parsed * m ∧ parsed * m ≤ 2 ^ 64 - 1 := by
  split at h
  · cases h
  · rename_i hnot
    have hle : parsed ≤ (2 ^ 64 - 1) / m := by
      by_contra hc
      exact hnot ⟨hm, by omega⟩
    have hprod : parsed * m ≤ 2 ^ 64 - 1 := (Nat.le_div_iff_mul_le hm).1 hle
    rw [Nat.mod_eq_of_lt (by omega)] at h
    cases h
    exact ⟨rfl, hprod⟩

theorem parseByteSize_ok_shape (lower : Char → Char) (input : List Char) (v : Nat)
    (h : parseByteSize lower input = .ok v) :
    ∃ ws1 ds ws2 sfx ws3 m, input.map lower = ws1 ++ ds ++ ws2 ++ sfx ++ ws3 ∧
      (∀ c ∈ ws1, isSpace c = true) ∧ (∀ c ∈ ws2, isSpace c = true) ∧
      (∀ c ∈ ws3, isSpace c = true) ∧ ds ≠ [] ∧ (∀ c ∈ ds, c.isDigit = true) ∧
      (sfx, m) ∈ ([], 1) :: byteSizeSuffixes ∧
      v = decimalValue ds * m ∧ decimalValue ds * m ≤ 2 ^ 64 - 1 := by
  obtain ⟨a, b, hab, ha, hb⟩ := trimSpace_decomp (input.map lower)
  unfold parseByteSize at h
  simp only at h
  generalize trimSpace (input.map lower) = value at h hab
  split at h
  · cases h
  · generalize hf : byteSizeSuffixes.find? _ = found at h
    cases found with
    | none =>
      simp only at h
      split at h
      · cases h
      · split at h
        · cases h
        · rename_i parsed hp
          obtain ⟨hne, hdig, hval, _⟩ := parseUint_some _ _ hp
          obtain ⟨hv, hle⟩ := byteSize_no_wrap parsed 1 v (by decide) h
          refine ⟨a, value, [], [], b, 1, by simpa using hab, ha, by simp, hb, hne, hdig,
            List.mem_cons_self _ _, ?_, ?_⟩
          · rw [← hval]; exact hv
          · rw [← hval]; exact hle
    | some e =>
      have hmem := List.mem_of_find?_eq_some hf
      have hpred := List.find?_some hf
      simp only [hasSuffix, Bool.and_eq_true, List.isSuffixOf_iff_suffix,
        decide_eq_true_eq] at hpred
      obtain ⟨pre, hpre⟩ := hpred.1
      subst hpre
      simp only [trimSuffix_append] at h
      obtain ⟨a2, b2, hab2, ha2, hb2⟩ := trimSpace_decomp pre
      generalize trimSpace pre = ds at h hab2
      have hpos : 0 < e.2 := by
        simp only [byteSizeSuffixes, List.mem_cons, List.mem_singleton, List.not_mem_nil,
          or_false] at hmem
        rcases hmem with rfl | rfl | rfl | rfl | rfl | rfl | rfl <;> decide
      split at h
      · cases h
      · split at h
        · cases h
        · rename_i parsed hp
          obtain ⟨hne, hdig, hval, _⟩ := parseUint_some _ _ hp
          obtain ⟨hv, hle⟩ := byteSize_no_wrap parsed e.2 v hpos h
          refine ⟨a ++ a2, ds, b2, e.1, b, e.2, ?_, ?_, hb2, hb, hne, hdig,
            List.mem_cons_of_mem _ hmem, ?_, ?_⟩
          · rw [hab, hab2]
            simp [List.append_assoc]
          · intro c hc
            exact (List.mem_append.mp hc).elim (ha c) (ha2 c)
          · rw [← hval]; exact hv
          · rw [← hval]; exact hle

theorem asciiLower_isSpace (c : Char) (h : isSpace c = true) :
    isSpace (asciiLower c) = true := by
  have hc : asciiLower c = c := by
    unfold asciiLower Char.toLower
    simp [isSpace] at h
    simp only [ge_iff_le]
    split
    · omega
    · rfl
  rw [hc]; exact h

theorem asciiLower_isDigit (c : Char) (h : c.isDigit = true) : asciiLower c = c := by
  unfold asciiLower Char.toLower
  simp only [Char.isDigit, Bool.and_eq_true, decide_eq_true_eq] at h
  have h57 : c.toNat ≤ 57 := h.2
  simp only [ge_iff_le]
  split
  · omega
  · rfl

theorem byteSize_result (n m : Nat) (hm : 0 < m) :
    (n * m ≤ 2 ^ 64 - 1 →
      (match (if n < 2 ^ 64 then some n else none : Option Nat) with
        | none => (.error "invalid size format" : Except String Nat)
        | some parsed =>
          if m > 0 ∧ parsed > (2 ^ 64 - 1) / m then .error "size is too large"
          else .ok (parsed * m % 2 ^ 64)) = .ok (n * m)) ∧
    (2 ^ 64 - 1 < n * m →
      ∃ e, (match (if n < 2 ^ 64 then some n else none : Option Nat) with
        | none => (.error "invalid size format" : Except String Nat)
        | some parsed =>
          if m > 0 ∧ parsed > (2 ^ 64 - 1) / m then .error "size is too large"
          else .ok (parsed * m % 2 ^ 64)) = .error e) := by
  constructor
  · intro hle
    have hn : n < 2 ^ 64 := by
      have : n ≤ n * m := Nat.le_mul_of_pos_right n hm
      omega
    have hdiv : n ≤ (2 ^ 64 - 1) / m := (Nat.le_div_iff_mul_le hm).2 hle
    have hnot : ¬ (m > 0 ∧ n > (2 ^ 64 - 1) / m) := by
      intro hc
      omega
    simp only [hn, if_true, hnot, if_false]
    rw [Nat.mod_eq_of_lt (by omega)]
  · intro hgt
    by_cases hn : n < 2 ^ 64
    · have hdiv : ¬ n ≤ (2 ^ 64 - 1) / m := by
        intro hc
        have := (Nat.le_div_iff_mul_le hm).1 hc
        omega
      have hyes : m > 0 ∧ n > (2 ^ 64 - 1) / m := ⟨hm, by omega⟩
      simp only [hn, if_true, hyes, and_self]
      exact ⟨_, rfl⟩
    · simp only [hn, if_false]
      exact ⟨_, rfl⟩

theorem parseByteSize_map (lower : Char → Char) (input : List Char) :
    parseByteSize lower input = parseByteSize id (input.map lower) := by
  unfold parseByteSize
  rw [List.map_id]

theorem parseByteSize_form (lower : Char → Char) (ws1 ds ws2 sfx ws3 : List Char) (m : Nat)
    (hl1 : ∀ c, isSpace c = true → isSpace (lower c) = true)
    (hl2 : ∀ c, c.isDigit = true → lower c = c)
    (hw1 : ∀ c ∈ ws1, isSpace c = true) (hw2 : ∀ c ∈ ws2, isSpace c = true)
    (hw3 : ∀ c ∈ ws3, isSpace c = true)
    (hne : ds ≠ []) (hdig : ∀ c ∈ ds, c.isDigit = true)
    (hs : (sfx.map lower, m) ∈ ([], 1) :: byteSizeSuffixes) :
    0 < m ∧
    parseByteSize lower (ws1 ++ ds ++ ws2 ++ sfx ++ ws3) =
      match (if decimalValue ds < 2 ^ 64 then some (decimalValue ds) else none : Option Nat) with
      | none => .error "invalid size format"
      | some parsed =>
        if m > 0 ∧ parsed > (2 ^ 64 - 1) / m then .error "size is too large"
        else .ok (parsed * m % 2 ^ 64) := by
  constructor
  · simp only [byteSizeSuffixes, List.mem_cons, Prod.mk.injEq, List.mem_singleton,
      List.not_mem_nil, or_false] at hs
    rcases hs with ⟨_, rfl⟩ | ⟨_, rfl⟩ | ⟨_, rfl⟩ | ⟨_, rfl⟩ | ⟨_, rfl⟩ | ⟨_, rfl⟩ |
      ⟨_, rfl⟩ | ⟨_, rfl⟩ <;> decide
  · rw [← parseUint_digits ds hne hdig]
    rw [List.mem_cons] at hs
    rcases hs with hnil | hmem
    · simp only [Prod.mk.injEq, List.map_eq_nil_iff] at hnil
      obtain ⟨rfl, rfl⟩ := hnil
      have h := parseByteSize_no_suffix lower ws1 ds (ws2 ++ ws3) hl1 hl2 hw1
        (fun c hc => (List.mem_append.mp hc).elim (hw2 c) (hw3 c)) hne hdig
      simpa [List.append_assoc] using h
    · exact parseByteSize_with_suffix lower ws1 ds ws2 sfx ws3 m hl1 hl2 hw1 hw2 hw3 hne hdig
        hmem

/-- C22: for an input made of white space, a non-empty string of decimal
digits denoting `n`, white space, a suffix whose lower case is none, `b`, `k`,
`ki`, `m`, `mi`, `g` or `gi`, with multiplier `m`, and white space,
`parseByteSize` returns `n * m` when `n * m` is at most 2^64 - 1 and an error
when it is more; it returns an error for the empty string; and for every input
it returns a value `v` exactly when the lower case of the input has that form
with `v = n * m` at most 2^64 - 1, so a returned value is never a wrapped-around
product, and every input whose lower case has not that form, any input without
a valid decimal number among them, gets an error. -/
theorem parseByteSize_exact (lower : Char → Char) (ws1 ds ws2 sfx ws3 : List Char) (m : Nat)
    (hl1 : ∀ c, isSpace c = true → isSpace (lower c) = true)
    (hl2 : ∀ c, c.isDigit = true → lower c = c)
    (hw1 : ∀ c ∈ ws1, isSpace c = true) (hw2 : ∀ c ∈ ws2, isSpace c = true)
    (hw3 : ∀ c ∈ ws3, isSpace c = true)
    (hne : ds ≠ []) (hdig : ∀ c ∈ ds, c.isDigit = true)
    (hs : (sfx.map lower, m) ∈ ([], 1) :: byteSizeSuffixes) :
    (decimalValue ds * m ≤ 2 ^ 64 - 1 →
      parseByteSize lower (ws1 ++ ds ++ ws2 ++ sfx ++ ws3) = .ok (decimalValue ds * m)) ∧
    (2 ^ 64 - 1 < decimalValue ds * m →
      ∃ e, parseByteSize lower (ws1 ++ ds ++ ws2 ++ sfx ++ ws3) = .error e) ∧
    parseByteSize lower [] = .error "size must be provided" ∧
    (∀ input v, parseByteSize lower input = .ok v ↔
      ∃ a digits b suffix c mult, input.map lower = a ++ digits ++ b ++ suffix ++ c ∧
        (∀ x ∈ a, isSpace x = true) ∧ (∀ x ∈ b, isSpace x = true) ∧
        (∀ x ∈ c, isSpace x = true) ∧ digits ≠ [] ∧ (∀ x ∈ digits, x.isDigit = true) ∧
        (suffix, mult) ∈ ([], 1) :: byteSizeSuffixes ∧
        v = decimalValue digits * mult ∧ decimalValue digits * mult ≤ 2 ^ 64 - 1) ∧
    (∀ input,
      (¬ ∃ a digits b suffix c mult, input.map lower = a ++ digits ++ b ++ suffix ++ c ∧
        (∀ x ∈ a, isSpace x = true) ∧ (∀ x ∈ b, isSpace x = true) ∧
        (∀ x ∈ c, isSpace x = true) ∧ digits ≠ [] ∧ (∀ x ∈ digits, x.isDigit = true) ∧
        (suffix, mult) ∈ ([], 1) :: byteSizeSuffixes ∧
        decimalValue digits * mult ≤ 2 ^ 64 - 1) →
      ∃ e, parseByteSize lower input = .error e) := by
  obtain ⟨hm, hform⟩ :=
    parseByteSize_form lower ws1 ds ws2 sfx ws3 m hl1 hl2 hw1 hw2 hw3 hne hdig hs
  have hres := byteSize_result (decimalValue ds) m hm
  have hiff : ∀ input v, parseByteSize lower input = .ok v ↔
      ∃ a digits b suffix c mult, input.map lower = a ++ digits ++ b ++ suffix ++ c ∧
        (∀ x ∈ a, isSpace x = true) ∧ (∀ x ∈ b, isSpace x = true) ∧
        (∀ x ∈ c, isSpace x = true) ∧ digits ≠ [] ∧ (∀ x ∈ digits, x.isDigit = true) ∧
        (suffix, mult) ∈ ([], 1) :: byteSizeSuffixes ∧
        v = decimalValue digits * mult ∧ decimalValue digits * mult ≤ 2 ^ 64 - 1 := by
    intro input v
    constructor
    · exact parseByteSize_ok_shape lower input v
    · rintro ⟨a, digits, b, suffix, c, mult, hin, ha, hb, hc, hdne, hdd, hsm, hv, hle⟩
      obtain ⟨hmp, hf⟩ := parseByteSize_form id a digits b suffix c mult (fun _ h => h)
        (fun _ _ => rfl) ha hb hc hdne hdd (by rw [List.map_id]; exact hsm)
      rw [parseByteSize_map, hin, hf, hv]
      exact (byteSize_result (decimalValue digits) mult hmp).1 hle
  refine ⟨?_, ?_, ?_, hiff, ?_⟩
  · intro hle
    rw [hform]
    exact hres.1 hle
  · intro hgt
    rw [hform]
    exact hres.2 hgt
  · simp [parseByteSize, trimSpace]
  · intro input hno
    cases hr : parseByteSize lower input with
    | error e => exact ⟨e, rfl⟩
    | ok v =>
      exfalso
      obtain ⟨a, digits, b, suffix, c, mult, hin, ha, hb, hc, hdne, hdd, hsm, _, hle⟩ :=
        (hiff input v).1 hr
      exact hno ⟨a, digits, b, suffix, c, mult, hin, ha, hb, hc, hdne, hdd, hsm, hle⟩

theorem parseByteSize_exact_witness :
    parseByteSize asciiLower " 2 KI ".toList = .ok (decimalValue "2".toList * 1024) ∧
    decimalValue "2".toList * 1024 = 2048 ∧
    (∃ e, parseByteSize asciiLower "18014398509481984k".toList = .error e) ∧
    parseByteSize asciiLower "18014398509481984k".toList = .error "size is too large" ∧
    parseByteSize asciiLower "1g".toList = .ok (1024 * 1024 * 1024) ∧
    parseByteSize asciiLower "bad".toList = .error "invalid size format" ∧
    parseByteSize asciiLower "12abc".toList = .error "invalid size format" ∧
    parseByteSize asciiLower "1.5k".toList = .error "invalid size format" ∧
    parseByteSize asciiLower "k".toList = .error "invalid size format" ∧
    parseByteSize asciiLower "18446744073709551616".toList = .error "invalid size format" :=
  ⟨(parseByteSize_exact asciiLower " ".toList "2".toList " ".toList "KI".toList " ".toList 1024
      asciiLower_isSpace asciiLower_isDigit
      (by decide) (by decide) (by decide) (by decide) (by decide) (by decide)).1 (by decide),
   by decide,
   (parseByteSize_exact asciiLower [] "18014398509481984".toList [] "k".toList [] 1024
      asciiLower_isSpace asciiLower_isDigit
      (by decide) (by decide) (by decide) (by decide) (by decide) (by decide)).2.1 (by decide),
   by decide, by decide, by decide, by decide, by decide, by decide, by decide⟩

end parseClaims

section payloadClaims

theorem replicate_flatten_getElem? (p : List Byte) (k i : Nat) (h : i < k * p.length) :
    ((List.replicate k p).flatten)[i]? = some (p.getD (i % p.length) 0) := by
  induction k generalizing i with
  | zero => simp at h
  | succ k ih =>
    rw [List.replicate_succ, List.flatten_cons]
    by_cases hi : i < p.length
    · rw [List.getElem?_append_left hi, Nat.mod_eq_of_lt hi, List.getD_eq_getElem?_getD,
        List.getElem?_eq_getElem hi]
      rfl
    · have hle : p.length ≤ i := Nat.le_of_not_lt hi
      rw [List.getElem?_append_right hle, ih (i - p.length) (by
        rw [Nat.succ_mul] at h
        omega)]
      rw [Nat.mod_eq_sub_mod hle]

theorem cycleBytes_eq_take (p : List Byte) (n k : Nat) (h : n ≤ k * p.length) :
    cycleBytes p 0 n = ((List.replicate k p).flatten).take n := by
  apply List.ext_getElem?
  intro i
  by_cases hi : i < n
  · rw [List.getElem?_take_of_lt hi, replicate_flatten_getElem? p k i (by omega)]
    unfold cycleBytes
    rw [List.getElem?_map, List.getElem?_range hi]
    simp
  · have hle : n ≤ i := Nat.le_of_not_lt hi
    rw [List.getElem?_eq_none (by rw [cycleBytes_length]; exact hle),
      List.getElem?_eq_none (by rw [List.length_take]; omega)]

/-- C23, as amended: for a GET, when the trimmed `size` parameter is empty
(then `n` is 1024) or `parseByteSize` returns `n` for it, `getFabricatedPayload`
responds, if `n` is at most 2^30, with status 200, a `Content-Length` of `n`
and a body of exactly `n` bytes, the first `n` bytes of `edgebeat` repeated,
and, if `n` is more than 2^30, with status 400 and the JSON error `size exceeds
1Gi limit` and no payload byte; for a GET, when `parseByteSize` returns an
error it responds with status 400 and that error, and no payload byte; and for
any other method it responds with status 405, the header `Allow: GET` and the
JSON error `method not allowed`, whatever the size, and no payload byte. -/
theorem getFabricatedPayload_responses {F : Type} (lower : Char → Char) (bufSize : Nat)
    (r : Request) :
    (r.method = "GET" →
      ∀ n, (trimSpace r.size = [] ∧ n = 1024) ∨
          (trimSpace r.size ≠ [] ∧ parseByteSize lower (trimSpace r.size) = .ok n) →
        (n ≤ 2 ^ 30 →
          ∃ resp : Response F, getFabricatedPayload lower bufSize r = some resp ∧
            resp =
              { status := 200, allow := none, contentType := some "application/octet-stream",
                contentLength := some (toString n), payloadBytes := some (toString n),
                body := if n = 0 then .empty
                  else .bytes (((List.replicate n edgebeatPattern).flatten).take n) } ∧
            resp.status = 200 ∧ resp.contentLength = some (toString n) ∧
            resp.body.payload = ((List.replicate n edgebeatPattern).flatten).take n ∧
            resp.body.payload.length = n) ∧
        (2 ^ 30 < n →
          getFabricatedPayload lower bufSize r =
            some ({ status := 400, allow := none, contentType := some "application/json",
                    contentLength := none, payloadBytes := none,
                    body := .error "size exceeds 1Gi limit" } : Response F))) ∧
    (r.method = "GET" →
      ∀ e, trimSpace r.size ≠ [] → parseByteSize lower (trimSpace r.size) = .error e →
        getFabricatedPayload lower bufSize r =
          some ({ status := 400, allow := none, contentType := some "application/json",
                  contentLength := none, payloadBytes := none,
                  body := .error e } : Response F)) ∧
    (∀ e : String, (Body.error e : Body F).payload = []) ∧
    (r.method ≠ "GET" →
      getFabricatedPayload lower bufSize r =
        some ({ status := 405, allow := some "GET", contentType := some "application/json",
                contentLength := none, payloadBytes := none,
                body := .error "method not allowed" } : Response F)) := by
  have hparsed : ∀ n, (trimSpace r.size = [] ∧ n = 1024) ∨
      (trimSpace r.size ≠ [] ∧ parseByteSize lower (trimSpace r.size) = .ok n) →
      (if trimSpace r.size ≠ [] then parseByteSize lower (trimSpace r.size)
        else .ok defaultFabricateBytes) = .ok n := by
    intro n hn
    rcases hn with ⟨he, rfl⟩ | ⟨hne, hp⟩
    · simp [he, defaultFabricateBytes]
    · simp [hne, hp]
  have htake : ∀ n, cycleBytes edgebeatPattern 0 n =
      ((List.replicate n edgebeatPattern).flatten).take n := by
    intro n
    exact cycleBytes_eq_take edgebeatPattern n n (by
      simp only [edgebeatPattern, List.length_cons, List.length_nil]
      omega)
  refine ⟨fun hget n hn => ⟨fun hle => ?_, fun hgt => ?_⟩, fun hget e hne hp => ?_,
    fun _ => rfl, fun hother => ?_⟩
  · have hcheck : checkMethod r "GET" = (none : Option (Response F)) := by
      simp [checkMethod, hget]
    have hnot : ¬ n > maxFabricateBytes := by
      simp only [maxFabricateBytes]
      omega
    by_cases h0 : n = 0
    · subst h0
      refine ⟨_, ?_, rfl, rfl, rfl, ?_, rfl⟩
      · simp only [getFabricatedPayload, hcheck, hparsed 0 hn]
        simp
      · simp [Body.payload]
    · refine ⟨_, ?_, rfl, rfl, rfl, ?_, ?_⟩
      · simp only [getFabricatedPayload, hcheck, hparsed n hn, copyN_eq, htake]
        simp [hnot, h0]
      · simp only [if_neg h0, Body.payload]
      · simp only [if_neg h0, Body.payload]
        rw [← htake]
        exact cycleBytes_length edgebeatPattern 0 n
  · have hcheck : checkMethod r "GET" = (none : Option (Response F)) := by
      simp [checkMethod, hget]
    have hyes : n > maxFabricateBytes := by
      simp only [maxFabricateBytes]
      omega
    simp only [getFabricatedPayload, hcheck, hparsed n hn]
    simp [hyes, writeJSON]
  · have hcheck : checkMethod r "GET" = (none : Option (Response F)) := by
      simp [checkMethod, hget]
    simp only [getFabricatedPayload, hcheck]
    simp [hne, hp, writeJSON]
  · simp [getFabricatedPayload, checkMethod, hother, writeJSON]

theorem getFabricatedPayload_responses_witness :
    (∃ resp : Response ℚ,
      getFabricatedPayload asciiLower 512 { method := "GET", size := "5".toList } = some resp ∧
        resp =
          { status := 200, allow := none, contentType := some "application/octet-stream",
            contentLength := some (toString 5), payloadBytes := some (toString 5),
            body := if 5 = 0 then .empty
              else .bytes (((List.replicate 5 edgebeatPattern).flatten).take 5) } ∧
        resp.status = 200 ∧ resp.contentLength = some (toString 5) ∧
        resp.body.payload = ((List.replicate 5 edgebeatPattern).flatten).take 5 ∧
        resp.body.payload.length = 5) ∧
    ((List.replicate 5 edgebeatPattern).flatten).take 5 = [101, 100, 103, 101, 98] ∧
    toString 5 = "5" ∧
    (getFabricatedPayload asciiLower 512 { method := "GET", size := "2g".toList } :
        Option (Response ℚ)) =
      some { status := 400, allow := none, contentType := some "application/json",
             contentLength := none, payloadBytes := none,
             body := .error "size exceeds 1Gi limit" } ∧
    (getFabricatedPayload asciiLower 512 { method := "GET", size := "bad".toList } :
        Option (Response ℚ)) =
      some { status := 400, allow := none, contentType := some "application/json",
             contentLength := none, payloadBytes := none,
             body := .error "invalid size format" } ∧
    (getFabricatedPayload asciiLower 512 { method := "GET", size := [] } :
        Option (Response ℚ)).map (fun resp => (resp.status, resp.body.payload.length)) =
      some (200, 1024) :=
  ⟨((getFabricatedPayload_responses asciiLower 512 { method := "GET", size := "5".toList }).1
      rfl 5 (Or.inr ⟨by decide, by decide⟩)).1 (by decide),
   by decide, by decide,
   ((getFabricatedPayload_responses asciiLower 512 { method := "GET", size := "2g".toList }).1
      rfl (2 * (1024 * 1024 * 1024)) (Or.inr ⟨by decide, by decide⟩)).2 (by decide),
   (getFabricatedPayload_responses asciiLower 512
      { method := "GET", size := "bad".toList }).2.1 rfl "invalid size format" (by decide)
      (by decide),
   by
    obtain ⟨resp, h1, _, h2, _, _, h3⟩ :=
      ((@getFabricatedPayload_responses ℚ asciiLower 512 { method := "GET", size := [] }).1
        rfl 1024 (Or.inl ⟨by decide, rfl⟩)).1 (by decide)
    rw [h1, Option.map_some', h2, h3]⟩

/-- C23, as stated, fails: a POST with the parsable size 5, which is at most
2^30, is answered with status 405 and the error `method not allowed`, not with
status 200 and five bytes. -/
theorem getFabricatedPayload_post_counterexample :
    parseByteSize asciiLower (trimSpace "5".toList) = .ok 5 ∧ 5 ≤ 2 ^ 30 ∧
    (getFabricatedPayload asciiLower 512 { method := "POST", size := "5".toList } :
        Option (Response ℚ)) =
      some { status := 405, allow := some "GET", contentType := some "application/json",
             contentLength := none, payloadBytes := none,
             body := .error "method not allowed" } ∧
    (getFabricatedPayload asciiLower 512 { method := "POST", size := "5".toList } :
        Option (Response ℚ)).map (fun resp => resp.status) ≠ some 200 := by
  refine ⟨by decide, by decide, ?_, ?_⟩
  · simp [getFabricatedPayload, checkMethod, writeJSON]
  · simp [getFabricatedPayload, checkMethod, writeJSON]

end payloadClaims

end Edgebeat
